import Mathlib

/-! Personal expense manager: dashboard statistics and transaction search.

A shallow embedding of the client-side derivations of the expense manager:

* `UserDashboard.js`: the `statistics` memo (income, expense, balance, savings rate,
  category breakdown, top categories, monthly trend, recent transactions, averages);
* `HomePage.js`: the `onSearch` handler, the type column's `onFilter` predicate, the
  quick-stat "Net Balance", the `exportToExcel` handler and the fetch of the snapshot;
* `ThemeContext.js`: the theme reducer and its `localStorage` items.

Amounts are exact rationals (`ℚ`).  Sums and differences of amounts and the averages are
exact: JavaScript's binary floating point is idealised away there.  The quotient and the
product behind a number printed with `toFixed(1)` (the savings rate, the category
percentages) are rounded to double precision (`toDouble`), since the digit that is printed
depends on that rounding.  A division whose divisor is zero has no finite result in
JavaScript (`NaN`, `±Infinity`); it is modelled by `none`.

Dates are the strings of the `date` property: calendar dates `YYYY-MM-DD` and date-times such
as `YYYY-MM-DDTHH:mm:ss.sssZ`.  What `new Date` and `moment` make of a string depends on the
browser: on its time zone, and for strings outside the date-time string format on the rules
of its engine.  The definitions that read a date take the browser as the parameter
`env : Browser`; `new Date` is modelled as V8 (Chrome) reads the date-time string format.
-/

namespace ExpenseManager

/-! ## Data model -/

/-- A JavaScript value held by a property of a transaction object.  A boolean or an object is
represented by `str` of the text its `toString()` gives. -/
inductive Value where
  | undefined
  | null
  | str (s : String)
  | num (q : ℚ)
  deriving DecidableEq

/-- One transaction object as delivered in `result.data.transactions`.  The named fields are
the properties the client code reads; `extra` holds the values of any further own enumerable
properties of the object. -/
structure Transaction where
  transactionId : String
  date : String
  amount : ℚ
  type : String
  category : String
  refrence : String
  description : Option String
  extra : List Value := []
  deriving DecidableEq

/-! ## JavaScript built-ins used by the code -/

/-- `parseFloat(x)` for a finite number `x`: the number itself. -/
def parseFloat (x : ℚ) : ℚ := x

/-- `a / b` on finite numbers, as the exact quotient; `none` is the non-finite result of a
division by zero. -/
def jsDiv (a b : ℚ) : Option ℚ :=
  if b = 0 then none else some (a / b)

/-- Numeric value of `x.toFixed(1)` for the number whose exact value is `x`: the sign is
split off, then `n / 10` is taken for the integer `n` closest to `10 * |x|`, the larger `n`
when two are equally close.  (From `1e21` on JavaScript prints the number itself; a
floating-point number of that size is an integer, which the rounding leaves unchanged.) -/
def toFixed1 (x : ℚ) : ℚ :=
  if x < 0 then -(((⌊(-x) * 10 + 1 / 2⌋ : ℤ) : ℚ) / 10)
  else ((⌊x * 10 + 1 / 2⌋ : ℤ) : ℚ) / 10

/-- The integer nearest to `y`; of two equally near integers the even one. -/
def roundHalfEven (y : ℚ) : ℤ :=
  if y - ⌊y⌋ < 1 / 2 then ⌊y⌋
  else if 1 / 2 < y - ⌊y⌋ then ⌊y⌋ + 1
  else if ⌊y⌋ % 2 = 0 then ⌊y⌋ else ⌊y⌋ + 1

/-- The double-precision number nearest to `x` (IEEE 754 round to nearest, ties to even):
`x` is rounded to a multiple of `2 ^ (e - 52)`, where `2 ^ e ≤ |x| < 2 ^ (e + 1)`, which
leaves 53 significant bits.  The exponent is not bounded here: overflow to `Infinity` and
the subnormal numbers are left out. -/
def toDouble (x : ℚ) : ℚ :=
  if x = 0 then 0
  else (roundHalfEven (x / 2 ^ (Int.log 2 |x| - 52)) : ℚ) * 2 ^ (Int.log 2 |x| - 52)

/-- Digits after the decimal point of `r / d` (with `r < d`), at most `fuel` of them. -/
def fracDigits : Nat → Nat → Nat → List Char
  | 0, _, _ => []
  | fuel + 1, r, d =>
    if r = 0 then [] else Nat.digitChar (r * 10 / d) :: fracDigits fuel (r * 10 % d) d

/-- `x.toString()` for a number: the decimal numeral of `x` (plain notation, which is what
JavaScript prints for magnitudes in `[1e-6, 1e21)`). -/
def numberToString (x : ℚ) : String :=
  let n := x.num.natAbs
  let d := x.den
  let frac := fracDigits 20 (n % d) d
  (if x < 0 then "-" else "") ++ Nat.repr (n / d) ++
    (if frac.isEmpty then "" else "." ++ String.mk frac)

/-- `s.toLowerCase()`, on the ASCII letters.  (JavaScript also folds non-ASCII letters; none
of the theorems below depends on which characters are folded.) -/
def toLowerCase (s : String) : String :=
  String.mk (s.data.map Char.toLower)

/-- `s.includes(search)`: `search` occurs in `s` as a contiguous substring. -/
def includes (s search : String) : Bool :=
  decide (search.data <:+: s.data)

/-- `field?.toString()`: `undefined` and `null` short-circuit the optional chain. -/
def Value.toText : Value → Option String
  | .undefined => none
  | .null => none
  | .str s => some s
  | .num q => some (numberToString q)

/-- `Object.values(transaction)`: the values of the own enumerable properties. -/
def objectValues (t : Transaction) : List Value :=
  [.str t.transactionId, .str t.date, .num t.amount, .str t.type, .str t.category,
    .str t.refrence,
    (match t.description with
      | some d => .str d
      | none => .undefined)] ++ t.extra

/-- A calendar date. -/
structure CalendarDate where
  year : Nat
  month : Nat
  day : Nat
  deriving DecidableEq

/-- The value of a decimal digit character. -/
def digitOf (c : Char) : Option Nat :=
  if 48 ≤ c.toNat ∧ c.toNat ≤ 57 then some (c.toNat - 48) else none

/-- The number written by two digit characters. -/
def twoDigits (c1 c2 : Char) : Option Nat :=
  (digitOf c1).bind fun a => (digitOf c2).map fun b => a * 10 + b

/-- The number written by four digit characters. -/
def fourDigits (c1 c2 c3 c4 : Char) : Option Nat :=
  (twoDigits c1 c2).bind fun a => (twoDigits c3 c4).map fun b => a * 100 + b

/-- Leap years of the Gregorian calendar. -/
def isLeapYear (y : Nat) : Bool :=
  (y % 4 = 0 && y % 100 != 0) || y % 400 = 0

/-- Number of days of month `m` in year `y`. -/
def daysInMonth (y m : Nat) : Nat :=
  if m = 2 then (if isLeapYear y then 29 else 28)
  else if m = 4 ∨ m = 6 ∨ m = 9 ∨ m = 11 then 30
  else 31

/-- Days from 1970-01-01 to the given date of the proleptic Gregorian calendar. -/
def daysFromCivil (d : CalendarDate) : Int :=
  let y : Int := if d.month ≤ 2 then (d.year : Int) - 1 else d.year
  let era : Int := y / 400
  let yoe : Int := y - era * 400
  let mp : Int := if d.month > 2 then (d.month : Int) - 3 else (d.month : Int) + 9
  let doy : Int := (153 * mp + 2) / 5 + (d.day : Int) - 1
  let doe : Int := yoe * 365 + yoe / 4 - yoe / 100 + doy
  era * 146097 + doe - 719468

/-- A day of the proleptic Gregorian calendar; the year may be negative. -/
structure LocalDate where
  year : Int
  month : Nat
  day : Nat
  deriving DecidableEq

/-- The calendar day with the given number of days from 1970-01-01. -/
def civilFromDays (z : Int) : LocalDate :=
  let z1 : Int := z + 719468
  let era : Int := z1 / 146097
  let doe : Int := z1 - era * 146097
  let yoe : Int := (doe - doe / 1460 + doe / 36524 - doe / 146096) / 365
  let doy : Int := doe - (365 * yoe + yoe / 4 - yoe / 100)
  let mp : Int := (5 * doy + 2) / 153
  let m : Int := if mp < 10 then mp + 3 else mp - 9
  { year := if m ≤ 2 then yoe + era * 400 + 1 else yoe + era * 400,
    month := m.toNat,
    day := (doy - (153 * mp + 2) / 5 + 1).toNat }

/-- The time of day and the time-zone designator written in a date-time string. -/
structure TimeOfDay where
  hour : Nat
  minute : Nat
  second : Nat
  millisecond : Nat
  /-- Minutes east of UTC given by `Z` or `±HH:mm`; `none` when the string names no zone. -/
  offset : Option Int
  deriving DecidableEq

/-- The fields of a string `YYYY-MM-DD` or `YYYY-MM-DDTHH:mm[:ss[.f…]][Z|±HH:mm]`. -/
structure IsoDateTime where
  date : CalendarDate
  time : Option TimeOfDay
  deriving DecidableEq

/-- The time-zone designator that ends a date-time string: nothing, `Z`, or `±HH:mm` with
`HH` at most 23 and `mm` at most 59. -/
def parseZone (cs : List Char) : Option (Option Int) :=
  match cs with
  | [] => some none
  | [z] => if z = 'Z' then some (some 0) else none
  | [sign, h1, h2, c, m1, m2] =>
    if (sign = '+' ∨ sign = '-') ∧ c = ':' then
      (twoDigits h1 h2).bind fun h =>
        (twoDigits m1 m2).bind fun m =>
          if h ≤ 23 ∧ m ≤ 59 then
            some (some (if sign = '-' then -((h * 60 + m : Nat) : Int)
              else ((h * 60 + m : Nat) : Int)))
          else none
    else none
  | _ => none

/-- Milliseconds written by the digits of a fraction of a second: its first three digits, a
missing digit counting as 0. -/
def millisOf (ds : List Char) : Nat :=
  ((ds.getD 0 '0').toNat - 48) * 100 + ((ds.getD 1 '0').toNat - 48) * 10
    + ((ds.getD 2 '0').toNat - 48)

/-- What follows the minutes: optional `:ss`, after it an optional fraction of one to nine
digits, then the time-zone designator.  Gives the seconds, the milliseconds and the zone. -/
def parseSeconds (cs : List Char) : Option (Nat × Nat × Option Int) :=
  match cs with
  | c :: s1 :: s2 :: rest =>
    if c = ':' then
      (twoDigits s1 s2).bind fun s =>
        match rest with
        | d :: more =>
          if d = '.' then
            let ds := more.takeWhile Char.isDigit
            if 1 ≤ ds.length ∧ ds.length ≤ 9 then
              (parseZone (more.dropWhile Char.isDigit)).map fun z => (s, millisOf ds, z)
            else none
          else (parseZone rest).map fun z => (s, 0, z)
        | [] => some (s, 0, none)
    else (parseZone cs).map fun z => (0, 0, z)
  | _ => (parseZone cs).map fun z => (0, 0, z)

/-- What follows the day: nothing, or `T` and a time of day. -/
def parseTime (cs : List Char) : Option (Option TimeOfDay) :=
  match cs with
  | [] => some none
  | t :: h1 :: h2 :: c :: m1 :: m2 :: rest =>
    if t = 'T' ∧ c = ':' then
      (twoDigits h1 h2).bind fun h =>
        (twoDigits m1 m2).bind fun m =>
          (parseSeconds rest).map fun p =>
            some { hour := h, minute := m, second := p.1, millisecond := p.2.1, offset := p.2.2 }
    else none
  | _ => none

/-- The fields written in a string of the date-time string format, a calendar date
`YYYY-MM-DD` alone or followed by `THH:mm`, `THH:mm:ss` or `THH:mm:ss.f…` and an optional
`Z` or `±HH:mm`; `none` for any other string.  The ranges of the fields are not checked
here. -/
def isoDateTime (s : String) : Option IsoDateTime :=
  match s.data with
  | y1 :: y2 :: y3 :: y4 :: s1 :: m1 :: m2 :: s2 :: d1 :: d2 :: rest =>
    if s1 = '-' ∧ s2 = '-' then
      (fourDigits y1 y2 y3 y4).bind fun y =>
        (twoDigits m1 m2).bind fun m =>
          (twoDigits d1 d2).bind fun d =>
            (parseTime rest).map fun t => { date := { year := y, month := m, day := d }, time := t }
    else none
  | _ => none

/-- Hour, minute and second are in range: up to 23:59:59, or 24:00:00.000, the end of the
day. -/
def TimeOfDay.inRange (t : TimeOfDay) : Bool :=
  (t.hour ≤ 23 && t.minute ≤ 59 && t.second ≤ 59) ||
    (t.hour = 24 && t.minute = 0 && t.second = 0 && t.millisecond = 0)

/-- Milliseconds from the start of the day. -/
def TimeOfDay.msOfDay (t : TimeOfDay) : Int :=
  (t.hour * 3600000 + t.minute * 60000 + t.second * 1000 + t.millisecond : Nat)

/-- The browser the page runs in, as far as the reading of a date depends on it: its time
zone, and what is made of the strings that the definitions below do not read themselves. -/
structure Browser where
  /-- `LocalTZA(t, isUTC)` of ECMAScript: the offset of local time from UTC in milliseconds,
  at the UTC time value `t` when `isUTC` holds and at the local time value `t` otherwise.
  It depends on `t` where the zone has daylight saving time. -/
  localTZA : Int → Bool → Int
  /-- `Date.parse(s)` for a string that `dateTime` below leaves to the engine, whose parsing
  rules for such strings are its own; `none` is `NaN`. -/
  dateParseOther : String → Option Int
  /-- The time value of `moment(s)` for a string outside the date-time string format read by
  `momentDate` below (the other ISO 8601 forms that moment reads, RFC 2822, and its
  fall-back to `new Date(s)`); `none` is an invalid moment. -/
  momentOther : String → Option Int

/-- Time value of `new Date(s)` in milliseconds; `none` is the `NaN` of an invalid date.
A string of the date-time string format is read as V8 reads it: the month is 01 to 12 and
the day 01 to 31, a day past the end of its month counting on into the next month; a
calendar date alone is midnight UTC; a time of day is taken at the zone offset that is
written, and in local time when none is written; an hour, minute or second out of range is
invalid.  Every other string is left to the rules of the engine. -/
def dateTime (env : Browser) (s : String) : Option ℚ :=
  match isoDateTime s with
  | some f =>
    if 1 ≤ f.date.month ∧ f.date.month ≤ 12 ∧ 1 ≤ f.date.day ∧ f.date.day ≤ 31 then
      match f.time with
      | none => some ((daysFromCivil f.date * 86400000 : Int) : ℚ)
      | some t =>
        if t.inRange then
          let wall : Int := daysFromCivil f.date * 86400000 + t.msOfDay
          match t.offset with
          | some o => some ((wall - o * 60000 : Int) : ℚ)
          | none => some ((wall - env.localTZA wall false : Int) : ℚ)
        else none
    else (env.dateParseOther s).map fun t => (t : ℚ)
  | none => (env.dateParseOther s).map fun t => (t : ℚ)

/-- The local calendar day of the time value `t`: the day of `t + LocalTZA(t, true)`. -/
def localDate (env : Browser) (t : Int) : LocalDate :=
  civilFromDays ((t + env.localTZA t true) / 86400000)

/-- The local calendar day of `moment(s)`; `none` is an invalid moment.  For a string of the
date-time string format the day must exist in its month and the time of day must be in
range.  A string with a zone designator names an instant, whose day is taken in the local
time of the browser.  A string without one is local time and its day is the day written,
24:00:00 being the start of the next day (where the zone skips a local time at a change of
its offset, the time is moved on within the day; a zone that skipped a whole day is not
modelled).  Every other string is left to `Browser.momentOther`. -/
def momentDate (env : Browser) (s : String) : Option LocalDate :=
  match isoDateTime s with
  | some f =>
    if 1 ≤ f.date.month ∧ f.date.month ≤ 12 ∧ 1 ≤ f.date.day ∧
        f.date.day ≤ daysInMonth f.date.year f.date.month then
      match f.time with
      | none => some { year := f.date.year, month := f.date.month, day := f.date.day }
      | some t =>
        if t.inRange then
          let wall : Int := daysFromCivil f.date * 86400000 + t.msOfDay
          match t.offset with
          | some o => some (localDate env (wall - o * 60000))
          | none => some (civilFromDays (wall / 86400000))
        else none
    else none
  | none => (env.momentOther s).map (localDate env)

/-- The short month names printed by the `MMM` token. -/
def monthNames : List String :=
  ["Jan", "Feb", "Mar", "Apr", "May", "Jun", "Jul", "Aug", "Sep", "Oct", "Nov", "Dec"]

/-- Text of a number below 100 as two digits. -/
def pad2 (n : Nat) : List Char :=
  [Nat.digitChar (n / 10 % 10), Nat.digitChar (n % 10)]

/-- Text of a number below 10000 as four digits. -/
def pad4 (n : Nat) : List Char :=
  pad2 (n / 100) ++ pad2 (n % 100)

/-- Decimal numeral of `n`; `fuel` is an upper bound of the number of its digits. -/
def decimalDigits : Nat → Nat → List Char
  | 0, _ => []
  | fuel + 1, n =>
    if n < 10 then [Nat.digitChar n] else decimalDigits fuel (n / 10) ++ [Nat.digitChar (n % 10)]

/-- Text of a year under the token `YYYY`: four digits from 0 to 9999, a sign and at least
four digits for a negative year, `+` and the numeral beyond 9999. -/
def formatYear (y : Int) : List Char :=
  if y < 0 then
    '-' :: (if y.natAbs < 10000 then pad4 y.natAbs else decimalDigits y.natAbs y.natAbs)
  else if y ≤ 9999 then pad4 y.toNat
  else '+' :: decimalDigits y.toNat y.toNat

/-- `moment(s).format("MMM YYYY")`. -/
def formatMonthYear (env : Browser) (s : String) : String :=
  match momentDate env s with
  | some d => String.mk ((monthNames.getD (d.month - 1) "").data ++ ' ' :: formatYear d.year)
  | none => "Invalid date"

/-- `moment(s).format("YYYY-MM-DD")`. -/
def formatIsoDate (env : Browser) (s : String) : String :=
  match momentDate env s with
  | some d => String.mk (formatYear d.year ++ '-' :: pad2 d.month ++ '-' :: pad2 d.day)
  | none => "Invalid date"

/-- Whether `compare(a, b)` lets `a` stand before `b`: the result is not positive.  A `NaN`
result (`none`) counts as `0`. -/
def notAfter (v : Option ℚ) : Bool :=
  match v with
  | some q => decide (q ≤ 0)
  | none => true

/-- `array.sort(compare)`.  The sort is stable; when `compare` orders the elements
consistently every stable sort returns this list.  (For an inconsistent `compare` the order
is implementation-defined and this list is one admissible outcome.) -/
def jsSort {α : Type} (compare : α → α → Option ℚ) (l : List α) : List α :=
  l.insertionSort (fun a b => notAfter (compare a b) = true)

/-- The array index a property name denotes: the name is the canonical numeral of an
integer below `2^32 - 1`. -/
def arrayIndex (key : String) : Option Nat :=
  let cs := key.data
  if !cs.isEmpty && cs.all Char.isDigit && (cs.head? != some '0' || cs.length = 1) then
    let n := cs.foldl (fun acc c => acc * 10 + (c.toNat - 48)) 0
    if n < 4294967295 then some n else none
  else none

/-- `Object.entries(o)` for an object whose own properties were created in the order of the
list `o`: the array-index names first, in ascending numeric order, then the other names in
creation order. -/
def objectEntries {β : Type} (o : List (String × β)) : List (String × β) :=
  (o.filter (fun e => (arrayIndex e.1).isSome)).insertionSort
      (fun a b => (arrayIndex a.1).getD 0 ≤ (arrayIndex b.1).getD 0) ++
    o.filter (fun e => (arrayIndex e.1).isNone)

/-- `n || 1` for a length `n`. -/
def orOne (n : Nat) : Nat :=
  if n = 0 then 1 else n

/-! ## `UserDashboard.js`: statistics -/

/-- One entry of `categoryData`. -/
structure CategoryGroup where
  amount : ℚ
  count : Nat
  type : String
  deriving DecidableEq

/-- The own properties of the `categoryData` object, in insertion order. -/
abbrev CategoryData := List (String × CategoryGroup)

/-- Property names every object created by `{}` inherits from `Object.prototype`. -/
def objectPrototypeKeys : List String :=
  ["constructor", "__defineGetter__", "__defineSetter__", "hasOwnProperty",
    "__lookupGetter__", "__lookupSetter__", "isPrototypeOf", "propertyIsEnumerable",
    "toString", "valueOf", "__proto__", "toLocaleString"]

/-- Truthiness of `acc[key]`: an own property holds a group object, an inherited name holds a
function or the prototype object; both are truthy.  Any other name gives `undefined`. -/
def truthyAt {β : Type} (acc : List (String × β)) (key : String) : Bool :=
  acc.any (fun e => e.1 = key) || objectPrototypeKeys.contains key

/-- Body of the `reduce` callback that builds `categoryData`.  When `acc[t.category]` is an
inherited value the two `+=` assignments land on that inherited object, not on `acc`. -/
def categoryStep (acc : CategoryData) (t : Transaction) : CategoryData :=
  let acc1 :=
    if !truthyAt acc t.category then
      acc ++ [(t.category, { amount := 0, count := 0, type := t.type })]
    else acc
  acc1.map fun e =>
    if e.1 = t.category then
      (e.1, { e.2 with amount := e.2.amount + parseFloat t.amount, count := e.2.count + 1 })
    else e

/-- One entry of `monthlyTrend`. -/
structure MonthBucket where
  income : ℚ
  expense : ℚ
  deriving DecidableEq

/-- The own properties of the `monthlyTrend` object, in insertion order. -/
abbrev MonthlyTrend := List (String × MonthBucket)

/-- Body of the `forEach` callback that fills `monthlyTrend`. -/
def monthStep (env : Browser) (monthlyTrend : MonthlyTrend) (t : Transaction) : MonthlyTrend :=
  let month := formatMonthYear env t.date
  let trend1 :=
    if !truthyAt monthlyTrend month then monthlyTrend ++ [(month, { income := 0, expense := 0 })]
    else monthlyTrend
  trend1.map fun e =>
    if e.1 = month then
      if t.type = "Income" then (e.1, { e.2 with income := e.2.income + parseFloat t.amount })
      else (e.1, { e.2 with expense := e.2.expense + parseFloat t.amount })
    else e

/-- The `statistics` memo's result. -/
structure Statistics where
  income : ℚ
  expense : ℚ
  balance : ℚ
  savingsRate : Option ℚ
  categoryData : CategoryData
  topExpenseCategories : List (String × CategoryGroup)
  topIncomeCategories : List (String × CategoryGroup)
  monthlyTrend : MonthlyTrend
  recentTransactions : List Transaction
  avgIncome : Option ℚ
  avgExpense : Option ℚ
  totalTransactions : Nat

/-- The `statistics` memo of `UserDashboard.js`, evaluated in the browser `env`. -/
def statistics (env : Browser) (allTransactions : List Transaction) : Statistics :=
  let income :=
    (allTransactions.filter (fun t => t.type = "Income")).foldl
      (fun acc t => acc + parseFloat t.amount) 0
  let expense :=
    (allTransactions.filter (fun t => t.type = "Expense")).foldl
      (fun acc t => acc + parseFloat t.amount) 0
  let balance := income - expense
  let savingsRate :=
    if income > 0 then
      (jsDiv balance income).map (fun r => toFixed1 (toDouble (toDouble r * 100)))
    else some 0
  let categoryData := allTransactions.foldl categoryStep []
  let topExpenseCategories :=
    ((jsSort (fun a b => some (b.2.amount - a.2.amount))
      ((objectEntries categoryData).filter (fun e => e.2.type = "Expense"))).take 5)
  let topIncomeCategories :=
    ((jsSort (fun a b => some (b.2.amount - a.2.amount))
      ((objectEntries categoryData).filter (fun e => e.2.type = "Income"))).take 5)
  let monthlyTrend := allTransactions.foldl (monthStep env) []
  let recentTransactions :=
    (jsSort
      (fun a b => (dateTime env b.date).bind fun x => (dateTime env a.date).map fun y => x - y)
      allTransactions).take 5
  let avgIncome :=
    jsDiv income (orOne (allTransactions.filter (fun t => t.type = "Income")).length)
  let avgExpense :=
    jsDiv expense (orOne (allTransactions.filter (fun t => t.type = "Expense")).length)
  { income := income, expense := expense, balance := balance, savingsRate := savingsRate,
    categoryData := categoryData, topExpenseCategories := topExpenseCategories,
    topIncomeCategories := topIncomeCategories, monthlyTrend := monthlyTrend,
    recentTransactions := recentTransactions, avgIncome := avgIncome, avgExpense := avgExpense,
    totalTransactions := allTransactions.length }

/-- Sum of `amount` over the category groups of the given type. -/
def groupTotal (categoryData : CategoryData) (type : String) : ℚ :=
  ((categoryData.filter (fun e => e.2.type = type)).map (fun e => e.2.amount)).sum

/-! ## `HomePage.js`: search, type filter, quick stats -/

/-- The transaction state of `HomePage`. -/
structure HomeState where
  allTransection : List Transaction
  filteredTransactions : List Transaction
  searchValue : String

/-- The callback given to `some`: the field, as lower-case text, includes the search text. -/
def fieldMatches (searchLower : String) (field : Value) : Bool :=
  match field.toText with
  | some txt => includes (toLowerCase txt) searchLower
  | none => false

/-- The list `onSearch` hands to `setFilteredTransactions`. -/
def searchFilter (allTransection : List Transaction) (value : String) : List Transaction :=
  if value = "" then allTransection
  else
    let searchLower := toLowerCase value
    allTransection.filter fun transaction =>
      (objectValues transaction).any (fieldMatches searchLower)

/-- The `onSearch` handler. -/
def onSearch (st : HomeState) (value : String) : HomeState :=
  { st with searchValue := value, filteredTransactions := searchFilter st.allTransection value }

/-- The type column's `onFilter`. -/
def onFilter (value : String) (record : Transaction) : Bool :=
  record.type = value

/-- Rows the table keeps when the type column is filtered by `value`: those on which
`onFilter` holds. -/
def typeFilter (value : String) (rows : List Transaction) : List Transaction :=
  rows.filter (onFilter value)

/-- The quick-stat "Net Balance" over the visible list. -/
def netBalance (filteredTransactions : List Transaction) : ℚ :=
  (filteredTransactions.filter (fun t => t.type = "Income")).foldl
      (fun acc t => acc + parseFloat t.amount) 0 -
    (filteredTransactions.filter (fun t => t.type = "Expense")).foldl
      (fun acc t => acc + parseFloat t.amount) 0

/-- One row of `exportData`. -/
structure ExportRow where
  sNo : Nat
  date : String
  amount : ℚ
  type : String
  category : String
  reference : String
  description : String
  deriving DecidableEq

/-- The `exportData` array: `filteredTransactions.map((transaction, index) => …)`. -/
def exportData (env : Browser) (filteredTransactions : List Transaction) : List ExportRow :=
  filteredTransactions.enum.map fun p =>
    { sNo := p.1 + 1,
      date := formatIsoDate env p.2.date,
      amount := p.2.amount,
      type := p.2.type,
      category := p.2.category,
      reference := p.2.refrence,
      description :=
        match p.2.description with
        | some d => d
        | none => "" }

/-- What one call of `exportToExcel` leaves behind. -/
structure ExportOutcome where
  transactionError : Option String
  message : String
  rows : Option (List ExportRow)
  savedFile : Option String
  deriving DecidableEq

/-- The `exportToExcel` handler on the list it reads as `filteredTransactions`.
`sheetWrites rows` tells whether the spreadsheet library and `saveAs` run through without
throwing; `currentDate` is `moment().format("DD-MM-YYYY")`. -/
def exportToExcel (env : Browser) (sheetWrites : List ExportRow → Bool) (currentDate : String)
    (filteredTransactions : List Transaction) : ExportOutcome :=
  if filteredTransactions.length = 0 then
    { transactionError := some "No data available to export.",
      message := "No transactions to export", rows := none, savedFile := none }
  else
    let exportData := exportData env filteredTransactions
    if sheetWrites exportData then
      { transactionError := none, message := "Excel file downloaded successfully",
        rows := some exportData, savedFile := some ("Transactions(" ++ currentDate ++ ").xlsx") }
    else
      { transactionError := some "Failed to export data", message := "Failed to export data",
        rows := some exportData, savedFile := none }

/-- `((amount / typeTotal) * 100).toFixed(1)`: the percentage printed next to a top
category, the quotient and the product rounded to double precision; `none` when the division
has no finite result. -/
def categoryPercentage (amount typeTotal : ℚ) : Option ℚ :=
  (jsDiv amount typeTotal).map (fun r => toFixed1 (toDouble (toDouble r * 100)))

/-- The percentages rendered for `statistics.topExpenseCategories`. -/
def expensePercentages (s : Statistics) : List (Option ℚ) :=
  s.topExpenseCategories.map (fun e => categoryPercentage e.2.amount s.expense)

/-- The percentages rendered for `statistics.topIncomeCategories`. -/
def incomePercentages (s : Statistics) : List (Option ℚ) :=
  s.topIncomeCategories.map (fun e => categoryPercentage e.2.amount s.income)

/-- What `request` resolves to in `getAllTransactions`: a result with a (truthy) `error`, or a
result with `data`, whose `transactions` may be missing. -/
inductive FetchResult where
  | failed (error : String)
  | succeeded (transactions : Option (List Transaction))

/-- The HomePage component between two events: its transaction state, the error it shows,
and `exportSees`, the `filteredTransactions` captured by the memoized `exportToExcel`
(`useCallback(…, [allTransection])` keeps the function of the render in which
`allTransection` last changed). -/
structure HomePage where
  state : HomeState
  transactionError : Option String
  exportSees : List Transaction

/-- The component after its first render. -/
def initialPage : HomePage :=
  { state := { allTransection := [], filteredTransactions := [], searchValue := "" },
    transactionError := none, exportSees := [] }

/-- The `getAllTransactions` callback once `request` has resolved.  `batched` tells whether
React applies the three state updates in one render (React 18) or renders after each one
(earlier versions, for updates made after an `await`); in the second case the render that
sees the new `allTransection` still has the previous `filteredTransactions`. -/
def getAllTransactions (batched : Bool) (page : HomePage) (result : FetchResult) : HomePage :=
  match result with
  | .failed error => { page with transactionError := some error }
  | .succeeded none => { page with transactionError := none }
  | .succeeded (some transactions) =>
    { state := { allTransection := transactions, filteredTransactions := transactions,
                 searchValue := "" },
      transactionError := none,
      exportSees := if batched then transactions else page.state.filteredTransactions }

/-- The `onSearch` handler on the component: `allTransection` is not set, so the memoized
`exportToExcel` stays. -/
def searchPage (page : HomePage) (value : String) : HomePage :=
  { page with state := onSearch page.state value }

/-- A click on the export button: the memoized `exportToExcel` runs on the list it captured. -/
def exportClicked (env : Browser) (sheetWrites : List ExportRow → Bool) (currentDate : String)
    (page : HomePage) : ExportOutcome :=
  exportToExcel env sheetWrites currentDate page.exportSees

/-- States of the component reached from the first render by fetch results and searches. -/
inductive Reachable (batched : Bool) : HomePage → Prop where
  | init : Reachable batched initialPage
  | fetch (page : HomePage) (result : FetchResult) :
      Reachable batched page → Reachable batched (getAllTransactions batched page result)
  | search (page : HomePage) (value : String) :
      Reachable batched page → Reachable batched (searchPage page value)

/-! ## `ThemeContext.js`: preferences -/

/-- The reducer state of the theme context. -/
structure ThemeState where
  theme : String
  accentColor : String
  fontSize : String
  animations : Bool
  deriving DecidableEq

/-- The four `localStorage` items of the theme context; `none` is a missing item. -/
structure ThemeStorage where
  theme : Option String
  accentColor : Option String
  fontSize : Option String
  animations : Option String
  deriving DecidableEq

/-- `localStorage.getItem(key) || fallback`: a missing item and the empty string are falsy. -/
def orDefault (item : Option String) (fallback : String) : String :=
  match item with
  | some v => if v = "" then fallback else v
  | none => fallback

/-- The module constant `initialState`, evaluated once when the application is loaded. -/
def initialState (storage : ThemeStorage) : ThemeState :=
  { theme := orDefault storage.theme "dark",
    accentColor := orDefault storage.accentColor "#06B6D4",
    fontSize := orDefault storage.fontSize "medium",
    animations := storage.animations != some "false" }

/-- The actions dispatched to `themeReducer`; `other` is any action type the `switch` does
not list. -/
inductive ThemeAction where
  | TOGGLE_THEME
  | SET_THEME (payload : String)
  | SET_ACCENT_COLOR (payload : String)
  | SET_FONT_SIZE (payload : String)
  | RESET_SETTINGS
  | other

/-- The function `themeReducer`, with `localStorage` passed through.  `loaded` is the storage
the application was loaded with, from which the constant `initialState` was computed. -/
def themeReducer (loaded : ThemeStorage) (state : ThemeState) (storage : ThemeStorage)
    (action : ThemeAction) : ThemeState × ThemeStorage :=
  match action with
  | .TOGGLE_THEME =>
    let newTheme := if state.theme = "dark" then "light" else "dark"
    ({ state with theme := newTheme }, { storage with theme := some newTheme })
  | .SET_THEME payload =>
    ({ state with theme := payload }, { storage with theme := some payload })
  | .SET_ACCENT_COLOR payload =>
    ({ state with accentColor := payload }, { storage with accentColor := some payload })
  | .SET_FONT_SIZE payload =>
    ({ state with fontSize := payload }, { storage with fontSize := some payload })
  | .RESET_SETTINGS =>
    (initialState loaded,
      { theme := none, accentColor := none, fontSize := none, animations := none })
  | .other => (state, storage)

/-- The reducer state and the storage after a sequence of actions dispatched in a session that
was loaded with storage `loaded`. -/
def dispatchAll (loaded : ThemeStorage) (actions : List ThemeAction) :
    ThemeState × ThemeStorage :=
  actions.foldl (fun p action => themeReducer loaded p.1 p.2 action)
    (initialState loaded, loaded)

/-! ## Auxiliary definitions -/

/-- The update `acc[t.category].amount += …; acc[t.category].count += 1` on own entries. -/
def bump (t : Transaction) (e : String × CategoryGroup) : String × CategoryGroup :=
  if e.1 = t.category then
    (e.1, { e.2 with amount := e.2.amount + parseFloat t.amount, count := e.2.count + 1 })
  else e

/-- The six field values named by the search contract: amount, type, category, reference,
description and date. -/
def listedValues (t : Transaction) : List Value :=
  [.num t.amount, .str t.type, .str t.category, .str t.refrence,
    (match t.description with
      | some d => .str d
      | none => .undefined),
    .str t.date]

/-- The `sort` callback of the top-category lists: `(a, b) => b[1].amount - a[1].amount`. -/
def byAmountDescending (a b : String × CategoryGroup) : Option ℚ :=
  some (b.2.amount - a.2.amount)

/-- The expression shared by `topExpenseCategories` and `topIncomeCategories`:
`Object.entries(categoryData).filter(…type…).sort(…).slice(0, 5)`. -/
def topCategories (type : String) (categoryData : CategoryData) :
    List (String × CategoryGroup) :=
  (jsSort byAmountDescending
    ((objectEntries categoryData).filter (fun e => e.2.type = type))).take 5

/-- The `sort` callback of `recentTransactions`: `(a, b) => new Date(b.date) - new Date(a.date)`. -/
def byDateDescending (env : Browser) (a b : Transaction) : Option ℚ :=
  (dateTime env b.date).bind fun x => (dateTime env a.date).map fun y => x - y

/-- The distinct names of a list, in the order in which they first occur. -/
def firstSeen (names : List String) : List String :=
  names.foldl (fun acc k => if k ∈ acc then acc else acc ++ [k]) []

/-- The time value of `new Date(t.date)`; 0 stands in for an invalid date. -/
def timeOf (env : Browser) (t : Transaction) : ℚ :=
  (dateTime env t.date).getD 0

/-- The (year, month) pair in which a date falls in the local time of the browser, as read by
`moment`; `none` for an invalid date. -/
def monthOf (env : Browser) (s : String) : Option (Int × Nat) :=
  (momentDate env s).map fun d => (d.year, d.month)

/-- The value `o[key]` of an own property, `none` when the object has no such own property. -/
def ownProperty {β : Type} (o : List (String × β)) (key : String) : Option β :=
  (o.find? (fun e => e.1 = key)).map Prod.snd

/-- The effect of one record on the bucket of its month. -/
def addToBucket (t : Transaction) (b : MonthBucket) : MonthBucket :=
  if t.type = "Income" then { b with income := b.income + parseFloat t.amount }
  else { b with expense := b.expense + parseFloat t.amount }

/-- Sum of the amounts of the Income records whose date prints as month `key`. -/
def monthIncome (env : Browser) (key : String) (l : List Transaction) : ℚ :=
  ((l.filter (fun t => formatMonthYear env t.date = key ∧ t.type = "Income")).map
    (fun t => t.amount)).sum

/-- Sum of the amounts of the records other than Income whose date prints as month `key`. -/
def monthOther (env : Browser) (key : String) (l : List Transaction) : ℚ :=
  ((l.filter (fun t => formatMonthYear env t.date = key ∧ t.type ≠ "Income")).map
    (fun t => t.amount)).sum

/-- Specification of the stable sort of `l` by date, newest first: `S` is a rearrangement of
`l`, its dates are non-increasing, and records of equal date keep their order in `l`. -/
def StableDateSort (env : Browser) (l S : List Transaction) : Prop :=
  S.Perm l ∧ S.Pairwise (fun a b => timeOf env b ≤ timeOf env a) ∧
    ∀ v : ℚ, S.filter (fun t => timeOf env t = v) = l.filter (fun t => timeOf env t = v)

/-- How one record changes the value found under `key` in `monthlyTrend`. -/
def bucketStep (env : Browser) (key : String) (v : Option MonthBucket) (t : Transaction) :
    Option MonthBucket :=
  if formatMonthYear env t.date = key then
    some (addToBucket t (v.getD { income := 0, expense := 0 }))
  else v

/-- Sum of the amounts of the Income records dated in the local month `ym`. -/
def incomeOfMonth (env : Browser) (ym : Option (Int × Nat)) (l : List Transaction) : ℚ :=
  ((l.filter (fun t => monthOf env t.date = ym ∧ t.type = "Income")).map (fun t => t.amount)).sum

/-- Sum of the amounts of the Expense records dated in the local month `ym`. -/
def expenseOfMonth (env : Browser) (ym : Option (Int × Nat)) (l : List Transaction) : ℚ :=
  ((l.filter (fun t => monthOf env t.date = ym ∧ t.type = "Expense")).map (fun t => t.amount)).sum

/-- Sum of the amounts of the records other than Income dated in the local month `ym`. -/
def otherOfMonth (env : Browser) (ym : Option (Int × Nat)) (l : List Transaction) : ℚ :=
  ((l.filter (fun t => monthOf env t.date = ym ∧ t.type ≠ "Income")).map (fun t => t.amount)).sum

/-- The calendar date written by a date-only string `YYYY-MM-DD` that names an existing day. -/
def calendarDate (s : String) : Option CalendarDate :=
  match isoDateTime s with
  | some f =>
    if f.time.isNone ∧ 1 ≤ f.date.month ∧ f.date.month ≤ 12 ∧ 1 ≤ f.date.day ∧
        f.date.day ≤ daysInMonth f.date.year f.date.month then some f.date
    else none
  | none => none

/-- Value of a decimal numeral. -/
def numeralValue (cs : List Char) : Nat :=
  cs.foldl (fun acc c => acc * 10 + (c.toNat - 48)) 0

/-- The year a text of `formatYear` stands for. -/
def yearOfText (cs : List Char) : Int :=
  match cs with
  | c :: rest =>
    if c = '-' then -(numeralValue rest : Int)
    else if c = '+' then (numeralValue rest : Int)
    else (numeralValue cs : Int)
  | [] => 0

/-- Days in the `Y` years that precede 1 March of year `Y`, counted from 1 March of year 0. -/
def yearDays (Y : Int) : Int :=
  365 * Y + Y / 4 - Y / 100 + Y / 400

/-- A calendar date that exists: month 1 to 12, day 1 to the length of the month. -/
def CalendarDate.Valid (d : CalendarDate) : Prop :=
  1 ≤ d.month ∧ d.month ≤ 12 ∧ 1 ≤ d.day ∧ d.day ≤ daysInMonth d.year d.month

/-- Calendar order: by year, then month, then day. -/
def CalendarDate.Before (a b : CalendarDate) : Prop :=
  a.year < b.year ∨ (a.year = b.year ∧ (a.month < b.month ∨ (a.month = b.month ∧ a.day < b.day)))

/-- How one record changes the value found under `key` in `categoryData`. -/
def groupStep (key : String) (v : Option CategoryGroup) (t : Transaction) :
    Option CategoryGroup :=
  if t.category = key then
    match v with
    | some g => some { g with amount := g.amount + parseFloat t.amount, count := g.count + 1 }
    | none =>
      if key ∈ objectPrototypeKeys then none
      else some { amount := 0 + parseFloat t.amount, count := 0 + 1, type := t.type }
  else v

/-- Sum of the amounts of the records of category `key`. -/
def categoryAmount (key : String) (l : List Transaction) : ℚ :=
  ((l.filter (fun t => t.category = key)).map (fun t => t.amount)).sum

/-- Number of records of category `key`. -/
def categoryCount (key : String) (l : List Transaction) : Nat :=
  (l.filter (fun t => t.category = key)).length

/-- Type of the first record of category `key`. -/
def categoryFirstType (key : String) (l : List Transaction) : String :=
  ((l.find? (fun t => t.category = key)).map (fun t => t.type)).getD ""

/-- Sum of `count` over all category groups. -/
def countTotal (categoryData : CategoryData) : Nat :=
  (categoryData.map (fun e => e.2.count)).sum

/-- Sum of `income` over all buckets of `monthlyTrend`. -/
def trendIncome (monthlyTrend : MonthlyTrend) : ℚ :=
  (monthlyTrend.map (fun e => e.2.income)).sum

/-- Sum of `expense` over all buckets of `monthlyTrend`. -/
def trendExpense (monthlyTrend : MonthlyTrend) : ℚ :=
  (monthlyTrend.map (fun e => e.2.expense)).sum

/-! ## Sample data -/

/-- A browser whose local time is a fixed number of minutes ahead of UTC and which reads no
date outside the date-time string format. -/
def fixedOffset (minutes : Int) : Browser :=
  { localTZA := fun _ _ => minutes * 60000,
    dateParseOther := fun _ => none,
    momentOther := fun _ => none }

/-- A browser on UTC. -/
def utc : Browser := fixedOffset 0

/-- A browser in India, five and a half hours ahead of UTC. -/
def india : Browser := fixedOffset 330

/-- A browser in New York in winter, five hours behind UTC. -/
def newYork : Browser := fixedOffset (-300)


/-- The scenario's Expense record of amount 300. -/
def sampleFood : Transaction :=
  { transactionId := "t2", date := "2024-01-10", amount := 300, type := "Expense",
    category := "Expense in Food", refrence := "lunch", description := some "team" }

/-- The three-record scenario. -/
def sampleRecords : List Transaction :=
  [{ transactionId := "t1", date := "2024-01-05", amount := 1000, type := "Income",
      category := "Income in Salary", refrence := "pay", description := none },
   sampleFood,
   { transactionId := "t3", date := "2024-02-01", amount := 200, type := "Expense",
      category := "Expense in Bills", refrence := "power", description := none }]

/-- Two records that share a category but not a type. -/
def mixedTypeRecords : List Transaction :=
  [{ transactionId := "m1", date := "2024-03-01", amount := 100, type := "Income",
      category := "Misc", refrence := "gift", description := none },
   { transactionId := "m2", date := "2024-03-02", amount := 50, type := "Expense",
      category := "Misc", refrence := "fee", description := none }]

/-- One Income record whose category is a name inherited from `Object.prototype`. -/
def inheritedNameRecords : List Transaction :=
  [{ transactionId := "p1", date := "2024-03-03", amount := 100, type := "Income",
      category := "constructor", refrence := "bonus", description := none }]

/-- An Income record with a negative amount. -/
def negativeIncome : Transaction :=
  { transactionId := "b1", date := "2024-04-01", amount := -5, type := "Income",
    category := "Income in Tip", refrence := "tip", description := none }

/-- A record whose type is neither Income nor Expense. -/
def unknownType : Transaction :=
  { transactionId := "b2", date := "2024-04-02", amount := 40, type := "Transfer",
    category := "Other", refrence := "move", description := none }

/-- A well-formed Income record followed by the two malformed ones. -/
def malformedRecords : List Transaction :=
  [{ transactionId := "b0", date := "2024-04-01", amount := 100, type := "Income",
      category := "Income in Salary", refrence := "pay", description := none },
   negativeIncome, unknownType]

/-- The two Expense records of the scenario. -/
def expenseOnlyRecords : List Transaction :=
  sampleRecords.filter (fun t => t.type = "Expense")

/-- A record whose identifier contains "a1b" while none of its amount, type, category,
reference, description and date does. -/
def idOnlyRecord : Transaction :=
  { transactionId := "a1b2", date := "2024-01-10", amount := 5, type := "Expense",
    category := "Expense in Food", refrence := "lunch", description := some "team" }

/-- The page state right after the three-record scenario was fetched. -/
def sampleState : HomeState :=
  { allTransection := sampleRecords, filteredTransactions := sampleRecords, searchValue := "" }

/-- Two Expense records of equal amount; the category of the second is an array index. -/
def integerNameRecords : List Transaction :=
  [{ transactionId := "n1", date := "2024-05-01", amount := 50, type := "Expense",
      category := "Rent", refrence := "may", description := none },
   { transactionId := "n2", date := "2024-05-02", amount := 50, type := "Expense",
      category := "2024", refrence := "plan", description := none }]

/-- Seven records in seven different months, the oldest seventeen months before the newest. -/
def sevenMonthRecords : List Transaction :=
  ["2023-01-15", "2024-01-15", "2024-02-15", "2024-03-15", "2024-04-15", "2024-05-15",
    "2024-06-15"].map fun d =>
    { transactionId := d, date := d, amount := 10, type := "Expense",
      category := "Expense in Food", refrence := "meal", description := none }

/-- The component after the three-record scenario was fetched and "300" was searched. -/
def searchedPage (batched : Bool) : HomePage :=
  searchPage (getAllTransactions batched initialPage (.succeeded (some sampleRecords))) "300"

/-- Six records dated by date-time strings and by one calendar date; the third and the
fourth name the same instant. -/
def timedRecords : List Transaction :=
  [("w1", "2024-03-01T00:00:00.000Z"), ("w2", "2024-03-05T09:30:00.000Z"),
    ("w3", "2024-03-03T10:00:00+05:30"), ("w4", "2024-03-03T04:30:00.000Z"),
    ("w5", "2024-02-28"), ("w6", "2024-03-04T23:59:59.999Z")].map fun p =>
    { transactionId := p.1, date := p.2, amount := 10, type := "Expense",
      category := "Expense in Food", refrence := "meal", description := none }

/-- An Income record dated 1 January 2024 as a server delivers a stored calendar date:
midnight UTC of that day. -/
def newYearRecord : Transaction :=
  { transactionId := "y1", date := "2024-01-01T00:00:00.000Z", amount := 100, type := "Income",
    category := "Income in Salary", refrence := "pay", description := none }

/-- Four records dated by date-time strings in UTC, around the turn of two months. -/
def zonedRecords : List Transaction :=
  [{ transactionId := "z1", date := "2024-01-31T20:00:00.000Z", amount := 1000, type := "Income",
      category := "Income in Salary", refrence := "pay", description := none },
   { transactionId := "z2", date := "2024-02-10T00:00:00.000Z", amount := 300, type := "Expense",
      category := "Expense in Food", refrence := "lunch", description := none },
   { transactionId := "z3", date := "2024-02-29T18:29:59.999Z", amount := 200, type := "Expense",
      category := "Expense in Bills", refrence := "power", description := none },
   { transactionId := "z4", date := "2024-02-29T18:30:00.000Z", amount := 50, type := "Expense",
      category := "Expense in Bills", refrence := "water", description := none }]

/-- An Income record of 568999966496035 and an Expense record of 292750482762210: the exact
value of balance / income × 100 lies just above 48.55. -/
def roundingRecords : List Transaction :=
  [{ transactionId := "r1", date := "2024-01-05", amount := 568999966496035, type := "Income",
      category := "Income in Salary", refrence := "pay", description := none },
   { transactionId := "r2", date := "2024-01-10", amount := 292750482762210, type := "Expense",
      category := "Expense in Bills", refrence := "rent", description := none }]

/-- An income of 80 and an expense of 29: the exact value of balance / income × 100 is
63.75, halfway between 63.7 and 63.8. -/
def halfwayRecords : List Transaction :=
  [{ transactionId := "h1", date := "2024-01-05", amount := 80, type := "Income",
      category := "Income in Salary", refrence := "pay", description := none },
   { transactionId := "h2", date := "2024-01-10", amount := 29, type := "Expense",
      category := "Expense in Bills", refrence := "rent", description := none }]

/-- Storage in which the theme "light" was saved before the application was loaded. -/
def lightStorage : ThemeStorage :=
  { theme := some "light", accentColor := none, fontSize := none, animations := none }

/-! ## Helper lemmas -/

theorem foldl_add_amount (l : List Transaction) (a : ℚ) :
    l.foldl (fun acc t => acc + parseFloat t.amount) a = a + (l.map (fun t => t.amount)).sum := by
  induction l generalizing a with
  | nil => simp
  | cons t l ih =>
    rw [List.foldl_cons, ih, List.map_cons, List.sum_cons, parseFloat, add_assoc]

theorem statistics_income (env : Browser) (l : List Transaction) :
    (statistics env l).income
      = ((l.filter (fun t => t.type = "Income")).map (fun t => t.amount)).sum := by
  simp [statistics, foldl_add_amount]

theorem statistics_expense (env : Browser) (l : List Transaction) :
    (statistics env l).expense =
      ((l.filter (fun t => t.type = "Expense")).map (fun t => t.amount)).sum := by
  simp [statistics, foldl_add_amount]

theorem statistics_balance (env : Browser) (l : List Transaction) :
    (statistics env l).balance = (statistics env l).income - (statistics env l).expense := rfl

theorem statistics_savingsRate (env : Browser) (l : List Transaction) :
    (statistics env l).savingsRate =
      if (statistics env l).income > 0 then
        (jsDiv (statistics env l).balance (statistics env l).income).map
          (fun r => toFixed1 (toDouble (toDouble r * 100)))
      else some 0 := rfl

theorem statistics_categoryData (env : Browser) (l : List Transaction) :
    (statistics env l).categoryData = l.foldl categoryStep [] := rfl

/-! ### The category reduce -/

theorem bump_fst (t : Transaction) (e : String × CategoryGroup) : (bump t e).1 = e.1 := by
  unfold bump; split <;> rfl

theorem bump_type (t : Transaction) (e : String × CategoryGroup) :
    (bump t e).2.type = e.2.type := by
  unfold bump; split <;> rfl

theorem bump_of_ne (t : Transaction) (e : String × CategoryGroup) (h : e.1 ≠ t.category) :
    bump t e = e := by
  simp [bump, h]

theorem map_bump_of_not_mem (t : Transaction) (acc : CategoryData)
    (h : t.category ∉ acc.map Prod.fst) : acc.map (bump t) = acc := by
  induction acc with
  | nil => rfl
  | cons e acc ih =>
    simp only [List.map_cons, List.mem_cons, not_or] at h
    rw [List.map_cons, ih h.2, bump_of_ne t e (fun hh => h.1 hh.symm)]

theorem categoryStep_eq (acc : CategoryData) (t : Transaction) :
    categoryStep acc t =
      (if !truthyAt acc t.category then
        acc ++ [(t.category, { amount := 0, count := 0, type := t.type })]
      else acc).map (bump t) := rfl

theorem own_iff (acc : CategoryData) (k : String) :
    acc.any (fun e => decide (e.1 = k)) = true ↔ k ∈ acc.map Prod.fst := by
  simp only [List.any_eq_true, decide_eq_true_eq, List.mem_map]

/-- The category already has an own entry: that entry is updated. -/
theorem categoryStep_own (acc : CategoryData) (t : Transaction)
    (h : t.category ∈ acc.map Prod.fst) : categoryStep acc t = acc.map (bump t) := by
  have : truthyAt acc t.category = true := by
    simp only [truthyAt, Bool.or_eq_true]; exact Or.inl ((own_iff acc _).2 h)
  simp [categoryStep_eq, this]

/-- The category has no own entry and is an inherited name: `acc` is left as it is. -/
theorem categoryStep_inherited (acc : CategoryData) (t : Transaction)
    (h : t.category ∉ acc.map Prod.fst) (hk : t.category ∈ objectPrototypeKeys) :
    categoryStep acc t = acc := by
  have : truthyAt acc t.category = true := by
    simp only [truthyAt, Bool.or_eq_true]; exact Or.inr (by simpa using hk)
  simp [categoryStep_eq, this, map_bump_of_not_mem t acc h]

/-- The category is new: a group holding this one record is appended. -/
theorem categoryStep_new (acc : CategoryData) (t : Transaction)
    (h : t.category ∉ acc.map Prod.fst) (hk : t.category ∉ objectPrototypeKeys) :
    categoryStep acc t = acc ++ [(t.category, { amount := t.amount, count := 1, type := t.type })] := by
  have : truthyAt acc t.category = false := by
    simp only [truthyAt, Bool.or_eq_false_iff]
    refine ⟨?_, by simpa using hk⟩
    rw [Bool.eq_false_iff]; exact fun hh => h ((own_iff acc _).1 hh)
  simp [categoryStep_eq, this, map_bump_of_not_mem t acc h, bump, parseFloat]

theorem groupTotal_append (a b : CategoryData) (T : String) :
    groupTotal (a ++ b) T = groupTotal a T + groupTotal b T := by
  simp [groupTotal]

theorem groupTotal_cons (e : String × CategoryGroup) (a : CategoryData) (T : String) :
    groupTotal (e :: a) T = (if e.2.type = T then e.2.amount else 0) + groupTotal a T := by
  by_cases h : e.2.type = T <;> simp [groupTotal, h]

theorem groupTotal_map_bump (t : Transaction) (T : String) (acc : CategoryData)
    (hnd : (acc.map Prod.fst).Nodup) (g : CategoryGroup) (hg : (t.category, g) ∈ acc) :
    groupTotal (acc.map (bump t)) T
      = groupTotal acc T + (if g.type = T then t.amount else 0) := by
  induction acc with
  | nil => simp at hg
  | cons e acc ih =>
    simp only [List.map_cons, List.nodup_cons] at hnd
    rw [List.map_cons, groupTotal_cons, groupTotal_cons, bump_type]
    by_cases hk : e.1 = t.category
    · have hnot : t.category ∉ acc.map Prod.fst := hk ▸ hnd.1
      have heq : e = (t.category, g) := by
        rcases List.mem_cons.1 hg with h | h
        · exact h.symm
        · exact absurd (List.mem_map_of_mem Prod.fst h) hnot
      rw [map_bump_of_not_mem t acc hnot]
      subst heq
      by_cases hT : g.type = T
      · simp only [bump, hT, parseFloat, if_true]; ring
      · simp [bump, hT]
    · have hmem : (t.category, g) ∈ acc := by
        rcases List.mem_cons.1 hg with h | h
        · exact absurd (by rw [← h]) hk
        · exact h
      rw [ih hnd.2 hmem, bump_of_ne t e hk]
      ring

theorem categoryStep_keys_nodup (acc : CategoryData) (t : Transaction)
    (hnd : (acc.map Prod.fst).Nodup) : ((categoryStep acc t).map Prod.fst).Nodup := by
  by_cases h : t.category ∈ acc.map Prod.fst
  · rw [categoryStep_own acc t h, List.map_map]
    have : (Prod.fst ∘ bump t) = (Prod.fst : String × CategoryGroup → String) := by
      funext e; exact bump_fst t e
    rw [this]; exact hnd
  · by_cases hk : t.category ∈ objectPrototypeKeys
    · rw [categoryStep_inherited acc t h hk]; exact hnd
    · rw [categoryStep_new acc t h hk, List.map_append]
      simp only [List.map_cons, List.map_nil]
      exact List.Nodup.append hnd (List.nodup_singleton _) (by simpa using h)

/-- Every entry after a step is an old entry (possibly updated, same key and type) or the
entry created for the record just processed. -/
theorem mem_categoryStep (acc : CategoryData) (t : Transaction) (e : String × CategoryGroup)
    (he : e ∈ categoryStep acc t) :
    (∃ e0 ∈ acc, e0.1 = e.1 ∧ e0.2.type = e.2.type) ∨ (e.1 = t.category ∧ e.2.type = t.type) := by
  by_cases h : t.category ∈ acc.map Prod.fst
  · rw [categoryStep_own acc t h, List.mem_map] at he
    obtain ⟨e0, he0, rfl⟩ := he
    exact Or.inl ⟨e0, he0, (bump_fst t e0).symm, (bump_type t e0).symm⟩
  · by_cases hk : t.category ∈ objectPrototypeKeys
    · rw [categoryStep_inherited acc t h hk] at he
      exact Or.inl ⟨e, he, rfl, rfl⟩
    · rw [categoryStep_new acc t h hk, List.mem_append, List.mem_singleton] at he
      rcases he with he | rfl
      · exact Or.inl ⟨e, he, rfl, rfl⟩
      · exact Or.inr ⟨rfl, rfl⟩

theorem groupTotal_foldl (T : String) (rest : List Transaction) :
    ∀ acc : CategoryData, (acc.map Prod.fst).Nodup →
      (∀ e ∈ acc, ∀ b ∈ rest, b.category = e.1 → b.type = e.2.type) →
      (∀ a ∈ rest, ∀ b ∈ rest, a.category = b.category → a.type = b.type) →
      (∀ a ∈ rest, a.category ∉ objectPrototypeKeys) →
      groupTotal (rest.foldl categoryStep acc) T
        = groupTotal acc T + ((rest.filter (fun t => t.type = T)).map (fun t => t.amount)).sum := by
  induction rest with
  | nil => intro acc _ _ _ _; simp
  | cons t rest ih =>
    intro acc hnd hacc hty hkey
    have hkt : t.category ∉ objectPrototypeKeys := hkey t (List.mem_cons_self _ _)
    have hacc2 : ∀ e ∈ categoryStep acc t, ∀ b ∈ rest, b.category = e.1 → b.type = e.2.type := by
      intro e he b hb hbe
      rcases mem_categoryStep acc t e he with ⟨e0, he0, h1, h2⟩ | ⟨h1, h2⟩
      · rw [← h2]; exact hacc e0 he0 b (List.mem_cons_of_mem _ hb) (hbe.trans h1.symm)
      · rw [h2]
        exact hty b (List.mem_cons_of_mem _ hb) t (List.mem_cons_self _ _) (hbe.trans h1)
    rw [List.foldl_cons,
      ih (categoryStep acc t) (categoryStep_keys_nodup acc t hnd) hacc2
        (fun a ha b hb => hty a (List.mem_cons_of_mem _ ha) b (List.mem_cons_of_mem _ hb))
        (fun a ha => hkey a (List.mem_cons_of_mem _ ha))]
    have hstep : groupTotal (categoryStep acc t) T
        = groupTotal acc T + (if t.type = T then t.amount else 0) := by
      by_cases h : t.category ∈ acc.map Prod.fst
      · obtain ⟨e, he, hek⟩ := List.mem_map.1 h
        have hmem : (t.category, e.2) ∈ acc := by rw [← hek]; exact he
        rw [categoryStep_own acc t h, groupTotal_map_bump t T acc hnd e.2 hmem,
          hacc e he t (List.mem_cons_self _ _) hek.symm]
      · rw [categoryStep_new acc t h hkt, groupTotal_append, groupTotal_cons]
        simp [groupTotal]
    rw [hstep, List.filter_cons]
    by_cases hT : t.type = T
    · simp [hT, add_assoc]
    · simp [hT]

/-! ## Totals and balance -/

/-- C1: income is the sum of the amounts of the Income records, expense the sum of the amounts
of the Expense records, balance is exactly income minus expense, and the HomePage "Net Balance"
over a visible list is that same difference. -/
theorem C1_totals_and_balance (env : Browser) (l : List Transaction) :
    (statistics env l).income
        = ((l.filter (fun t => t.type = "Income")).map (fun t => t.amount)).sum ∧
    (statistics env l).expense
        = ((l.filter (fun t => t.type = "Expense")).map (fun t => t.amount)).sum ∧
    (statistics env l).balance = (statistics env l).income - (statistics env l).expense ∧
    netBalance l = (statistics env l).income - (statistics env l).expense ∧
    netBalance l = (statistics env l).balance :=
  ⟨statistics_income env l, statistics_expense env l, rfl, rfl, rfl⟩


/-! ## Category breakdown against the totals -/

/-- C2 (counterexample): with one category shared by an Income and an Expense record the
Income groups add up to 150 while income is 100; with an Income record filed under the
inherited name "constructor" no group is created and the Income groups add up to 0. -/
theorem C2_counterexample :
    groupTotal (statistics utc mixedTypeRecords).categoryData "Income" = 150 ∧
    (statistics utc mixedTypeRecords).income = 100 ∧
    groupTotal (statistics utc mixedTypeRecords).categoryData "Income"
      ≠ (statistics utc mixedTypeRecords).income ∧
    groupTotal (statistics utc mixedTypeRecords).categoryData "Expense"
      ≠ (statistics utc mixedTypeRecords).expense ∧
    (statistics utc inheritedNameRecords).categoryData = [] ∧
    groupTotal (statistics utc inheritedNameRecords).categoryData "Income"
      ≠ (statistics utc inheritedNameRecords).income := by
  have h1 : (statistics utc mixedTypeRecords).categoryData
      = [("Misc", { amount := 150, count := 2, type := "Income" })] := by
    simp [statistics, mixedTypeRecords, categoryStep, truthyAt, objectPrototypeKeys, parseFloat]
    norm_num
  have h2 : (statistics utc inheritedNameRecords).categoryData = [] := by
    simp [statistics, inheritedNameRecords, categoryStep, truthyAt, objectPrototypeKeys]
  have h3 : (statistics utc mixedTypeRecords).income = 100 := by
    simp [statistics, mixedTypeRecords, parseFloat]
  have h4 : (statistics utc mixedTypeRecords).expense = 50 := by
    simp [statistics, mixedTypeRecords, parseFloat]
  have h5 : (statistics utc inheritedNameRecords).income = 100 := by
    simp [statistics, inheritedNameRecords, parseFloat]
  rw [h1, h2, h3, h4, h5]
  refine ⟨?_, rfl, ?_, ?_, rfl, ?_⟩ <;> simp [groupTotal]

/-- C2 (amended): when all records of one category have the same type and no category is a
name inherited from `Object.prototype`, the amounts of the Income groups add up to income and
the amounts of the Expense groups add up to expense. -/
theorem C2_group_totals (env : Browser) (l : List Transaction)
    (hty : ∀ a ∈ l, ∀ b ∈ l, a.category = b.category → a.type = b.type)
    (hkey : ∀ a ∈ l, a.category ∉ objectPrototypeKeys) :
    groupTotal (statistics env l).categoryData "Income" = (statistics env l).income ∧
    groupTotal (statistics env l).categoryData "Expense" = (statistics env l).expense := by
  have h := fun T => groupTotal_foldl T l [] List.nodup_nil (by simp) hty hkey
  rw [statistics_categoryData env, statistics_income env, statistics_expense env, h "Income",
    h "Expense"]
  simp [groupTotal]

/-- C2 (witness): the three-record scenario meets both hypotheses. -/
theorem C2_group_totals_witness :
    (∀ a ∈ sampleRecords, ∀ b ∈ sampleRecords, a.category = b.category → a.type = b.type) ∧
    (∀ a ∈ sampleRecords, a.category ∉ objectPrototypeKeys) ∧
    groupTotal (statistics utc sampleRecords).categoryData "Income"
        = (statistics utc sampleRecords).income ∧
    groupTotal (statistics utc sampleRecords).categoryData "Expense"
        = (statistics utc sampleRecords).expense :=
  ⟨by decide, by decide, C2_group_totals utc sampleRecords (by decide) (by decide)⟩


/-! ## No validation -/

/-- C3 (counterexample): a list holding an Income record of amount -5 and a record of type
"Transfer" is not rejected: the totals come back, the negative amount summed into income. -/
theorem C3_counterexample :
    negativeIncome ∈ malformedRecords ∧ negativeIncome.amount ≤ 0 ∧
    unknownType ∈ malformedRecords ∧
    unknownType.type ≠ "Income" ∧ unknownType.type ≠ "Expense" ∧
    (statistics utc malformedRecords).income = 95 ∧
    (statistics utc malformedRecords).expense = 0 ∧
    (statistics utc malformedRecords).balance = 95 := by
  refine ⟨by decide, by decide, by decide, by decide, by decide, ?_, ?_, ?_⟩ <;>
    simp [statistics, malformedRecords, negativeIncome, unknownType, parseFloat] <;> norm_num

/-- C3 (amended): the statistics are computed for every list, without validation: appending
any record of type Income adds its amount to income whatever its sign, any record of type
Expense adds its amount to expense, and a record of another type changes neither total. -/
theorem C3_totals_without_validation (env : Browser) (l : List Transaction) (t : Transaction) :
    (statistics env (l ++ [t])).income
      = (statistics env l).income + (if t.type = "Income" then t.amount else 0) ∧
    (statistics env (l ++ [t])).expense
      = (statistics env l).expense + (if t.type = "Expense" then t.amount else 0) := by
  simp only [statistics_income env, statistics_expense env, List.filter_append, List.map_append,
    List.sum_append]
  constructor
  · by_cases h : t.type = "Income" <;> simp [List.filter_cons, h]
  · by_cases h : t.type = "Expense" <;> simp [List.filter_cons, h]

/-! ## Savings rate -/

theorem income_eq_zero_of_all_expense (env : Browser) (l : List Transaction)
    (h : ∀ t ∈ l, t.type = "Expense") : (statistics env l).income = 0 := by
  have : l.filter (fun t => decide (t.type = "Income")) = [] := by
    rw [List.filter_eq_nil_iff]
    intro t ht
    simp [h t ht]
  rw [statistics_income env, this]; rfl

/-- C4: when income is 0, in particular when every record is an Expense record, savingsRate
is the number 0 given by the guard; no division is evaluated (a division by the zero income
would give `none`). -/
theorem C4_savingsRate_zero (env : Browser) (l : List Transaction)
    (h : (statistics env l).income = 0 ∨ ∀ t ∈ l, t.type = "Expense") :
    (statistics env l).income = 0 ∧ (statistics env l).savingsRate = some 0 := by
  have h0 : (statistics env l).income = 0 := h.elim id (income_eq_zero_of_all_expense env l)
  refine ⟨h0, ?_⟩
  rw [statistics_savingsRate env, h0]
  simp

/-- C4 (witness): the two Expense records of the scenario. -/
theorem C4_savingsRate_zero_witness :
    (∀ t ∈ expenseOnlyRecords, t.type = "Expense") ∧
    (statistics utc expenseOnlyRecords).income = 0 ∧
    (statistics utc expenseOnlyRecords).savingsRate = some 0 :=
  ⟨by decide, C4_savingsRate_zero utc expenseOnlyRecords (Or.inr (by decide))⟩

theorem toFixed1_spec (x : ℚ) :
    (∃ n : ℤ, toFixed1 x = (n : ℚ) / 10) ∧ |toFixed1 x - x| ≤ 1 / 20 := by
  unfold toFixed1
  split
  · refine ⟨⟨-⌊(-x) * 10 + 1 / 2⌋, by push_cast; ring⟩, ?_⟩
    have h1 := Int.floor_le ((-x) * 10 + 1 / 2)
    have h2 := Int.lt_floor_add_one ((-x) * 10 + 1 / 2)
    rw [abs_le]; constructor <;> linarith
  · refine ⟨⟨⌊x * 10 + 1 / 2⌋, rfl⟩, ?_⟩
    have h1 := Int.floor_le (x * 10 + 1 / 2)
    have h2 := Int.lt_floor_add_one (x * 10 + 1 / 2)
    rw [abs_le]; constructor <;> linarith

/-! ### Rounding to double precision -/

theorem roundHalfEven_spec (y : ℚ) : |(roundHalfEven y : ℚ) - y| ≤ 1 / 2 := by
  have h1 := Int.floor_le y
  have h2 := Int.lt_floor_add_one y
  unfold roundHalfEven
  rw [abs_le]
  split_ifs <;> push_cast <;> constructor <;> linarith

theorem roundHalfEven_nonneg (y : ℚ) (h : 0 ≤ y) : 0 ≤ roundHalfEven y := by
  have hf : 0 ≤ ⌊y⌋ := Int.floor_nonneg.2 h
  unfold roundHalfEven
  split_ifs <;> omega

theorem roundHalfEven_le (y : ℚ) (K : ℤ) (h : y ≤ K) : roundHalfEven y ≤ K := by
  have hf : ⌊y⌋ ≤ K := Int.le_of_lt_add_one (Int.floor_lt.2 (by push_cast; linarith))
  unfold roundHalfEven
  by_cases hK : ⌊y⌋ = K
  · have : y - ⌊y⌋ < 1 / 2 := by rw [hK]; linarith
    rw [if_pos this, hK]
  · have : ⌊y⌋ + 1 ≤ K := by omega
    split_ifs <;> omega

theorem roundHalfEven_intCast (n : ℤ) : roundHalfEven (n : ℚ) = n := by
  unfold roundHalfEven
  simp

theorem roundHalfEven_eq (y : ℚ) (n : ℤ) (h1 : (n : ℚ) - 1 / 2 < y) (h2 : y < n + 1 / 2) :
    roundHalfEven y = n := by
  unfold roundHalfEven
  by_cases hy : (n : ℚ) ≤ y
  · have hf : ⌊y⌋ = n := Int.floor_eq_iff.2 ⟨hy, by linarith⟩
    rw [hf, if_pos (by linarith)]
  · have hf : ⌊y⌋ = n - 1 := Int.floor_eq_iff.2 ⟨by push_cast; linarith, by push_cast; linarith⟩
    rw [hf]
    have h3 : ¬ (y - ((n - 1 : ℤ) : ℚ) < 1 / 2) := by push_cast; linarith
    have h4 : 1 / 2 < y - ((n - 1 : ℤ) : ℚ) := by push_cast; linarith
    rw [if_neg h3, if_pos h4]; omega

theorem two_zpow_pos (e : ℤ) : (0 : ℚ) < 2 ^ e := zpow_pos (by norm_num) e

/-- The exponent of a number between two consecutive powers of two. -/
theorem log_two_eq (x : ℚ) (k : ℤ) (h1 : (2 : ℚ) ^ k ≤ x) (h2 : x < 2 ^ (k + 1)) :
    Int.log 2 x = k := by
  have hx : 0 < x := lt_of_lt_of_le (two_zpow_pos k) h1
  have a : k ≤ Int.log 2 x := (Int.zpow_le_iff_le_log (by norm_num) hx).1 (by exact_mod_cast h1)
  have b : Int.log 2 x < k + 1 := (Int.lt_zpow_iff_log_lt (by norm_num) hx).1 (by exact_mod_cast h2)
  omega

/-- Evaluation of `toDouble` at a number whose binary exponent is known. -/
theorem toDouble_eval (x : ℚ) (k n : ℤ) (h1 : (2 : ℚ) ^ k ≤ |x|) (h2 : |x| < 2 ^ (k + 1))
    (hn : roundHalfEven (x / 2 ^ (k - 52)) = n) : toDouble x = (n : ℚ) * 2 ^ (k - 52) := by
  have hx : x ≠ 0 := by
    intro h
    rw [h, abs_zero] at h1
    exact absurd h1 (not_le.2 (two_zpow_pos k))
  unfold toDouble
  rw [if_neg hx, log_two_eq _ k h1 h2, hn]

/-- The rounding error of `toDouble` is at most `2^-53` of the number. -/
theorem toDouble_error (x : ℚ) : |toDouble x - x| ≤ |x| / 2 ^ 53 := by
  unfold toDouble
  by_cases hx : x = 0
  · simp [hx]
  · rw [if_neg hx]
    have hpos : 0 < |x| := abs_pos.2 hx
    have hlog : (2 : ℚ) ^ Int.log 2 |x| ≤ |x| := by
      have := Int.zpow_log_le_self (b := 2) (by norm_num) hpos
      exact_mod_cast this
    set e : ℤ := Int.log 2 |x| - 52 with he
    have hp := two_zpow_pos e
    have hr := roundHalfEven_spec (x / 2 ^ e)
    have hsplit : (roundHalfEven (x / 2 ^ e) : ℚ) * 2 ^ e - x
        = ((roundHalfEven (x / 2 ^ e) : ℚ) - x / 2 ^ e) * 2 ^ e := by
      field_simp
    rw [hsplit, abs_mul, abs_of_pos hp]
    have h53 : (2 : ℚ) ^ e * 2 ^ (53 : ℤ) = 2 * 2 ^ Int.log 2 |x| := by
      rw [← zpow_add₀ (by norm_num : (2 : ℚ) ≠ 0), he]
      have : Int.log 2 |x| - 52 + 53 = Int.log 2 |x| + 1 := by ring
      rw [this, zpow_add₀ (by norm_num : (2 : ℚ) ≠ 0), zpow_one, mul_comm]
    have h53' : (2 : ℚ) ^ (53 : ℤ) = 2 ^ 53 := by norm_num
    rw [le_div_iff₀ (by positivity)]
    calc |(roundHalfEven (x / 2 ^ e) : ℚ) - x / 2 ^ e| * 2 ^ e * 2 ^ 53
        ≤ 1 / 2 * 2 ^ e * 2 ^ 53 := by gcongr
      _ = 1 / 2 * (2 ^ e * 2 ^ (53 : ℤ)) := by rw [h53']; ring
      _ = 2 ^ Int.log 2 |x| := by rw [h53]; ring
      _ ≤ |x| := hlog

theorem toDouble_nonneg (x : ℚ) (h : 0 ≤ x) : 0 ≤ toDouble x := by
  unfold toDouble
  split_ifs
  · exact le_refl _
  · apply mul_nonneg
    · exact_mod_cast roundHalfEven_nonneg _ (div_nonneg h (le_of_lt (two_zpow_pos _)))
    · exact le_of_lt (two_zpow_pos _)

/-- Rounding does not pass a double-precision number: when `c` is an integer multiple of
the unit of its own binade, `x ≤ c` gives `toDouble x ≤ c`. -/
theorem toDouble_le (x c : ℚ) (M : ℤ) (hx : 0 < x) (hxc : x ≤ c)
    (hc : c = (M : ℚ) * 2 ^ (Int.log 2 c - 52)) : toDouble x ≤ c := by
  have hc0 : 0 < c := lt_of_lt_of_le hx hxc
  unfold toDouble
  rw [if_neg (ne_of_gt hx), abs_of_pos hx]
  have hmono : Int.log 2 x ≤ Int.log 2 c := Int.log_mono_right hx hxc
  set e : ℤ := Int.log 2 x - 52 with he
  set ec : ℤ := Int.log 2 c - 52 with hec
  have hp := two_zpow_pos e
  obtain ⟨n, hn⟩ : ∃ n : ℕ, ec - e = n := Int.eq_ofNat_of_zero_le (by omega)
  have hK : c / 2 ^ e = ((M * 2 ^ n : ℤ) : ℚ) := by
    rw [hc, mul_div_assoc, ← zpow_sub₀ (by norm_num : (2 : ℚ) ≠ 0), hn, zpow_natCast]
    push_cast
    ring
  have hle : x / 2 ^ e ≤ ((M * 2 ^ n : ℤ) : ℚ) := by
    rw [← hK]
    exact div_le_div_of_nonneg_right hxc (le_of_lt hp)
  have hr := roundHalfEven_le _ _ hle
  have hr' : (roundHalfEven (x / 2 ^ e) : ℚ) ≤ ((M * 2 ^ n : ℤ) : ℚ) := by exact_mod_cast hr
  calc (roundHalfEven (x / 2 ^ e) : ℚ) * 2 ^ e ≤ ((M * 2 ^ n : ℤ) : ℚ) * 2 ^ e :=
        mul_le_mul_of_nonneg_right hr' (le_of_lt hp)
    _ = c := by rw [← hK]; field_simp

theorem toDouble_le_one (x : ℚ) (h0 : 0 ≤ x) (h1 : x ≤ 1) : toDouble x ≤ 1 := by
  rcases eq_or_lt_of_le h0 with h | h
  · rw [← h]; simp [toDouble]
  · apply toDouble_le x 1 (2 ^ 52) h h1
    have : Int.log 2 (1 : ℚ) = 0 := log_two_eq 1 0 (by norm_num) (by norm_num)
    rw [this]; norm_num

theorem toDouble_le_hundred (x : ℚ) (h0 : 0 ≤ x) (h1 : x ≤ 100) : toDouble x ≤ 100 := by
  rcases eq_or_lt_of_le h0 with h | h
  · rw [← h]; simp [toDouble]
  · apply toDouble_le x 100 (100 * 2 ^ 46) h h1
    have : Int.log 2 (100 : ℚ) = 6 := log_two_eq 100 6 (by norm_num) (by norm_num)
    rw [this]; norm_num

/-- A number with at most 53 significant bits is its own double. -/
theorem toDouble_exact (x : ℚ) (k n : ℤ) (h1 : (2 : ℚ) ^ k ≤ |x|) (h2 : |x| < 2 ^ (k + 1))
    (hx : x / 2 ^ (k - 52) = (n : ℚ)) : toDouble x = x := by
  rw [toDouble_eval x k n h1 h2 (by rw [hx]; exact roundHalfEven_intCast n), ← hx]
  have := two_zpow_pos (k - 52)
  field_simp

/-- Evaluation of `toFixed1` at a non-negative number. -/
theorem toFixed1_eval (x : ℚ) (n : ℤ) (h0 : 0 ≤ x) (h1 : (n : ℚ) ≤ x * 10 + 1 / 2)
    (h2 : x * 10 + 1 / 2 < (n : ℚ) + 1) : toFixed1 x = (n : ℚ) / 10 := by
  unfold toFixed1
  rw [if_neg (not_lt.2 h0), Int.floor_eq_iff.2 ⟨h1, h2⟩]

/-- The error of the double-precision value of `r * 100` computed from the double-precision
value of `r`. -/
theorem percent_error (r : ℚ) :
    |toDouble (toDouble r * 100) - r * 100| ≤ |r * 100| / 2 ^ 51 := by
  have h1 := toDouble_error r
  have h2 := toDouble_error (toDouble r * 100)
  have h3 : |toDouble r| ≤ |r| + |r| / 2 ^ 53 := by
    have := abs_sub_abs_le_abs_sub (toDouble r) r
    linarith
  have h4 : |toDouble r * 100| = |toDouble r| * 100 := by
    rw [abs_mul]; norm_num
  have h5 : |r * 100| = |r| * 100 := by
    rw [abs_mul]; norm_num
  have h6 : toDouble (toDouble r * 100) - r * 100
      = (toDouble (toDouble r * 100) - toDouble r * 100) + (toDouble r - r) * 100 := by ring
  have h7 : |(toDouble r - r) * 100| = |toDouble r - r| * 100 := by
    rw [abs_mul]; norm_num
  have hr : 0 ≤ |r| := abs_nonneg r
  rw [h6, h5]
  refine le_trans (abs_add _ _) ?_
  rw [h7]
  rw [h4] at h2
  have e1 : |r| / 2 ^ 53 = |r| * (1 / 2 ^ 53) := by ring
  have e2 : |r| * 100 / 2 ^ 51 = |r| * (100 / 2 ^ 51) := by ring
  have e3 : ∀ z : ℚ, z * 100 / 2 ^ 53 = z * (100 / 2 ^ 53) := fun z => by ring
  rw [e3] at h2
  rw [e1] at h1 h3
  rw [e2]
  nlinarith [hr, h1, h2, h3]

theorem savingsRate_of_pos (env : Browser) (l : List Transaction)
    (h : (statistics env l).income > 0) :
    (statistics env l).savingsRate
      = some (toFixed1 (toDouble
          (toDouble ((statistics env l).balance / (statistics env l).income) * 100))) := by
  rw [statistics_savingsRate env, if_pos h, jsDiv, if_neg (ne_of_gt h)]
  rfl

/-- C5 (counterexample): with income 568999966496035 and expense 292750482762210 the exact
value of balance / income × 100 lies just above 48.55, the double-precision value just
below, and savingsRate is 48.5, more than 0.05 away from the exact value.  With income 80
and expense 29 the exact value is 63.75, whose rounding to one decimal is 63.8, while
savingsRate is 63.7. -/
theorem C5_counterexample :
    (statistics utc roundingRecords).income = 568999966496035 ∧
    (statistics utc roundingRecords).balance = 276249483733825 ∧
    (statistics utc roundingRecords).savingsRate = some (97 / 2) ∧
    |(97 / 2 : ℚ) - (statistics utc roundingRecords).balance
        / (statistics utc roundingRecords).income * 100| > 1 / 20 ∧
    (statistics utc halfwayRecords).balance / (statistics utc halfwayRecords).income * 100
      = 255 / 4 ∧
    toFixed1 (255 / 4) = 638 / 10 ∧
    (statistics utc halfwayRecords).savingsRate = some (637 / 10) := by
  have hi : (statistics utc roundingRecords).income = 568999966496035 := by
    simp [statistics, roundingRecords, parseFloat]
  have he : (statistics utc roundingRecords).expense = 292750482762210 := by
    simp [statistics, roundingRecords, parseFloat]
  have hb : (statistics utc roundingRecords).balance = 276249483733825 := by
    rw [statistics_balance utc, hi, he]; norm_num
  have hi2 : (statistics utc halfwayRecords).income = 80 := by
    simp [statistics, halfwayRecords, parseFloat]
  have he2 : (statistics utc halfwayRecords).expense = 29 := by
    simp [statistics, halfwayRecords, parseFloat]
  have hb2 : (statistics utc halfwayRecords).balance = 51 := by
    rw [statistics_balance utc, hi2, he2]; norm_num
  have q1 : toDouble (276249483733825 / 568999966496035) = 8745990476353503 / 2 ^ 54 := by
    rw [toDouble_eval _ (-2) 8745990476353503 (by rw [abs_of_pos] <;> norm_num)
      (by rw [abs_of_pos] <;> norm_num) (roundHalfEven_eq _ _ (by norm_num) (by norm_num))]
    norm_num
  have p1 : toDouble (8745990476353503 / 2 ^ 54 * 100) = 6832805059651174 / 2 ^ 47 := by
    rw [toDouble_eval _ 5 6832805059651174 (by rw [abs_of_pos] <;> norm_num)
      (by rw [abs_of_pos] <;> norm_num) (roundHalfEven_eq _ _ (by norm_num) (by norm_num))]
    norm_num
  have f1 : toFixed1 (6832805059651174 / 2 ^ 47) = 97 / 2 := by
    rw [toFixed1_eval _ 485 (by norm_num) (by norm_num) (by norm_num)]
    norm_num
  have q2 : toDouble (51 / 80) = 5742089524897382 / 2 ^ 53 := by
    rw [toDouble_eval _ (-1) 5742089524897382 (by rw [abs_of_pos] <;> norm_num)
      (by rw [abs_of_pos] <;> norm_num) (roundHalfEven_eq _ _ (by norm_num) (by norm_num))]
    norm_num
  have p2 : toDouble (5742089524897382 / 2 ^ 53 * 100) = 8972014882652159 / 2 ^ 47 := by
    rw [toDouble_eval _ 5 8972014882652159 (by rw [abs_of_pos] <;> norm_num)
      (by rw [abs_of_pos] <;> norm_num) (roundHalfEven_eq _ _ (by norm_num) (by norm_num))]
    norm_num
  have f2 : toFixed1 (8972014882652159 / 2 ^ 47) = 637 / 10 := by
    rw [toFixed1_eval _ 637 (by norm_num) (by norm_num) (by norm_num)]
    norm_num
  have f3 : toFixed1 (255 / 4) = 638 / 10 := by
    rw [toFixed1_eval _ 638 (by norm_num) (by norm_num) (by norm_num)]
    norm_num
  refine ⟨hi, hb, ?_, ?_, ?_, f3, ?_⟩
  · rw [savingsRate_of_pos utc _ (by rw [hi]; norm_num), hb, hi, q1, p1, f1]
  · rw [hb, hi, gt_iff_lt, lt_abs]
    right
    norm_num
  · rw [hb2, hi2]; norm_num
  · rw [savingsRate_of_pos utc _ (by rw [hi2]; norm_num), hb2, hi2, q2, p2, f2]

/-- C5 (amended): when income is positive, savingsRate is the double-precision value of
`balance / income * 100` rounded to one decimal: a value `n / 10` with `n` an integer, within
0.05 of that double-precision value, which differs from the exact quotient by at most
`2^-51` of it; so savingsRate is within `0.05 + |exact| / 2^51` of the exact value. -/
theorem C5_savingsRate_rounded (env : Browser) (l : List Transaction)
    (h : (statistics env l).income > 0) :
    ∃ v : ℚ, (statistics env l).savingsRate = some v ∧
      v = toFixed1 (toDouble
            (toDouble ((statistics env l).balance / (statistics env l).income) * 100)) ∧
      (∃ n : ℤ, v = (n : ℚ) / 10) ∧
      |v - toDouble (toDouble ((statistics env l).balance / (statistics env l).income) * 100)|
        ≤ 1 / 20 ∧
      |toDouble (toDouble ((statistics env l).balance / (statistics env l).income) * 100)
          - (statistics env l).balance / (statistics env l).income * 100|
        ≤ |(statistics env l).balance / (statistics env l).income * 100| / 2 ^ 51 ∧
      |v - (statistics env l).balance / (statistics env l).income * 100|
        ≤ 1 / 20 + |(statistics env l).balance / (statistics env l).income * 100| / 2 ^ 51 := by
  have hs := toFixed1_spec (toDouble
    (toDouble ((statistics env l).balance / (statistics env l).income) * 100))
  have he := percent_error ((statistics env l).balance / (statistics env l).income)
  refine ⟨_, savingsRate_of_pos env l h, rfl, hs.1, hs.2, he, ?_⟩
  have htri := abs_sub_le
    (toFixed1 (toDouble
      (toDouble ((statistics env l).balance / (statistics env l).income) * 100)))
    (toDouble (toDouble ((statistics env l).balance / (statistics env l).income) * 100))
    ((statistics env l).balance / (statistics env l).income * 100)
  linarith [hs.2]

theorem sampleRecords_income (env : Browser) : (statistics env sampleRecords).income = 1000 := by
  simp [statistics, sampleRecords, sampleFood, parseFloat]

theorem savingsDouble_half :
    toFixed1 (toDouble (toDouble (500 / 1000) * 100)) = 50 := by
  have h1 : toDouble (500 / 1000) = 1 / 2 := by
    rw [toDouble_exact (500 / 1000) (-1) (2 ^ 52) (by rw [abs_of_pos] <;> norm_num)
      (by rw [abs_of_pos] <;> norm_num) (by norm_num)]
    norm_num
  have h2 : toDouble (1 / 2 * 100) = 50 := by
    rw [toDouble_exact (1 / 2 * 100) 5 (50 * 2 ^ 47) (by rw [abs_of_pos] <;> norm_num)
      (by rw [abs_of_pos] <;> norm_num) (by norm_num)]
    norm_num
  rw [h1, h2, toFixed1_eval 50 500 (by norm_num) (by norm_num) (by norm_num)]
  norm_num

/-- C5 (witness): the three-record scenario, whose income is 1000. -/
theorem C5_savingsRate_rounded_witness :
    (statistics utc sampleRecords).income > 0 ∧
    ∃ v : ℚ, (statistics utc sampleRecords).savingsRate = some v ∧ (∃ n : ℤ, v = (n : ℚ) / 10) ∧
      |v - (statistics utc sampleRecords).balance / (statistics utc sampleRecords).income * 100|
        ≤ 1 / 20 +
          |(statistics utc sampleRecords).balance / (statistics utc sampleRecords).income * 100|
            / 2 ^ 51 :=
  have hpos : (statistics utc sampleRecords).income > 0 := by
    rw [sampleRecords_income utc]; norm_num
  ⟨hpos, (C5_savingsRate_rounded utc sampleRecords hpos).elim
    fun v hv => ⟨v, hv.1, hv.2.2.1, hv.2.2.2.2.2⟩⟩


/-! ## Search -/

theorem searchFilter_of_ne (R : List Transaction) (s : String) (hs : s ≠ "") :
    searchFilter R s
      = R.filter (fun r => (objectValues r).any (fieldMatches (toLowerCase s))) := by
  simp [searchFilter, hs]

theorem searchFilter_empty (R : List Transaction) : searchFilter R "" = R := by
  simp [searchFilter]

/-- For every search text the search keeps the records satisfying one fixed predicate. -/
theorem searchFilter_eq_filter (R : List Transaction) (s : String) :
    searchFilter R s
      = R.filter (fun r =>
          decide (s = "") || (objectValues r).any (fieldMatches (toLowerCase s))) := by
  by_cases hs : s = ""
  · subst hs; simp [searchFilter]
  · simp [searchFilter, hs]

theorem listedValues_subset (r : Transaction) : ∀ v ∈ listedValues r, v ∈ objectValues r := by
  intro v hv
  simp only [listedValues, List.mem_cons, List.mem_singleton, List.not_mem_nil, or_false] at hv
  simp only [objectValues, List.mem_append, List.mem_cons, List.mem_singleton,
    List.not_mem_nil, or_false]
  rcases hv with h | h | h | h | h | h <;> subst h <;> simp

/-- C6 (counterexample): searching "a1b" keeps a record whose identifier is "a1b2" although
none of its amount, type, category, reference, description and date contains the text. -/
theorem C6_counterexample :
    idOnlyRecord ∈
      (onSearch { allTransection := [idOnlyRecord], filteredTransactions := [idOnlyRecord],
                  searchValue := "" } "a1b").filteredTransactions ∧
    (listedValues idOnlyRecord).any (fieldMatches (toLowerCase "a1b")) = false := by
  decide

/-- C6 (amended): for a non-empty search text, `onSearch` keeps a record of the snapshot if and
only if the text of at least one of its own property values (the identifier and any further
property included) contains the search text, both in lower case.  Hence a record one of
whose six listed fields contains the text is kept, and a record none of whose property
values contains it is not. -/
theorem C6_search_keeps_iff (st : HomeState) (s : String) (hs : s ≠ "") (r : Transaction) :
    (r ∈ (onSearch st s).filteredTransactions ↔
      r ∈ st.allTransection ∧
        ∃ v ∈ objectValues r, ∃ txt, v.toText = some txt ∧
          includes (toLowerCase txt) (toLowerCase s) = true) ∧
    (r ∈ st.allTransection →
      (∃ v ∈ listedValues r, ∃ txt, v.toText = some txt ∧
          includes (toLowerCase txt) (toLowerCase s) = true) →
      r ∈ (onSearch st s).filteredTransactions) := by
  have key : ∀ v : Value, fieldMatches (toLowerCase s) v = true ↔
      ∃ txt, v.toText = some txt ∧ includes (toLowerCase txt) (toLowerCase s) = true := by
    intro v
    unfold fieldMatches
    cases hv : v.toText with
    | none => simp
    | some txt => simp
  have hiff : r ∈ (onSearch st s).filteredTransactions ↔
      r ∈ st.allTransection ∧
        ∃ v ∈ objectValues r, ∃ txt, v.toText = some txt ∧
          includes (toLowerCase txt) (toLowerCase s) = true := by
    show r ∈ searchFilter st.allTransection s ↔ _
    rw [searchFilter_of_ne _ _ hs, List.mem_filter, List.any_eq_true]
    constructor
    · rintro ⟨h1, v, hv, hm⟩; exact ⟨h1, v, hv, (key v).1 hm⟩
    · rintro ⟨h1, v, hv, hm⟩; exact ⟨h1, v, hv, (key v).2 hm⟩
  refine ⟨hiff, ?_⟩
  rintro hr ⟨v, hv, hm⟩
  exact hiff.2 ⟨hr, v, listedValues_subset r v hv, hm⟩

/-- C6 (witness): searching "300" in the three-record scenario; the record of amount 300 is
kept, and it is the whole result. -/
theorem C6_search_keeps_iff_witness :
    "300" ≠ "" ∧
    (sampleFood ∈ (onSearch sampleState "300").filteredTransactions ↔
      sampleFood ∈ sampleState.allTransection ∧
        ∃ v ∈ objectValues sampleFood, ∃ txt, v.toText = some txt ∧
          includes (toLowerCase txt) (toLowerCase "300") = true) ∧
    (onSearch sampleState "300").filteredTransactions = [sampleFood] :=
  ⟨by decide, (C6_search_keeps_iff sampleState "300" (by decide) sampleFood).1, by decide⟩

/-- C7: `onSearch` with the empty text shows the whole snapshot, same records in the same
order, so the visible list is empty only when the snapshot is. -/
theorem C7_empty_search_shows_all (st : HomeState) :
    (onSearch st "").filteredTransactions = st.allTransection ∧
    (onSearch st "").allTransection = st.allTransection ∧
    (onSearch st "").searchValue = "" ∧
    ((onSearch st "").filteredTransactions = [] ↔ st.allTransection = []) := by
  have h : (onSearch st "").filteredTransactions = st.allTransection :=
    searchFilter_empty st.allTransection
  exact ⟨h, rfl, rfl, by rw [h]⟩

/-- C8: searching the result of a search again with the same text returns that same result,
also when stated on `onSearch` over the narrowed snapshot; likewise the type filter applied
twice with the same value. -/
theorem C8_filters_idempotent (R : List Transaction) (s t : String) (st : HomeState) :
    searchFilter (searchFilter R s) s = searchFilter R s ∧
    (onSearch { st with allTransection := (onSearch st s).filteredTransactions } s
      ).filteredTransactions = (onSearch st s).filteredTransactions ∧
    typeFilter t (typeFilter t R) = typeFilter t R := by
  have h : ∀ L : List Transaction, searchFilter (searchFilter L s) s = searchFilter L s := by
    intro L
    rw [searchFilter_eq_filter (searchFilter L s) s, searchFilter_eq_filter L s,
      List.filter_filter]
    simp
  exact ⟨h R, h st.allTransection, by simp [typeFilter, List.filter_filter]⟩

/-- C9: the list produced by `onSearch` is a subsequence of the snapshot: kept records keep
their relative order, each is a record of the snapshot, and no record occurs more often than
in the snapshot. -/
theorem C9_search_subsequence (st : HomeState) (s : String) :
    List.Sublist (onSearch st s).filteredTransactions st.allTransection ∧
    (∀ r, r ∈ (onSearch st s).filteredTransactions → r ∈ st.allTransection) ∧
    (∀ r, (onSearch st s).filteredTransactions.count r ≤ st.allTransection.count r) ∧
    (onSearch st s).filteredTransactions.length ≤ st.allTransection.length := by
  have h : List.Sublist (onSearch st s).filteredTransactions st.allTransection := by
    show List.Sublist (searchFilter st.allTransection s) st.allTransection
    rw [searchFilter_eq_filter]
    exact List.filter_sublist _
  exact ⟨h, fun r hr => h.subset hr, fun r => h.count_le r, h.length_le⟩

/-- C10: filtering by a type value and then searching gives the same list as searching and then
filtering by that type value; this holds for every value, "Income" and "Expense" included. -/
theorem C10_type_filter_commutes_with_search (R : List Transaction) (t s : String) :
    searchFilter (typeFilter t R) s = typeFilter t (searchFilter R s) ∧
    searchFilter (typeFilter "Income" R) s = typeFilter "Income" (searchFilter R s) ∧
    searchFilter (typeFilter "Expense" R) s = typeFilter "Expense" (searchFilter R s) := by
  have h : ∀ v : String, searchFilter (typeFilter v R) s = typeFilter v (searchFilter R s) := by
    intro v
    rw [searchFilter_eq_filter (typeFilter v R) s, searchFilter_eq_filter R s]
    simp only [typeFilter, List.filter_filter]
    congr 1
    funext r
    exact Bool.and_comm _ _
  exact ⟨h t, h "Income", h "Expense"⟩

/-! ## Type filter and statistics -/

theorem mem_typeFilter (value : String) (rows : List Transaction) (r : Transaction) :
    r ∈ typeFilter value rows ↔ r ∈ rows ∧ r.type = value := by
  simp [typeFilter, onFilter]

theorem savingsRate_of_income_zero (env : Browser) (l : List Transaction)
    (h : (statistics env l).income = 0) :
    (statistics env l).savingsRate = some 0 := by
  rw [statistics_savingsRate env, h]; simp

/-- C11: the records kept by the type filter with value "Expense" all have type Expense, the
statistics over the kept list have income 0 and savingsRate 0, and in the three-record
scenario the filter keeps exactly the two Expense records. -/
theorem C11_expense_filter_statistics (env : Browser) (l : List Transaction) :
    (∀ r ∈ typeFilter "Expense" l, r.type = "Expense") ∧
    (statistics env (typeFilter "Expense" l)).income = 0 ∧
    (statistics env (typeFilter "Expense" l)).savingsRate = some 0 ∧
    (typeFilter "Expense" sampleRecords).length = 2 ∧
    (typeFilter "Expense" sampleRecords).map (fun t => t.transactionId) = ["t2", "t3"] := by
  have hall : ∀ r ∈ typeFilter "Expense" l, r.type = "Expense" :=
    fun r hr => ((mem_typeFilter "Expense" l r).1 hr).2
  have h0 := income_eq_zero_of_all_expense env _ hall
  exact ⟨hall, h0, savingsRate_of_income_zero env _ h0, by decide, by decide⟩

/-! ## The three-record scenario -/

/-- C16: for the three records (Income, 1000, 2024-01-05), (Expense, 300, 2024-01-10),
(Expense, 200, 2024-02-01) the statistics are income 1000, expense 500, balance 500,
savingsRate 50.0, and monthlyTrend has exactly the buckets "Jan 2024" (income 1000, expense
300) and "Feb 2024" (income 0, expense 200). -/
theorem C16_scenario_statistics (env : Browser) :
    (statistics env sampleRecords).income = 1000 ∧
    (statistics env sampleRecords).expense = 500 ∧
    (statistics env sampleRecords).balance = 500 ∧
    (statistics env sampleRecords).savingsRate = some 50 ∧
    (statistics env sampleRecords).monthlyTrend
      = [("Jan 2024", { income := 1000, expense := 300 }),
         ("Feb 2024", { income := 0, expense := 200 })] := by
  have hi : (statistics env sampleRecords).income = 1000 := sampleRecords_income env
  have he : (statistics env sampleRecords).expense = 500 := by
    simp [statistics, sampleRecords, sampleFood, parseFloat]; norm_num
  have hb : (statistics env sampleRecords).balance = 500 := by
    rw [statistics_balance env, hi, he]; norm_num
  have h1 : formatMonthYear env "2024-01-05" = "Jan 2024" := rfl
  have h2 : formatMonthYear env "2024-01-10" = "Jan 2024" := rfl
  have h3 : formatMonthYear env "2024-02-01" = "Feb 2024" := rfl
  refine ⟨hi, he, hb, ?_, ?_⟩
  · rw [savingsRate_of_pos env _ (by rw [hi]; norm_num), hi, hb, savingsDouble_half]
  · simp [statistics, sampleRecords, sampleFood, monthStep, truthyAt, parseFloat, h1, h2, h3,
      objectPrototypeKeys]

/-! ## Averages -/

theorem orOne_ne_zero (n : Nat) : orOne n ≠ 0 := by
  unfold orOne; split <;> omega

theorem jsDiv_orOne (a : ℚ) (n : Nat) :
    jsDiv a (orOne n) = some (if n = 0 then a else a / n) := by
  have h : ((orOne n : Nat) : ℚ) ≠ 0 := by exact_mod_cast orOne_ne_zero n
  rw [jsDiv, if_neg h]
  by_cases hn : n = 0 <;> simp [orOne, hn]

theorem statistics_avgIncome (env : Browser) (l : List Transaction) :
    (statistics env l).avgIncome
      = jsDiv (statistics env l).income
          (orOne (l.filter (fun t => t.type = "Income")).length) := rfl

theorem statistics_avgExpense (env : Browser) (l : List Transaction) :
    (statistics env l).avgExpense
      = jsDiv (statistics env l).expense
          (orOne (l.filter (fun t => t.type = "Expense")).length) := rfl

/-- C17: avgIncome is income divided by the number of Income records when there is one, and
income itself when there is none; avgExpense likewise; the divisor `length || 1` is never 0,
so both divisions have a finite result. -/
theorem C17_averages (env : Browser) (l : List Transaction) :
    (statistics env l).avgIncome
      = some (if (l.filter (fun t => t.type = "Income")).length = 0 then (statistics env l).income
          else (statistics env l).income / ((l.filter (fun t => t.type = "Income")).length : ℚ)) ∧
    (statistics env l).avgExpense
      = some (if (l.filter (fun t => t.type = "Expense")).length = 0 then (statistics env l).expense
          else (statistics env l).expense / ((l.filter (fun t => t.type = "Expense")).length : ℚ)) ∧
    orOne (l.filter (fun t => t.type = "Income")).length ≠ 0 ∧
    orOne (l.filter (fun t => t.type = "Expense")).length ≠ 0 := by
  refine ⟨?_, ?_, orOne_ne_zero _, orOne_ne_zero _⟩
  · rw [statistics_avgIncome env, jsDiv_orOne]
  · rw [statistics_avgExpense env, jsDiv_orOne]

/-! ## Totality and the empty list -/

theorem savingsRate_isSome (env : Browser) (l : List Transaction) :
    ∃ v, (statistics env l).savingsRate = some v := by
  rw [statistics_savingsRate env]
  by_cases h : (statistics env l).income > 0
  · rw [if_pos h, jsDiv, if_neg (ne_of_gt h)]; exact ⟨_, rfl⟩
  · rw [if_neg h]; exact ⟨_, rfl⟩

/-- C18: the statistics are computed for every list, with a finite value for each of the
three quotients (savingsRate, avgIncome, avgExpense); for the empty list income, expense,
balance and savingsRate are 0 and the category lists, monthlyTrend and recentTransactions
are empty. -/
theorem C18_total_and_empty (env : Browser) (l : List Transaction) :
    (∃ v a e, (statistics env l).savingsRate = some v ∧ (statistics env l).avgIncome = some a ∧
      (statistics env l).avgExpense = some e) ∧
    (statistics env []).income = 0 ∧ (statistics env []).expense = 0 ∧
    (statistics env []).balance = 0 ∧
    (statistics env []).savingsRate = some 0 ∧
    (statistics env []).topExpenseCategories = [] ∧ (statistics env []).topIncomeCategories = [] ∧
    (statistics env []).monthlyTrend = [] ∧ (statistics env []).recentTransactions = [] ∧
    (statistics env []).categoryData = [] := by
  obtain ⟨v, hv⟩ := savingsRate_isSome env l
  have ha := jsDiv_orOne (statistics env l).income (l.filter (fun t => t.type = "Income")).length
  have he := jsDiv_orOne (statistics env l).expense (l.filter (fun t => t.type = "Expense")).length
  refine ⟨⟨v, _, _, hv, ha, he⟩, ?_⟩
  simp [statistics, objectEntries, jsSort]

/-! ## Export -/

theorem exportData_length (env : Browser) (l : List Transaction) :
    (exportData env l).length = l.length := by
  simp [exportData]

/-- C19: on an empty list `exportToExcel` sets the error "No data available to export.",
builds no rows and saves no file; on a non-empty list that error is not set and the rows are
built. -/
theorem C19_export_empty_guard (env : Browser) (sheetWrites : List ExportRow → Bool)
    (currentDate : String)
    (t : Transaction) (l : List Transaction) :
    exportToExcel env sheetWrites currentDate []
      = { transactionError := some "No data available to export.",
          message := "No transactions to export", rows := none, savedFile := none } ∧
    (exportToExcel env sheetWrites currentDate (t :: l)).transactionError
      ≠ some "No data available to export." ∧
    (exportToExcel env sheetWrites currentDate (t :: l)).rows = some (exportData env (t :: l)) := by
  refine ⟨rfl, ?_, ?_⟩
  · unfold exportToExcel
    by_cases h : sheetWrites (exportData env (t :: l)) = true <;> simp [h]
  · unfold exportToExcel
    by_cases h : sheetWrites (exportData env (t :: l)) = true <;> simp [h]

theorem sNo_enumFrom (env : Browser) (l : List Transaction) (n : Nat) :
    (l.enumFrom n).map ((fun row : ExportRow => row.sNo) ∘ fun p =>
      { sNo := p.1 + 1, date := formatIsoDate env p.2.date, amount := p.2.amount, type := p.2.type,
        category := p.2.category, reference := p.2.refrence,
        description :=
          match p.2.description with
          | some d => d
          | none => "" }) = List.range' (n + 1) l.length := by
  induction l generalizing n with
  | nil => rfl
  | cons t l ih => simp [List.enumFrom, List.range', ih (n + 1)]

/-- C20: the export projection of N records has N rows in the input order with sequence
numbers 1..N; the row at position i (from 0) has sequence number i + 1 and carries that
record's amount, type, category and reference unchanged and its description, or the empty
string when the description is absent. -/
theorem C20_export_projection (env : Browser) (l : List Transaction) (i : Nat) :
    (exportData env l).length = l.length ∧
    (exportData env l).map (fun row => row.sNo) = List.range' 1 l.length ∧
    (exportData env l)[i]? = (l[i]?).map (fun t =>
      { sNo := i + 1, date := formatIsoDate env t.date, amount := t.amount, type := t.type,
        category := t.category, reference := t.refrence,
        description := t.description.getD "" }) := by
  refine ⟨exportData_length env l, ?_, ?_⟩
  · rw [exportData, List.map_map]
    exact sNo_enumFrom env l 0
  · simp only [exportData, List.getElem?_map, List.getElem?_enum]
    cases l[i]? with
    | none => rfl
    | some t => cases hd : t.description <;> simp [hd]

/-! ## Sorting and `Object.entries` -/

theorem jsSort_perm {α : Type} (compare : α → α → Option ℚ) (l : List α) :
    (jsSort compare l).Perm l :=
  List.perm_insertionSort _ l

theorem jsSort_length {α : Type} (compare : α → α → Option ℚ) (l : List α) :
    (jsSort compare l).length = l.length :=
  (jsSort_perm compare l).length_eq

/-- When on the elements of the list the comparator agrees with the descending order of a
rational key, the sorted list is in non-increasing order of that key. -/
theorem jsSort_pairwise_of_key {α : Type} (compare : α → α → Option ℚ) (key : α → ℚ)
    (l : List α)
    (h : ∀ a ∈ l, ∀ b ∈ l, notAfter (compare a b) = true ↔ key a ≥ key b) :
    (jsSort compare l).Pairwise (fun a b => key b ≤ key a) := by
  have hmap := List.map_insertionSort (fun a b => notAfter (compare a b) = true)
    (fun x y : ℚ => x ≥ y) key l h
  have hs : ((jsSort compare l).map key).Sorted (fun x y : ℚ => x ≥ y) := by
    unfold jsSort
    rw [hmap]
    exact List.sorted_insertionSort _ _
  exact (List.pairwise_map.1 hs)

/-- Stability: elements that the comparator never puts after one another keep their order. -/
theorem jsSort_filter_eq {α : Type} (compare : α → α → Option ℚ) (p : α → Bool) (l : List α)
    (h : ∀ a b, p a = true → p b = true → notAfter (compare a b) = true) :
    (jsSort compare l).filter p = l.filter p := by
  have hpw : (l.filter p).Pairwise (fun a b => notAfter (compare a b) = true) := by
    apply List.pairwise_of_forall_mem_list
    intro a ha b hb
    exact h a b (List.mem_filter.1 ha).2 (List.mem_filter.1 hb).2
  have hsub : List.Sublist (l.filter p) (jsSort compare l) :=
    List.sublist_insertionSort hpw (List.filter_sublist l)
  have hsub2 : List.Sublist (l.filter p) ((jsSort compare l).filter p) := by
    have := hsub.filter p
    simpa [List.filter_filter] using this
  have hlen : ((jsSort compare l).filter p).length = (l.filter p).length :=
    ((jsSort_perm compare l).filter p).length_eq
  exact (hsub2.eq_of_length hlen.symm).symm

theorem filter_take_prefix {α : Type} (p : α → Bool) (n : Nat) (l : List α) :
    List.IsPrefix ((l.take n).filter p) (l.filter p) := by
  refine ⟨(l.drop n).filter p, ?_⟩
  rw [← List.filter_append, List.take_append_drop]

theorem objectEntries_perm {β : Type} (o : List (String × β)) : (objectEntries o).Perm o := by
  unfold objectEntries
  refine ((List.perm_insertionSort _ _).append_right _).trans ?_
  have h := List.filter_append_perm (fun e : String × β => (arrayIndex e.1).isSome) o
  have hnot : (fun e : String × β => !(arrayIndex e.1).isSome)
      = (fun e : String × β => (arrayIndex e.1).isNone) := by
    funext e; cases arrayIndex e.1 <;> rfl
  rw [hnot] at h
  exact h

theorem objectEntries_of_no_index {β : Type} (o : List (String × β))
    (h : ∀ e ∈ o, arrayIndex e.1 = none) : objectEntries o = o := by
  unfold objectEntries
  have h1 : o.filter (fun e => (arrayIndex e.1).isSome) = [] := by
    rw [List.filter_eq_nil_iff]; intro e he; simp [h e he]
  have h2 : o.filter (fun e => (arrayIndex e.1).isNone) = o := by
    rw [List.filter_eq_self]; intro e he; simp [h e he]
  rw [h1, h2]; rfl

/-! ## Top categories -/

theorem statistics_topExpense (env : Browser) (l : List Transaction) :
    (statistics env l).topExpenseCategories
      = topCategories "Expense" (statistics env l).categoryData :=
  rfl

theorem statistics_topIncome (env : Browser) (l : List Transaction) :
    (statistics env l).topIncomeCategories
      = topCategories "Income" (statistics env l).categoryData :=
  rfl

theorem notAfter_byAmount (a b : String × CategoryGroup) :
    notAfter (byAmountDescending a b) = true ↔ a.2.amount ≥ b.2.amount := by
  simp [notAfter, byAmountDescending]

theorem topCategories_length (T : String) (cd : CategoryData) :
    (topCategories T cd).length = min 5 (cd.filter (fun e => e.2.type = T)).length := by
  unfold topCategories
  rw [List.length_take, jsSort_length, ((objectEntries_perm cd).filter _).length_eq]

theorem mem_topCategories (T : String) (cd : CategoryData) (e : String × CategoryGroup)
    (he : e ∈ topCategories T cd) : e ∈ cd ∧ e.2.type = T := by
  have h1 := (jsSort_perm byAmountDescending _).mem_iff.1 (List.mem_of_mem_take he)
  have h2 := List.mem_filter.1 h1
  exact ⟨(objectEntries_perm cd).mem_iff.1 h2.1, by simpa using h2.2⟩

theorem topCategories_pairwise (T : String) (cd : CategoryData) :
    (topCategories T cd).Pairwise (fun a b => b.2.amount ≤ a.2.amount) := by
  have h := jsSort_pairwise_of_key byAmountDescending (fun e => e.2.amount)
    ((objectEntries cd).filter (fun e => e.2.type = T))
    (fun a _ b _ => notAfter_byAmount a b)
  exact h.sublist (List.take_sublist _ _)

theorem topCategories_beats_rest (T : String) (cd : CategoryData) (y : String × CategoryGroup)
    (hy : y ∈ cd) (hT : y.2.type = T) (hout : y ∉ topCategories T cd)
    (x : String × CategoryGroup) (hx : x ∈ topCategories T cd) : y.2.amount ≤ x.2.amount := by
  have hs := jsSort_pairwise_of_key byAmountDescending (fun e => e.2.amount)
    ((objectEntries cd).filter (fun e => e.2.type = T))
    (fun a _ b _ => notAfter_byAmount a b)
  have hmem : y ∈ jsSort byAmountDescending
      ((objectEntries cd).filter (fun e => e.2.type = T)) := by
    rw [(jsSort_perm byAmountDescending _).mem_iff, List.mem_filter,
      (objectEntries_perm cd).mem_iff]
    exact ⟨hy, by simpa using hT⟩
  rw [← List.take_append_drop 5 (jsSort byAmountDescending _), List.mem_append] at hmem
  rcases hmem with h | h
  · exact absurd h hout
  · exact List.Sorted.rel_of_mem_take_of_mem_drop hs hx h

theorem topCategories_ties (T : String) (cd : CategoryData) (v : ℚ) :
    List.IsPrefix ((topCategories T cd).filter (fun e => e.2.amount = v))
      (((objectEntries cd).filter (fun e => e.2.type = T)).filter (fun e => e.2.amount = v)) := by
  have h := jsSort_filter_eq byAmountDescending (fun e => decide (e.2.amount = v))
    ((objectEntries cd).filter (fun e => e.2.type = T))
    (fun a b ha hb => by
      rw [notAfter_byAmount]
      simp only [decide_eq_true_eq] at ha hb
      rw [ha, hb])
  rw [← h]
  exact filter_take_prefix _ 5 _

/-- C12: topExpenseCategories has exactly min(5, k) entries, k being the number of category
groups of type Expense; every entry is a group of categoryData of type Expense; and no
Expense group left out of the list has a larger total than a group in the list.  The same
holds for topIncomeCategories with Income. -/
theorem C12_top_categories (env : Browser) (l : List Transaction) :
    ((statistics env l).topExpenseCategories.length
        = min 5 ((statistics env l).categoryData.filter (fun e => e.2.type = "Expense")).length ∧
      (∀ e ∈ (statistics env l).topExpenseCategories,
        e ∈ (statistics env l).categoryData ∧ e.2.type = "Expense") ∧
      (∀ y ∈ (statistics env l).categoryData, y.2.type = "Expense" →
        y ∉ (statistics env l).topExpenseCategories →
        ∀ x ∈ (statistics env l).topExpenseCategories, y.2.amount ≤ x.2.amount)) ∧
    ((statistics env l).topIncomeCategories.length
        = min 5 ((statistics env l).categoryData.filter (fun e => e.2.type = "Income")).length ∧
      (∀ e ∈ (statistics env l).topIncomeCategories,
        e ∈ (statistics env l).categoryData ∧ e.2.type = "Income") ∧
      (∀ y ∈ (statistics env l).categoryData, y.2.type = "Income" →
        y ∉ (statistics env l).topIncomeCategories →
        ∀ x ∈ (statistics env l).topIncomeCategories, y.2.amount ≤ x.2.amount)) := by
  rw [statistics_topExpense env, statistics_topIncome env]
  exact ⟨⟨topCategories_length _ _, mem_topCategories _ _, topCategories_beats_rest _ _⟩,
    ⟨topCategories_length _ _, mem_topCategories _ _, topCategories_beats_rest _ _⟩⟩

theorem map_fst_map_bump (t : Transaction) (acc : CategoryData) :
    (acc.map (bump t)).map Prod.fst = acc.map Prod.fst := by
  rw [List.map_map]
  exact List.map_congr_left (fun e _ => bump_fst t e)

theorem categoryKeys_foldl (l : List Transaction) :
    ∀ acc : CategoryData,
      (l.foldl categoryStep acc).map Prod.fst
        = ((l.map (fun t => t.category)).filter (fun k => k ∉ objectPrototypeKeys)).foldl
            (fun acc k => if k ∈ acc then acc else acc ++ [k]) (acc.map Prod.fst) := by
  induction l with
  | nil => intro acc; rfl
  | cons t l ih =>
    intro acc
    rw [List.foldl_cons, ih, List.map_cons, List.filter_cons]
    by_cases h : t.category ∈ acc.map Prod.fst
    · rw [categoryStep_own acc t h, map_fst_map_bump]
      by_cases hk : t.category ∈ objectPrototypeKeys
      · simp [hk]
      · simp only [hk, not_false_eq_true, decide_True, if_true, List.foldl_cons, if_pos h]
    · by_cases hk : t.category ∈ objectPrototypeKeys
      · rw [categoryStep_inherited acc t h hk]; simp [hk]
      · rw [categoryStep_new acc t h hk]
        simp only [hk, not_false_eq_true, decide_True, if_true, List.foldl_cons, if_neg h,
          List.map_append, List.map_cons, List.map_nil]

/-- The keys of `categoryData` are the categories of the list, inherited names left out, in
the order in which they first occur. -/
theorem categoryData_keys (env : Browser) (l : List Transaction) :
    (statistics env l).categoryData.map Prod.fst
      = firstSeen ((l.map (fun t => t.category)).filter (fun k => k ∉ objectPrototypeKeys)) :=
  categoryKeys_foldl l []

theorem mem_firstSeen_foldl (xs : List String) (k : String) :
    ∀ acc : List String,
      k ∈ xs.foldl (fun acc k => if k ∈ acc then acc else acc ++ [k]) acc ↔ k ∈ acc ∨ k ∈ xs := by
  induction xs with
  | nil => intro acc; simp
  | cons x xs ih =>
    intro acc
    rw [List.foldl_cons, ih]
    by_cases hx : x ∈ acc
    · rw [if_pos hx, List.mem_cons]
      constructor
      · rintro (h | h)
        · exact Or.inl h
        · exact Or.inr (Or.inr h)
      · rintro (h | h | h)
        · exact Or.inl h
        · exact Or.inl (h ▸ hx)
        · exact Or.inr h
    · rw [if_neg hx, List.mem_append, List.mem_singleton, List.mem_cons]
      tauto

theorem mem_firstSeen (xs : List String) (k : String) : k ∈ firstSeen xs ↔ k ∈ xs := by
  unfold firstSeen
  rw [mem_firstSeen_foldl]; simp

theorem categoryData_key_mem (env : Browser) (l : List Transaction) (e : String × CategoryGroup)
    (he : e ∈ (statistics env l).categoryData) : ∃ t ∈ l, t.category = e.1 := by
  have h : e.1 ∈ (statistics env l).categoryData.map Prod.fst := List.mem_map_of_mem _ he
  rw [categoryData_keys env, mem_firstSeen, List.mem_filter, List.mem_map] at h
  exact h.1

/-- C13 (counterexample): "Rent" occurs before "2024" in the input and both groups total 50,
yet topExpenseCategories lists "2024" first. -/
theorem C13_counterexample :
    integerNameRecords.map (fun t => t.category) = ["Rent", "2024"] ∧
    (statistics utc integerNameRecords).topExpenseCategories
      = [("2024", { amount := 50, count := 1, type := "Expense" }),
         ("Rent", { amount := 50, count := 1, type := "Expense" })] := by
  refine ⟨rfl, ?_⟩
  have hcd : (statistics utc integerNameRecords).categoryData
      = [("Rent", { amount := 50, count := 1, type := "Expense" }),
         ("2024", { amount := 50, count := 1, type := "Expense" })] := by
    simp [statistics, integerNameRecords, categoryStep, truthyAt, objectPrototypeKeys,
      parseFloat]
  have he : objectEntries [("Rent", ({ amount := 50, count := 1, type := "Expense" } : CategoryGroup)),
         ("2024", { amount := 50, count := 1, type := "Expense" })]
      = [("2024", { amount := 50, count := 1, type := "Expense" }),
         ("Rent", { amount := 50, count := 1, type := "Expense" })] := by
    have h1 : arrayIndex "Rent" = none := by decide
    have h2 : arrayIndex "2024" = some 2024 := by decide
    simp [objectEntries, List.filter_cons, h1, h2]
  rw [statistics_topExpense utc, hcd, topCategories, he]
  simp [jsSort, notAfter, byAmountDescending]

/-- C13 (amended): both top lists are in non-increasing order of total amount, and groups with
equal totals stand in the order of `Object.entries(categoryData)`: array-index names first in
ascending numeric order, then the other names in creation order.  When no category of the
list is an array index that order is the creation order of categoryData, whose keys are the
categories in the order in which they first occur in the input list. -/
theorem C13_top_order (env : Browser) (l : List Transaction) :
    (statistics env l).topExpenseCategories.Pairwise (fun a b => b.2.amount ≤ a.2.amount) ∧
    (statistics env l).topIncomeCategories.Pairwise (fun a b => b.2.amount ≤ a.2.amount) ∧
    (∀ v : ℚ, List.IsPrefix
      ((statistics env l).topExpenseCategories.filter (fun e => e.2.amount = v))
      (((objectEntries (statistics env l).categoryData).filter
        (fun e => e.2.type = "Expense")).filter (fun e => e.2.amount = v))) ∧
    (∀ v : ℚ, List.IsPrefix
      ((statistics env l).topIncomeCategories.filter (fun e => e.2.amount = v))
      (((objectEntries (statistics env l).categoryData).filter
        (fun e => e.2.type = "Income")).filter (fun e => e.2.amount = v))) ∧
    ((∀ t ∈ l, arrayIndex t.category = none) →
      objectEntries (statistics env l).categoryData = (statistics env l).categoryData) ∧
    (statistics env l).categoryData.map Prod.fst
      = firstSeen ((l.map (fun t => t.category)).filter (fun k => k ∉ objectPrototypeKeys)) := by
  rw [statistics_topExpense env, statistics_topIncome env]
  refine ⟨topCategories_pairwise _ _, topCategories_pairwise _ _, topCategories_ties _ _,
    topCategories_ties _ _, ?_, categoryData_keys env l⟩
  intro hno
  apply objectEntries_of_no_index
  intro e he
  obtain ⟨t, ht, hte⟩ := categoryData_key_mem env l e he
  rw [← hte]; exact hno t ht

/-- C13 (witness): no category of the three-record scenario is an array index. -/
theorem C13_top_order_witness :
    (∀ t ∈ sampleRecords, arrayIndex t.category = none) ∧
    objectEntries (statistics utc sampleRecords).categoryData
      = (statistics utc sampleRecords).categoryData :=
  ⟨by decide, (C13_top_order utc sampleRecords).2.2.2.2.1 (by decide)⟩

/-! ## Day numbers follow the calendar -/

theorem daysInMonth_facts (y m : Nat) :
    daysInMonth y m ≤ 31 ∧
    (m = 2 → daysInMonth y m ≤ 29) ∧
    (m = 2 → ¬ (y % 4 = 0 ∧ (y % 100 ≠ 0 ∨ y % 400 = 0)) → daysInMonth y m ≤ 28) ∧
    (m = 4 ∨ m = 6 ∨ m = 9 ∨ m = 11 → daysInMonth y m ≤ 30) := by
  unfold daysInMonth isLeapYear
  refine ⟨?_, ?_, ?_, ?_⟩
  · split_ifs <;> omega
  · intro hm; rw [if_pos hm]; split_ifs <;> omega
  · intro hm hleap
    rw [if_pos hm]
    have : ((y % 4 = 0 && y % 100 != 0) || decide (y % 400 = 0)) = false := by
      rw [Bool.eq_false_iff]
      intro hh
      apply hleap
      simp only [Bool.or_eq_true, Bool.and_eq_true, decide_eq_true_eq, bne_iff_ne] at hh
      omega
    simp [this]
  · intro hm
    have h2 : ¬ m = 2 := by omega
    rw [if_neg h2, if_pos hm]

theorem daysFromCivil_eq (d : CalendarDate) :
    daysFromCivil d
      = (if d.month ≤ 2 then yearDays ((d.year : Int) - 1) + (153 * ((d.month : Int) + 9) + 2) / 5
        else yearDays (d.year : Int) + (153 * ((d.month : Int) - 3) + 2) / 5)
        + (d.day : Int) - 1 - 719468 := by
  unfold daysFromCivil yearDays
  by_cases h : d.month ≤ 2
  · have h2 : ¬ d.month > 2 := by omega
    simp only [h, h2, if_true, if_false]
    omega
  · have h2 : d.month > 2 := by omega
    simp only [h, h2, if_true, if_false]
    omega

theorem yearDays_mono (Y1 Y2 : Int) (h : Y1 ≤ Y2) : yearDays Y1 ≤ yearDays Y2 := by
  unfold yearDays; omega

theorem yearDays_succ (Y : Int) : yearDays Y + 365 ≤ yearDays (Y + 1) := by
  unfold yearDays; omega

theorem yearDays_succ_leap (y : Nat) (h : y % 4 = 0 ∧ (y % 100 ≠ 0 ∨ y % 400 = 0)) :
    yearDays ((y : Int) - 1) + 366 ≤ yearDays (y : Int) := by
  unfold yearDays; omega

/-- The last day number of a date is below the start of the next March-based year. -/
theorem daysFromCivil_lt_next (a : CalendarDate) (ha : a.Valid) :
    daysFromCivil a + 719468
      < yearDays (if a.month ≤ 2 then (a.year : Int) else (a.year : Int) + 1) := by
  obtain ⟨ha1, ha2, ha3, ha4⟩ := ha
  obtain ⟨f1, f2, f3, f4⟩ := daysInMonth_facts a.year a.month
  rw [daysFromCivil_eq]
  by_cases hma : a.month ≤ 2
  · simp only [hma, if_true]
    by_cases hleap : a.year % 4 = 0 ∧ (a.year % 100 ≠ 0 ∨ a.year % 400 = 0)
    · have := yearDays_succ_leap a.year hleap
      omega
    · have := yearDays_succ ((a.year : Int) - 1)
      have e : (a.year : Int) - 1 + 1 = a.year := by omega
      rw [e] at this
      have f3' := fun hm => f3 hm hleap
      omega
  · simp only [hma, if_false]
    have := yearDays_succ (a.year : Int)
    omega

theorem daysFromCivil_ge_start (b : CalendarDate) (hb : b.Valid) :
    yearDays (if b.month ≤ 2 then (b.year : Int) - 1 else (b.year : Int))
      ≤ daysFromCivil b + 719468 := by
  obtain ⟨hb1, hb2, hb3, _⟩ := hb
  rw [daysFromCivil_eq]
  by_cases hmb : b.month ≤ 2
  · simp only [hmb, if_true]; omega
  · simp only [hmb, if_false]; omega

/-- The day number grows with the calendar order of valid dates. -/
theorem daysFromCivil_lt (a b : CalendarDate) (ha : a.Valid) (hb : b.Valid)
    (h : a.Before b) : daysFromCivil a < daysFromCivil b := by
  have hnext := daysFromCivil_lt_next a ha
  have hstart := daysFromCivil_ge_start b hb
  obtain ⟨ha1, ha2, ha3, ha4⟩ := ha
  obtain ⟨hb1, hb2, hb3, _⟩ := hb
  obtain ⟨f1, f2, f3, f4⟩ := daysInMonth_facts a.year a.month
  rcases h with hy | ⟨hy, hm | ⟨hm, hd⟩⟩
  · -- an earlier year
    by_cases hma : a.month ≤ 2 <;> by_cases hmb : b.month ≤ 2
    · simp only [hma, if_true] at hnext
      simp only [hmb, if_true] at hstart
      have := yearDays_mono (a.year : Int) ((b.year : Int) - 1) (by omega)
      omega
    · simp only [hma, if_true] at hnext
      simp only [hmb, if_false] at hstart
      have := yearDays_mono (a.year : Int) (b.year : Int) (by omega)
      omega
    · by_cases hyy : a.year + 1 = b.year
      · rw [daysFromCivil_eq, daysFromCivil_eq]
        simp only [hma, hmb, if_true, if_false]
        have e : (b.year : Int) - 1 = a.year := by omega
        rw [e]
        omega
      · simp only [hma, if_false] at hnext
        simp only [hmb, if_true] at hstart
        have := yearDays_mono ((a.year : Int) + 1) ((b.year : Int) - 1) (by omega)
        omega
    · simp only [hma, if_false] at hnext
      simp only [hmb, if_false] at hstart
      have := yearDays_mono ((a.year : Int) + 1) (b.year : Int) (by omega)
      omega
  · -- the same year, an earlier month
    rw [daysFromCivil_eq, daysFromCivil_eq, hy]
    by_cases hma : a.month ≤ 2 <;> by_cases hmb : b.month ≤ 2
    · simp only [hma, hmb, if_true]; omega
    · simp only [hma, if_true] at hnext
      simp only [hmb, if_false] at hstart
      rw [daysFromCivil_eq] at hnext hstart
      simp only [hma, hmb, if_true, if_false] at hnext hstart ⊢
      rw [hy] at hnext
      omega
    · omega
    · simp only [hma, hmb, if_false]
      have hmonths : a.month = 3 ∨ a.month = 4 ∨ a.month = 5 ∨ a.month = 6 ∨ a.month = 7 ∨
          a.month = 8 ∨ a.month = 9 ∨ a.month = 10 ∨ a.month = 11 := by omega
      have hd31 : a.day ≤ 31 := le_trans ha4 f1
      have hd30 : a.month = 4 ∨ a.month = 6 ∨ a.month = 9 ∨ a.month = 11 → a.day ≤ 30 :=
        fun hh => le_trans ha4 (f4 hh)
      rcases hmonths with e | e | e | e | e | e | e | e | e <;>
        simp only [e] at hd30 hm ⊢ <;> omega
  · -- the same month, an earlier day
    rw [daysFromCivil_eq, daysFromCivil_eq, hy, hm]
    omega

theorem calendarDate_spec (s : String) (d : CalendarDate) (h : calendarDate s = some d) :
    isoDateTime s = some { date := d, time := none } ∧ d.Valid := by
  unfold calendarDate at h
  cases hf : isoDateTime s with
  | none => simp [hf] at h
  | some f =>
    simp only [hf] at h
    split at h
    · rename_i hv
      cases h
      obtain ⟨ht, hv⟩ := hv
      refine ⟨?_, hv⟩
      obtain ⟨date, time⟩ := f
      cases time with
      | none => rfl
      | some t => simp at ht
    · cases h

/-- For a calendar-date string `new Date` gives midnight UTC of that day. -/
theorem dateTime_of_calendarDate (env : Browser) (s : String) (d : CalendarDate)
    (h : calendarDate s = some d) :
    dateTime env s = some ((daysFromCivil d * 86400000 : Int) : ℚ) := by
  obtain ⟨hf, hv⟩ := calendarDate_spec s d h
  have h31 : d.day ≤ 31 := le_trans hv.2.2.2 (daysInMonth_facts _ _).1
  unfold dateTime
  rw [hf]
  simp only
  rw [if_pos ⟨hv.1, hv.2.1, hv.2.2.1, h31⟩]

theorem CalendarDate.before_trichotomy (a b : CalendarDate) :
    a.Before b ∨ a = b ∨ b.Before a := by
  obtain ⟨ay, am, ad⟩ := a
  obtain ⟨bY, bm, bd⟩ := b
  simp only [CalendarDate.Before, CalendarDate.mk.injEq]
  omega

theorem daysFromCivil_lt_iff (a b : CalendarDate) (ha : a.Valid) (hb : b.Valid) :
    daysFromCivil a < daysFromCivil b ↔ a.Before b := by
  constructor
  · intro h
    rcases CalendarDate.before_trichotomy a b with h1 | h1 | h1
    · exact h1
    · rw [h1] at h; exact absurd h (lt_irrefl _)
    · exact absurd (daysFromCivil_lt b a hb ha h1) (not_lt.2 (le_of_lt h))
  · exact daysFromCivil_lt a b ha hb

/-- The time values of two records whose dates are calendar-date strings compare as the
calendar dates do. -/
theorem timeOf_lt_iff (env : Browser) (t u : Transaction) (a b : CalendarDate)
    (ha : calendarDate t.date = some a) (hb : calendarDate u.date = some b) :
    timeOf env t < timeOf env u ↔ a.Before b := by
  rw [← daysFromCivil_lt_iff a b (calendarDate_spec _ _ ha).2 (calendarDate_spec _ _ hb).2]
  simp only [timeOf, dateTime_of_calendarDate env _ _ ha, dateTime_of_calendarDate env _ _ hb,
    Option.getD_some]
  rw [Int.cast_lt]
  constructor
  · intro h; omega
  · intro h; omega

/-! ## Recent transactions -/

theorem statistics_recent (env : Browser) (l : List Transaction) :
    (statistics env l).recentTransactions = (jsSort (byDateDescending env) l).take 5 := rfl

theorem notAfter_byDate_of_valid (env : Browser) (a b : Transaction)
    (ha : (dateTime env a.date).isSome = true)
    (hb : (dateTime env b.date).isSome = true) :
    notAfter (byDateDescending env a b) = true ↔ timeOf env a ≥ timeOf env b := by
  obtain ⟨x, hx⟩ := Option.isSome_iff_exists.1 ha
  obtain ⟨y, hy⟩ := Option.isSome_iff_exists.1 hb
  simp [notAfter, byDateDescending, timeOf, hx, hy]

theorem notAfter_byDate_of_eq (env : Browser) (a b : Transaction)
    (h : timeOf env a = timeOf env b) :
    notAfter (byDateDescending env a b) = true := by
  unfold byDateDescending
  cases hb : dateTime env b.date with
  | none => simp [notAfter]
  | some y =>
    cases ha : dateTime env a.date with
    | none => simp [notAfter]
    | some x =>
      have : x = y := by simpa [timeOf, ha, hb] using h
      simp [notAfter, this]

/-- A list has at most one stable sort by a rational key. -/
theorem stable_sort_unique {α : Type} (f : α → ℚ) :
    ∀ S1 S2 : List α, S1.Perm S2 →
      S1.Pairwise (fun a b => f b ≤ f a) → S2.Pairwise (fun a b => f b ≤ f a) →
      (∀ v : ℚ, S1.filter (fun t => f t = v) = S2.filter (fun t => f t = v)) → S1 = S2 := by
  intro S1
  induction S1 with
  | nil => intro S2 hp _ _ _; exact (List.Perm.nil_eq hp)
  | cons a S1 ih =>
    intro S2 hp h1 h2 hf
    cases S2 with
    | nil => exact absurd hp.length_eq (by simp)
    | cons b S2 =>
      have hba : f b ≤ f a := by
        rcases List.mem_cons.1 (hp.mem_iff.2 (List.mem_cons_self b S2)) with h | h
        · rw [h]
        · exact (List.pairwise_cons.1 h1).1 b h
      have hab : f a ≤ f b := by
        rcases List.mem_cons.1 (hp.mem_iff.1 (List.mem_cons_self a S1)) with h | h
        · rw [h]
        · exact (List.pairwise_cons.1 h2).1 a h
      have hfab : f b = f a := le_antisymm hba hab
      have hhead := hf (f a)
      simp only [List.filter_cons, hfab, decide_True, if_true] at hhead
      have heq : a = b := (List.cons.inj hhead).1
      subst heq
      have htail : ∀ v : ℚ, S1.filter (fun t => f t = v) = S2.filter (fun t => f t = v) := by
        intro v
        have hv := hf v
        by_cases hav : f a = v
        · simp only [List.filter_cons, hav, decide_True, if_true] at hv
          exact (List.cons.inj hv).2
        · simpa only [List.filter_cons, hav, decide_False, Bool.false_eq_true, if_false] using hv
      rw [ih S2 (List.Perm.cons_inv hp) (List.pairwise_cons.1 h1).2
        (List.pairwise_cons.1 h2).2 htail]

theorem jsSort_byDate_stable (env : Browser) (l : List Transaction)
    (hvalid : ∀ t ∈ l, (dateTime env t.date).isSome = true) :
    StableDateSort env l (jsSort (byDateDescending env) l) := by
  refine ⟨jsSort_perm _ l, ?_, ?_⟩
  · exact jsSort_pairwise_of_key (byDateDescending env) (timeOf env) l
      (fun a ha b hb => notAfter_byDate_of_valid env a b (hvalid a ha) (hvalid b hb))
  · intro v
    apply jsSort_filter_eq
    intro a b ha hb
    simp only [decide_eq_true_eq] at ha hb
    exact notAfter_byDate_of_eq env a b (ha.trans hb.symm)

/-- C14: for a list of n records with valid dates, that is, dates to which `new Date` gives a
time value (calendar dates, date-times with or without a zone designator, and whatever else
the engine reads), recentTransactions is the first min(5, n) elements of the stable sort of
the list by date, newest first (such a sort exists and every list meeting its specification
gives the same prefix): the dates of recentTransactions are non-increasing, records of equal
date keep their input order, and no record left out is newer than an included one.  Dates are
compared by time value, to the millisecond; on calendar-date strings that is the order of the
calendar. -/
theorem C14_recent_transactions (env : Browser) (l : List Transaction)
    (hvalid : ∀ t ∈ l, (dateTime env t.date).isSome = true) :
    (∃ S, StableDateSort env l S) ∧
    (∀ S, StableDateSort env l S →
      (statistics env l).recentTransactions = S.take (min 5 l.length) ∧
      ∀ x ∈ (statistics env l).recentTransactions, ∀ y ∈ S.drop (min 5 l.length),
        timeOf env y ≤ timeOf env x) ∧
    (statistics env l).recentTransactions.length = min 5 l.length ∧
    (statistics env l).recentTransactions.Pairwise (fun a b => timeOf env b ≤ timeOf env a) ∧
    (∀ v : ℚ, List.IsPrefix
      ((statistics env l).recentTransactions.filter (fun t => timeOf env t = v))
      (l.filter (fun t => timeOf env t = v))) ∧
    (∀ (t u : Transaction) (a b : CalendarDate),
      calendarDate t.date = some a → calendarDate u.date = some b →
      (timeOf env t < timeOf env u ↔ a.Before b)) := by
  have hS := jsSort_byDate_stable env l hvalid
  have htake : (jsSort (byDateDescending env) l).take (min 5 l.length)
      = (jsSort (byDateDescending env) l).take 5 := by
    rw [← jsSort_length (byDateDescending env) l, List.take_eq_take]
    simp
  refine ⟨⟨_, hS⟩, ?_, ?_, ?_, ?_, timeOf_lt_iff env⟩
  · intro S hSS
    have huniq : S = jsSort (byDateDescending env) l :=
      stable_sort_unique (timeOf env) S _ (hSS.1.trans hS.1.symm) hSS.2.1 hS.2.1
        (fun v => (hSS.2.2 v).trans (hS.2.2 v).symm)
    subst huniq
    rw [statistics_recent env, htake]
    refine ⟨rfl, fun x hx y hy => ?_⟩
    rw [← htake] at hx
    exact List.Sorted.rel_of_mem_take_of_mem_drop hSS.2.1 hx hy
  · rw [statistics_recent env, List.length_take, jsSort_length]
  · rw [statistics_recent env]
    exact hS.2.1.sublist (List.take_sublist _ _)
  · intro v
    rw [statistics_recent env, ← hS.2.2 v]
    exact filter_take_prefix _ 5 _

theorem timedRecords_recent :
    (statistics newYork timedRecords).recentTransactions.map (fun t => t.transactionId)
      = ["w2", "w6", "w3", "w4", "w1"] := by
  have h1 : dateTime newYork "2024-03-01T00:00:00.000Z" = some 1709251200000 := by decide
  have h2 : dateTime newYork "2024-03-05T09:30:00.000Z" = some 1709631000000 := by decide
  have h3 : dateTime newYork "2024-03-03T10:00:00+05:30" = some 1709440200000 := by decide
  have h4 : dateTime newYork "2024-03-03T04:30:00.000Z" = some 1709440200000 := by decide
  have h5 : dateTime newYork "2024-02-28" = some 1709078400000 := by decide
  have h6 : dateTime newYork "2024-03-04T23:59:59.999Z" = some 1709596799999 := by decide
  simp [statistics, jsSort, timedRecords, notAfter, h1, h2, h3, h4, h5, h6]
  norm_num

/-- C14 (witness): six records dated by date-time strings and one calendar-date string, in a
browser in New York; all have a time value, the five newest are listed, newest first, and the
two that name the same instant stand in their input order. -/
theorem C14_recent_transactions_witness :
    (∀ t ∈ timedRecords, (dateTime newYork t.date).isSome = true) ∧
    (statistics newYork timedRecords).recentTransactions.length = min 5 timedRecords.length ∧
    (statistics newYork timedRecords).recentTransactions.Pairwise
      (fun a b => timeOf newYork b ≤ timeOf newYork a) ∧
    (statistics newYork timedRecords).recentTransactions.map (fun t => t.transactionId)
      = ["w2", "w6", "w3", "w4", "w1"] :=
  ⟨by decide, (C14_recent_transactions newYork timedRecords (by decide)).2.2.1,
    (C14_recent_transactions newYork timedRecords (by decide)).2.2.2.1, timedRecords_recent⟩

/-! ## Monthly trend -/

theorem statistics_monthlyTrend (env : Browser) (l : List Transaction) :
    (statistics env l).monthlyTrend = l.foldl (monthStep env) [] := rfl

theorem formatMonthYear_not_inherited (env : Browser) (s : String) :
    formatMonthYear env s ∉ objectPrototypeKeys := by
  have hproto : ∀ k ∈ objectPrototypeKeys, ' ' ∉ k.data := by decide
  intro h
  apply hproto _ h
  unfold formatMonthYear
  cases momentDate env s with
  | none => decide
  | some d => simp

theorem ownProperty_nil {β : Type} (k : String) : ownProperty ([] : List (String × β)) k = none :=
  rfl

theorem ownProperty_cons {β : Type} (e : String × β) (o : List (String × β)) (k : String) :
    ownProperty (e :: o) k = if e.1 = k then some e.2 else ownProperty o k := by
  unfold ownProperty
  by_cases h : e.1 = k <;> simp [List.find?_cons, h]

theorem ownProperty_map_update {β : Type} (m : String) (g : β → β) (k : String)
    (o : List (String × β)) :
    ownProperty (o.map (fun e => if e.1 = m then (e.1, g e.2) else e)) k
      = if k = m then (ownProperty o k).map g else ownProperty o k := by
  induction o with
  | nil => simp [ownProperty_nil]
  | cons e o ih =>
    rw [List.map_cons, ownProperty_cons, ownProperty_cons, ih]
    by_cases hem : e.1 = m
    · by_cases hek : e.1 = k
      · have hkm : k = m := hek ▸ hem
        simp [hem, hek, hkm]
      · have hkm : ¬ k = m := fun h => hek (hem.trans h.symm)
        have hmk : ¬ m = k := fun h => hkm h.symm
        simp [hem, hkm, hmk]
    · by_cases hek : e.1 = k
      · have hkm : ¬ k = m := fun h => hem (hek.trans h)
        simp [hem, hek, hkm]
      · simp [hem, hek]

theorem ownProperty_append_single {β : Type} (o : List (String × β)) (m : String) (b : β)
    (k : String) :
    ownProperty (o ++ [(m, b)]) k
      = match ownProperty o k with
        | some x => some x
        | none => if m = k then some b else none := by
  induction o with
  | nil => simp [ownProperty_cons, ownProperty_nil]
  | cons e o ih =>
    rw [List.cons_append, ownProperty_cons, ownProperty_cons, ih]
    by_cases hek : e.1 = k <;> simp [hek]

theorem ownProperty_isSome_iff {β : Type} (o : List (String × β)) (k : String) :
    (ownProperty o k).isSome = true ↔ k ∈ o.map Prod.fst := by
  induction o with
  | nil => simp [ownProperty_nil]
  | cons e o ih =>
    rw [ownProperty_cons, List.map_cons, List.mem_cons]
    by_cases hek : e.1 = k
    · simp [hek]
    · rw [if_neg hek, ih]
      constructor
      · exact Or.inr
      · rintro (h | h)
        · exact absurd h.symm hek
        · exact h

theorem truthyAt_month (env : Browser) (o : MonthlyTrend) (s : String) :
    truthyAt o (formatMonthYear env s) = (ownProperty o (formatMonthYear env s)).isSome := by
  have hk : objectPrototypeKeys.contains (formatMonthYear env s) = false := by
    rw [Bool.eq_false_iff]
    intro h
    exact formatMonthYear_not_inherited env s (by simpa using h)
  rw [truthyAt, hk, Bool.or_false, Bool.eq_iff_iff, ownProperty_isSome_iff]
  simp only [List.any_eq_true, decide_eq_true_eq, List.mem_map]

theorem monthStep_eq (env : Browser) (o : MonthlyTrend) (t : Transaction) :
    monthStep env o t
      = (if !truthyAt o (formatMonthYear env t.date) then
          o ++ [(formatMonthYear env t.date, { income := 0, expense := 0 })]
        else o).map
          (fun e => if e.1 = formatMonthYear env t.date then (e.1, addToBucket t e.2) else e) := by
  unfold monthStep
  simp only
  congr 1
  funext e
  by_cases h : e.1 = formatMonthYear env t.date
  · by_cases hT : t.type = "Income" <;> simp [h, hT, addToBucket]
  · simp [h]

/-- The value under each key evolves on its own: one step of `monthStep` acts on the value
under `key` as `bucketStep key`. -/
theorem ownProperty_monthStep (env : Browser) (o : MonthlyTrend) (t : Transaction) (key : String) :
    ownProperty (monthStep env o t) key = bucketStep env key (ownProperty o key) t := by
  rw [monthStep_eq env, ownProperty_map_update, truthyAt_month env, bucketStep]
  cases hown : ownProperty o (formatMonthYear env t.date) with
  | some b =>
    simp only [Option.isSome_some, Bool.not_true, Bool.false_eq_true, if_false]
    by_cases hk : key = formatMonthYear env t.date
    · subst hk; simp [hown]
    · have hk2 : ¬ formatMonthYear env t.date = key := fun h => hk h.symm
      simp [hk, hk2]
  | none =>
    simp only [Option.isSome_none, Bool.not_false, if_true]
    rw [ownProperty_append_single]
    by_cases hk : key = formatMonthYear env t.date
    · subst hk; simp [hown]
    · have hk2 : ¬ formatMonthYear env t.date = key := fun h => hk h.symm
      simp only [hk, hk2, if_false]
      cases ownProperty o key <;> rfl

theorem ownProperty_foldl_monthStep (env : Browser) (l : List Transaction) (key : String) :
    ∀ o : MonthlyTrend,
      ownProperty (l.foldl (monthStep env) o) key
        = l.foldl (bucketStep env key) (ownProperty o key) := by
  induction l with
  | nil => intro o; rfl
  | cons t l ih => intro o; rw [List.foldl_cons, ih, ownProperty_monthStep env, List.foldl_cons]

theorem monthIncome_cons (env : Browser) (key : String) (t : Transaction) (l : List Transaction) :
    monthIncome env key (t :: l)
      = (if formatMonthYear env t.date = key ∧ t.type = "Income" then t.amount else 0)
        + monthIncome env key l := by
  unfold monthIncome
  by_cases h : formatMonthYear env t.date = key ∧ t.type = "Income"
  · simp [List.filter_cons, h]
  · rw [List.filter_cons, if_neg (by simpa using h), if_neg h, zero_add]

theorem monthOther_cons (env : Browser) (key : String) (t : Transaction) (l : List Transaction) :
    monthOther env key (t :: l)
      = (if formatMonthYear env t.date = key ∧ t.type ≠ "Income" then t.amount else 0)
        + monthOther env key l := by
  unfold monthOther
  by_cases h : formatMonthYear env t.date = key ∧ t.type ≠ "Income"
  · simp [List.filter_cons, h]
  · rw [List.filter_cons, if_neg (by simpa using h), if_neg h, zero_add]

theorem foldl_bucketStep_some (env : Browser) (key : String) (l : List Transaction) :
    ∀ b : MonthBucket,
      l.foldl (bucketStep env key) (some b)
        = some { income := b.income + monthIncome env key l,
                 expense := b.expense + monthOther env key l } := by
  induction l with
  | nil => intro b; simp [monthIncome, monthOther]
  | cons t l ih =>
    intro b
    rw [List.foldl_cons, monthIncome_cons env, monthOther_cons env]
    by_cases hk : formatMonthYear env t.date = key
    · by_cases hT : t.type = "Income"
      · simp [bucketStep, hk, hT, addToBucket, parseFloat, ih, add_assoc]
      · simp [bucketStep, hk, hT, addToBucket, parseFloat, ih, add_assoc]
    · simp [bucketStep, hk, ih]

theorem foldl_bucketStep_none (env : Browser) (key : String) (l : List Transaction) :
    l.foldl (bucketStep env key) none
      = if l.any (fun t => formatMonthYear env t.date = key) then
          some { income := monthIncome env key l, expense := monthOther env key l }
        else none := by
  induction l with
  | nil => rfl
  | cons t l ih =>
    rw [List.foldl_cons, monthIncome_cons env, monthOther_cons env]
    by_cases hk : formatMonthYear env t.date = key
    · have hstep : bucketStep env key none t
          = some (addToBucket t { income := 0, expense := 0 }) := by
        simp [bucketStep, hk]
      rw [hstep, foldl_bucketStep_some env]
      by_cases hT : t.type = "Income" <;> simp [hk, hT, addToBucket, parseFloat]
    · have hstep : bucketStep env key none t = none := by simp [bucketStep, hk]
      rw [hstep, ih]
      simp [hk]

/-- The value of `monthlyTrend[key]`: absent when no record's date prints as `key`, otherwise
the bucket of the Income amounts and of the other amounts of the records of that month. -/
theorem monthlyTrend_lookup (env : Browser) (l : List Transaction) (key : String) :
    ownProperty (statistics env l).monthlyTrend key
      = if l.any (fun t => formatMonthYear env t.date = key) then
          some { income := monthIncome env key l, expense := monthOther env key l }
        else none := by
  rw [statistics_monthlyTrend env, ownProperty_foldl_monthStep env, ownProperty_nil,
    foldl_bucketStep_none env]

theorem monthStep_keys (env : Browser) (o : MonthlyTrend) (t : Transaction) :
    (monthStep env o t).map Prod.fst
      = if formatMonthYear env t.date ∈ o.map Prod.fst then o.map Prod.fst
        else o.map Prod.fst ++ [formatMonthYear env t.date] := by
  have hmap : ∀ o' : MonthlyTrend,
      (o'.map (fun e => if e.1 = formatMonthYear env t.date then (e.1, addToBucket t e.2)
        else e)).map Prod.fst = o'.map Prod.fst := by
    intro o'
    rw [List.map_map]
    apply List.map_congr_left
    intro e _
    simp only [Function.comp]
    split <;> rfl
  rw [monthStep_eq env, hmap, truthyAt_month env]
  by_cases h : formatMonthYear env t.date ∈ o.map Prod.fst
  · simp [(ownProperty_isSome_iff o _).2 h, h]
  · have : (ownProperty o (formatMonthYear env t.date)).isSome = false := by
      rw [Bool.eq_false_iff]; exact fun hh => h ((ownProperty_isSome_iff o _).1 hh)
    simp [this, h]

theorem monthlyTrend_keys_nodup (env : Browser) (l : List Transaction) :
    ((statistics env l).monthlyTrend.map Prod.fst).Nodup := by
  rw [statistics_monthlyTrend env]
  have : ∀ o : MonthlyTrend, (o.map Prod.fst).Nodup →
      ((l.foldl (monthStep env) o).map Prod.fst).Nodup := by
    induction l with
    | nil => intro o h; exact h
    | cons t l ih =>
      intro o h
      rw [List.foldl_cons]
      apply ih
      rw [monthStep_keys env]
      by_cases hk : formatMonthYear env t.date ∈ o.map Prod.fst
      · rw [if_pos hk]; exact h
      · rw [if_neg hk]
        exact List.Nodup.append h (List.nodup_singleton _) (by simpa using hk)
  exact this [] List.nodup_nil

theorem monthlyTrend_key_iff (env : Browser) (l : List Transaction) (key : String) :
    key ∈ (statistics env l).monthlyTrend.map Prod.fst ↔
      ∃ t ∈ l, formatMonthYear env t.date = key := by
  rw [← ownProperty_isSome_iff, monthlyTrend_lookup env]
  by_cases h : l.any (fun t => formatMonthYear env t.date = key) = true
  · rw [if_pos h]
    simp only [Option.isSome_some, true_iff]
    simpa using h
  · rw [if_neg h]
    simp only [Option.isSome_none, Bool.false_eq_true, false_iff]
    simpa using h

theorem monthName_length (m : Nat) (h1 : 1 ≤ m) (h2 : m ≤ 12) :
    (monthNames.getD (m - 1) "").data.length = 3 := by
  interval_cases m <;> rfl

theorem monthName_injective (m1 m2 : Nat) (h1 : 1 ≤ m1) (h2 : m1 ≤ 12) (h3 : 1 ≤ m2)
    (h4 : m2 ≤ 12) (h : (monthNames.getD (m1 - 1) "").data = (monthNames.getD (m2 - 1) "").data) :
    m1 = m2 := by
  have key : ∀ a ∈ List.range 12, ∀ b ∈ List.range 12,
      (monthNames.getD a "").data = (monthNames.getD b "").data → a = b := by decide
  have := key (m1 - 1) (List.mem_range.2 (by omega)) (m2 - 1) (List.mem_range.2 (by omega)) h
  omega

theorem digitChar_value (a : Nat) (ha : a < 10) :
    (Nat.digitChar a).toNat - 48 = a ∧ Nat.digitChar a ≠ '-' ∧ Nat.digitChar a ≠ '+' := by
  have key : ∀ a ∈ List.range 10,
      (Nat.digitChar a).toNat - 48 = a ∧ Nat.digitChar a ≠ '-' ∧ Nat.digitChar a ≠ '+' := by
    decide
  exact key a (List.mem_range.2 ha)

theorem numeralValue_append_single (cs : List Char) (c : Char) :
    numeralValue (cs ++ [c]) = numeralValue cs * 10 + (c.toNat - 48) := by
  simp [numeralValue, List.foldl_append]

theorem numeralValue_pad4 (n : Nat) (h : n < 10000) : numeralValue (pad4 n) = n := by
  have h1 := (digitChar_value (n / 100 / 10 % 10) (Nat.mod_lt _ (by norm_num))).1
  have h2 := (digitChar_value (n / 100 % 10) (Nat.mod_lt _ (by norm_num))).1
  have h3 := (digitChar_value (n % 100 / 10 % 10) (Nat.mod_lt _ (by norm_num))).1
  have h4 := (digitChar_value (n % 100 % 10) (Nat.mod_lt _ (by norm_num))).1
  simp only [numeralValue, pad4, pad2, List.cons_append, List.nil_append, List.foldl_cons,
    List.foldl_nil, h1, h2, h3, h4]
  omega

theorem numeralValue_decimalDigits (fuel : Nat) :
    ∀ n : Nat, n ≤ fuel → numeralValue (decimalDigits fuel n) = n := by
  induction fuel with
  | zero =>
    intro n hn
    have : n = 0 := by omega
    subst this
    rfl
  | succ fuel ih =>
    intro n hn
    unfold decimalDigits
    by_cases h10 : n < 10
    · rw [if_pos h10]
      have := (digitChar_value n h10).1
      simp [numeralValue, this]
    · rw [if_neg h10, numeralValue_append_single, ih (n / 10) (by omega),
        (digitChar_value (n % 10) (Nat.mod_lt _ (by norm_num))).1]
      omega

/-- The text of a year determines the year. -/
theorem yearOfText_formatYear (y : Int) : yearOfText (formatYear y) = y := by
  unfold formatYear
  by_cases hneg : y < 0
  · rw [if_pos hneg]
    simp only [yearOfText, if_true]
    by_cases h4 : y.natAbs < 10000
    · rw [if_pos h4, numeralValue_pad4 _ h4]; omega
    · rw [if_neg h4, numeralValue_decimalDigits _ _ (le_refl _)]; omega
  · rw [if_neg hneg]
    by_cases h4 : y ≤ 9999
    · rw [if_pos h4]
      have hlt : y.toNat < 10000 := by omega
      have hv := numeralValue_pad4 _ hlt
      have hd := digitChar_value (y.toNat / 100 / 10 % 10) (Nat.mod_lt _ (by norm_num))
      have hshape : pad4 y.toNat
          = Nat.digitChar (y.toNat / 100 / 10 % 10) ::
            ([Nat.digitChar (y.toNat / 100 % 10)] ++ pad2 (y.toNat % 100)) := rfl
      rw [hshape] at hv ⊢
      simp only [yearOfText, hd.2.1, hd.2.2, if_false]
      rw [hv]; omega
    · rw [if_neg h4]
      have hne : ¬ ('+' = '-') := by decide
      simp only [yearOfText, hne, if_false, if_true]
      rw [numeralValue_decimalDigits _ _ (le_refl _)]; omega

theorem formatYear_injective (y1 y2 : Int) (h : formatYear y1 = formatYear y2) : y1 = y2 := by
  rw [← yearOfText_formatYear y1, ← yearOfText_formatYear y2, h]

theorem civilFromDays_month (z : Int) :
    1 ≤ (civilFromDays z).month ∧ (civilFromDays z).month ≤ 12 := by
  unfold civilFromDays
  simp only
  split_ifs <;> omega

/-- The month of a valid moment is one of the twelve. -/
theorem momentDate_month (env : Browser) (s : String) (d : LocalDate)
    (h : momentDate env s = some d) : 1 ≤ d.month ∧ d.month ≤ 12 := by
  unfold momentDate at h
  cases hf : isoDateTime s with
  | none =>
    simp only [hf, Option.map_eq_some'] at h
    obtain ⟨t, _, rfl⟩ := h
    exact civilFromDays_month _
  | some f =>
    simp only [hf] at h
    split at h
    · rename_i hv
      cases ht : f.time with
      | none =>
        simp only [ht, Option.some.injEq] at h
        subst h
        exact ⟨hv.1, hv.2.1⟩
      | some t =>
        simp only [ht] at h
        split at h
        · cases ho : t.offset with
          | none =>
            simp only [ho, Option.some.injEq] at h
            subst h
            exact civilFromDays_month _
          | some o =>
            simp only [ho, Option.some.injEq] at h
            subst h
            exact civilFromDays_month _
        · cases h
    · cases h

/-- On valid dates the printed month key and the local (year, month) pair determine each
other. -/
theorem formatMonthYear_eq_iff (env : Browser) (s1 s2 : String)
    (h1 : (momentDate env s1).isSome = true) (h2 : (momentDate env s2).isSome = true) :
    formatMonthYear env s1 = formatMonthYear env s2 ↔ monthOf env s1 = monthOf env s2 := by
  obtain ⟨d1, hd1⟩ := Option.isSome_iff_exists.1 h1
  obtain ⟨d2, hd2⟩ := Option.isSome_iff_exists.1 h2
  obtain ⟨hm1, hm1'⟩ := momentDate_month env s1 d1 hd1
  obtain ⟨hm2, hm2'⟩ := momentDate_month env s2 d2 hd2
  simp only [formatMonthYear, monthOf, hd1, hd2, Option.map_some', Option.some.injEq,
    Prod.mk.injEq]
  constructor
  · intro h
    have h := congrArg String.data h
    simp only at h
    have hlen : (monthNames.getD (d1.month - 1) "").data.length
        = (monthNames.getD (d2.month - 1) "").data.length := by
      rw [monthName_length _ hm1 hm1', monthName_length _ hm2 hm2']
    obtain ⟨ha, hb⟩ := List.append_inj h hlen
    exact ⟨formatYear_injective _ _ (List.cons.inj hb).2,
      monthName_injective _ _ hm1 hm1' hm2 hm2' ha⟩
  · rintro ⟨hy, hm⟩
    rw [hy, hm]

theorem monthIncome_eq_incomeOfMonth (env : Browser) (l : List Transaction) (t : Transaction)
    (hvalid : ∀ t ∈ l, (momentDate env t.date).isSome = true) (ht : t ∈ l) :
    monthIncome env (formatMonthYear env t.date) l = incomeOfMonth env (monthOf env t.date) l := by
  unfold monthIncome incomeOfMonth
  congr 2
  apply List.filter_congr
  intro x hx
  rw [decide_eq_decide, formatMonthYear_eq_iff env _ _ (hvalid x hx) (hvalid t ht)]

theorem monthOther_eq_otherOfMonth (env : Browser) (l : List Transaction) (t : Transaction)
    (hvalid : ∀ t ∈ l, (momentDate env t.date).isSome = true) (ht : t ∈ l) :
    monthOther env (formatMonthYear env t.date) l = otherOfMonth env (monthOf env t.date) l := by
  unfold monthOther otherOfMonth
  congr 2
  apply List.filter_congr
  intro x hx
  rw [decide_eq_decide, formatMonthYear_eq_iff env _ _ (hvalid x hx) (hvalid t ht)]

theorem otherOfMonth_eq_expenseOfMonth (env : Browser) (l : List Transaction)
    (ym : Option (Int × Nat)) (hty : ∀ t ∈ l, t.type = "Income" ∨ t.type = "Expense") :
    otherOfMonth env ym l = expenseOfMonth env ym l := by
  unfold otherOfMonth expenseOfMonth
  congr 2
  apply List.filter_congr
  intro x hx
  rw [decide_eq_decide]
  rcases hty x hx with h | h
  · simp [h]
  · simp [h]

/-- C15 (counterexample): one record of type "Transfer" and amount 40 dated 2024-04-02 gives
the bucket "Apr 2024" an expense of 40, while no Expense record is dated in that month.  And
the month of a bucket is the month of the browser's local time: the record dated
2024-01-01T00:00:00.000Z is counted in "Dec 2023" in New York and in "Jan 2024" in India. -/
theorem C15_counterexample :
    (momentDate utc unknownType.date).isSome = true ∧
    (statistics utc [unknownType]).monthlyTrend
      = [("Apr 2024", { income := 0, expense := 40 })] ∧
    expenseOfMonth utc (monthOf utc unknownType.date) [unknownType] = 0 ∧
    (momentDate newYork newYearRecord.date).isSome = true ∧
    (statistics newYork [newYearRecord]).monthlyTrend
      = [("Dec 2023", { income := 100, expense := 0 })] ∧
    (statistics india [newYearRecord]).monthlyTrend
      = [("Jan 2024", { income := 100, expense := 0 })] := by
  have h1 : formatMonthYear utc "2024-04-02" = "Apr 2024" := by decide
  have h2 : formatMonthYear newYork "2024-01-01T00:00:00.000Z" = "Dec 2023" := by decide
  have h3 : formatMonthYear india "2024-01-01T00:00:00.000Z" = "Jan 2024" := by decide
  refine ⟨by decide, ?_, ?_, by decide, ?_, ?_⟩
  · simp [statistics, unknownType, monthStep, truthyAt, parseFloat, h1, objectPrototypeKeys]
  · simp [expenseOfMonth, unknownType]
  · simp [statistics, newYearRecord, monthStep, truthyAt, parseFloat, h2, objectPrototypeKeys]
  · simp [statistics, newYearRecord, monthStep, truthyAt, parseFloat, h3, objectPrototypeKeys]

/-- C15 (amended): for a list with valid dates (dates that `moment` reads), monthlyTrend has
one bucket for exactly the months in which a record's date falls in the local time of the
browser (two records share a bucket if and only if their dates fall in the same local year
and month); in the bucket of a record's month, income is the sum of the amounts of the Income
records dated in that month and expense is the sum of the amounts of the records dated in that
month whose type is not Income, which are the Expense records when every type is Income or
Expense. -/
theorem C15_monthly_trend (env : Browser) (l : List Transaction)
    (hvalid : ∀ t ∈ l, (momentDate env t.date).isSome = true) :
    ((statistics env l).monthlyTrend.map Prod.fst).Nodup ∧
    (∀ key, key ∈ (statistics env l).monthlyTrend.map Prod.fst ↔
      ∃ t ∈ l, formatMonthYear env t.date = key) ∧
    (∀ t ∈ l, ∀ u ∈ l,
      formatMonthYear env u.date = formatMonthYear env t.date ↔
        monthOf env u.date = monthOf env t.date) ∧
    (∀ t ∈ l, ownProperty (statistics env l).monthlyTrend (formatMonthYear env t.date)
      = some { income := incomeOfMonth env (monthOf env t.date) l,
               expense := otherOfMonth env (monthOf env t.date) l }) ∧
    ((∀ t ∈ l, t.type = "Income" ∨ t.type = "Expense") →
      ∀ t ∈ l, ownProperty (statistics env l).monthlyTrend (formatMonthYear env t.date)
        = some { income := incomeOfMonth env (monthOf env t.date) l,
                 expense := expenseOfMonth env (monthOf env t.date) l }) := by
  have hlook : ∀ t ∈ l, ownProperty (statistics env l).monthlyTrend (formatMonthYear env t.date)
      = some { income := incomeOfMonth env (monthOf env t.date) l,
               expense := otherOfMonth env (monthOf env t.date) l } := by
    intro t ht
    have hany :
        l.any (fun u => formatMonthYear env u.date = formatMonthYear env t.date) = true := by
      rw [List.any_eq_true]
      exact ⟨t, ht, by simp⟩
    rw [monthlyTrend_lookup env, if_pos hany, monthIncome_eq_incomeOfMonth env l t hvalid ht,
      monthOther_eq_otherOfMonth env l t hvalid ht]
  refine ⟨monthlyTrend_keys_nodup env l, monthlyTrend_key_iff env l, ?_, hlook, ?_⟩
  · intro t ht u hu
    exact formatMonthYear_eq_iff env _ _ (hvalid u hu) (hvalid t ht)
  · intro hty t ht
    rw [hlook t ht, otherOfMonth_eq_expenseOfMonth env l _ hty]

theorem zonedRecords_trend :
    (statistics india zonedRecords).monthlyTrend
      = [("Feb 2024", { income := 1000, expense := 500 }),
         ("Mar 2024", { income := 0, expense := 50 })] := by
  have h1 : formatMonthYear india "2024-01-31T20:00:00.000Z" = "Feb 2024" := by decide
  have h2 : formatMonthYear india "2024-02-10T00:00:00.000Z" = "Feb 2024" := by decide
  have h3 : formatMonthYear india "2024-02-29T18:29:59.999Z" = "Feb 2024" := by decide
  have h4 : formatMonthYear india "2024-02-29T18:30:00.000Z" = "Mar 2024" := by decide
  simp [statistics, zonedRecords, monthStep, truthyAt, parseFloat, h1, h2, h3, h4,
    objectPrototypeKeys]
  norm_num

/-- C15 (witness): four records dated by date-time strings in UTC, in a browser in India;
the dates are valid and the types are Income and Expense.  The first record, dated 20:00 UTC
on 31 January, falls in February there; the buckets are "Feb 2024" with income 1000 and
expense 500 and "Mar 2024" with expense 50. -/
theorem C15_monthly_trend_witness :
    (∀ t ∈ zonedRecords, (momentDate india t.date).isSome = true) ∧
    (∀ t ∈ zonedRecords, t.type = "Income" ∨ t.type = "Expense") ∧
    (∀ t ∈ zonedRecords,
      ownProperty (statistics india zonedRecords).monthlyTrend (formatMonthYear india t.date)
        = some { income := incomeOfMonth india (monthOf india t.date) zonedRecords,
                 expense := expenseOfMonth india (monthOf india t.date) zonedRecords }) ∧
    (statistics india zonedRecords).monthlyTrend
      = [("Feb 2024", { income := 1000, expense := 500 }),
         ("Mar 2024", { income := 0, expense := 50 })] :=
  ⟨by decide, by decide,
    (C15_monthly_trend india zonedRecords (by decide)).2.2.2.2 (by decide), zonedRecords_trend⟩

/-! ## Theme preferences -/

/-- C23 (the code at the failing input): in a session loaded with the theme "light" in
storage, RESET_SETTINGS returns the constant computed at load time, so the theme after the
reset is "light", not the default "dark"; in general the state after RESET_SETTINGS is the
load-time state, whatever the prior state. -/
theorem C23_reset_returns_load_time_state (loaded : ThemeStorage) (state : ThemeState)
    (storage : ThemeStorage) :
    (themeReducer loaded state storage .RESET_SETTINGS).1 = initialState loaded ∧
    (themeReducer lightStorage state storage .RESET_SETTINGS).1.theme = "light" ∧
    (themeReducer lightStorage state storage .RESET_SETTINGS).1.theme ≠ "dark" ∧
    (themeReducer lightStorage state storage .RESET_SETTINGS).1.accentColor = "#06B6D4" ∧
    (themeReducer lightStorage state storage .RESET_SETTINGS).1.fontSize = "medium" := by
  have hr : (themeReducer lightStorage state storage .RESET_SETTINGS).1
      = initialState lightStorage := rfl
  rw [hr]
  exact ⟨rfl, by decide, by decide, by decide, by decide⟩

/-- C24 (the code at the failing input): in a session loaded with the theme "light" in
storage, after RESET_SETTINGS the reducer state has theme "light" while the storage is empty,
so a new session would load the theme "dark". -/
theorem C24_reset_breaks_persistence :
    (dispatchAll lightStorage [.RESET_SETTINGS]).1.theme = "light" ∧
    (dispatchAll lightStorage [.RESET_SETTINGS]).2
      = { theme := none, accentColor := none, fontSize := none, animations := none } ∧
    (initialState (dispatchAll lightStorage [.RESET_SETTINGS]).2).theme = "dark" ∧
    (initialState (dispatchAll lightStorage [.RESET_SETTINGS]).2).theme
      ≠ (dispatchAll lightStorage [.RESET_SETTINGS]).1.theme := by
  decide

/-! ## Monthly trend is not limited to six months -/

/-- C25 (the code at the failing input): seven records in seven different months give
monthlyTrend seven buckets, among them "Jan 2023", seventeen months before the most recent
record. -/
theorem C25_seven_buckets (env : Browser) :
    (statistics env sevenMonthRecords).monthlyTrend.map Prod.fst
      = ["Jan 2023", "Jan 2024", "Feb 2024", "Mar 2024", "Apr 2024", "May 2024", "Jun 2024"] ∧
    (statistics env sevenMonthRecords).monthlyTrend.length = 7 := by
  have h1 : formatMonthYear env "2023-01-15" = "Jan 2023" := rfl
  have h2 : formatMonthYear env "2024-01-15" = "Jan 2024" := rfl
  have h3 : formatMonthYear env "2024-02-15" = "Feb 2024" := rfl
  have h4 : formatMonthYear env "2024-03-15" = "Mar 2024" := rfl
  have h5 : formatMonthYear env "2024-04-15" = "Apr 2024" := rfl
  have h6 : formatMonthYear env "2024-05-15" = "May 2024" := rfl
  have h7 : formatMonthYear env "2024-06-15" = "Jun 2024" := rfl
  have hk : (statistics env sevenMonthRecords).monthlyTrend.map Prod.fst
      = ["Jan 2023", "Jan 2024", "Feb 2024", "Mar 2024", "Apr 2024", "May 2024",
          "Jun 2024"] := by
    simp [statistics_monthlyTrend env, sevenMonthRecords, monthStep_keys env, h1, h2, h3, h4, h5,
      h6, h7]
  refine ⟨hk, ?_⟩
  have := congrArg List.length hk
  simpa using this

/-! ## The HomePage state -/

theorem reachable_visible (batched : Bool) (page : HomePage) (h : Reachable batched page) :
    page.state.filteredTransactions
      = searchFilter page.state.allTransection page.state.searchValue := by
  induction h with
  | init => rfl
  | fetch page result _ ih =>
    cases result with
    | failed error => exact ih
    | succeeded transactions =>
      cases transactions with
      | none => exact ih
      | some ts => exact (searchFilter_empty ts).symm
  | search page value _ _ => rfl

/-- C26: in every state reached from the first render by fetch results and searches, the
visible list is the search filter of the current snapshot with the current search text.  A
successful fetch clears the search text and shows the whole new snapshot, a failed fetch
leaves the three components as they are, and the result of a search does not depend on the
searches made before it. -/
theorem C26_visible_is_search_of_snapshot (batched : Bool) (page : HomePage)
    (h : Reachable batched page) :
    page.state.filteredTransactions
      = searchFilter page.state.allTransection page.state.searchValue ∧
    (∀ ts : List Transaction,
      (getAllTransactions batched page (.succeeded (some ts))).state
        = { allTransection := ts, filteredTransactions := ts, searchValue := "" }) ∧
    (∀ error : String, (getAllTransactions batched page (.failed error)).state = page.state) ∧
    (∀ v w : String,
      (searchPage (searchPage page v) w).state = (searchPage page w).state) :=
  ⟨reachable_visible batched page h, fun _ => rfl, fun _ => rfl, fun _ _ => rfl⟩

/-- C26 (witness): the state reached by fetching the three-record scenario and searching
"300". -/
theorem C26_visible_is_search_of_snapshot_witness :
    Reachable true (searchedPage true) ∧
    (searchedPage true).state.filteredTransactions
      = searchFilter (searchedPage true).state.allTransection
          (searchedPage true).state.searchValue :=
  ⟨Reachable.search _ _ (Reachable.fetch _ _ Reachable.init),
    (C26_visible_is_search_of_snapshot true (searchedPage true)
      (Reachable.search _ _ (Reachable.fetch _ _ Reachable.init))).1⟩

/-- C27 (the code at the failing input): after the three-record scenario is fetched and "300"
is searched, the table shows one record, but the memoized `exportToExcel` still reads the
list of the render in which the snapshot changed: with batched updates it builds the rows of
all three records, without batching it reads the empty list shown before the fetch and
reports that there is nothing to export. -/
theorem C27_export_reads_stale_list (env : Browser) (sheetWrites : List ExportRow → Bool)
    (currentDate : String) :
    (searchedPage true).state.filteredTransactions = [sampleFood] ∧
    (searchedPage false).state.filteredTransactions = [sampleFood] ∧
    (exportClicked env sheetWrites currentDate (searchedPage true)).rows
      = some (exportData env sampleRecords) ∧
    (exportClicked env sheetWrites currentDate (searchedPage true)).rows
      ≠ some (exportData env (searchedPage true).state.filteredTransactions) ∧
    (exportClicked env sheetWrites currentDate (searchedPage false)).rows = none ∧
    (exportClicked env sheetWrites currentDate (searchedPage false)).transactionError
      = some "No data available to export." := by
  have hvis : ∀ b, (searchedPage b).state.filteredTransactions = [sampleFood] := by
    intro b; cases b <;> decide
  have hrows : (exportClicked env sheetWrites currentDate (searchedPage true)).rows
      = some (exportData env sampleRecords) := by
    show (exportToExcel env sheetWrites currentDate sampleRecords).rows = _
    have hne : ¬ sampleRecords.length = 0 := by decide
    rw [exportToExcel, if_neg hne]
    by_cases hw : sheetWrites (exportData env sampleRecords) = true
    · simp only [hw, if_true]
    · simp [hw]
  refine ⟨hvis true, hvis false, hrows, ?_, rfl, rfl⟩
  rw [hrows, hvis true]
  intro h
  have := congrArg (fun r => (r.map List.length)) h
  simp [exportData_length env, sampleRecords] at this

/-! ## The category groups, key by key -/

theorem truthyAt_eq {β : Type} (o : List (String × β)) (key : String) :
    truthyAt o key = ((ownProperty o key).isSome || objectPrototypeKeys.contains key) := by
  unfold truthyAt
  congr 1
  rw [Bool.eq_iff_iff, ownProperty_isSome_iff]
  simp only [List.any_eq_true, decide_eq_true_eq, List.mem_map]

theorem ownProperty_map_bump (t : Transaction) (key : String) (o : CategoryData) :
    ownProperty (o.map (bump t)) key
      = if key = t.category then
          (ownProperty o key).map (fun g : CategoryGroup =>
            { g with amount := g.amount + parseFloat t.amount, count := g.count + 1 })
        else ownProperty o key :=
  ownProperty_map_update t.category
    (fun g : CategoryGroup =>
      { g with amount := g.amount + parseFloat t.amount, count := g.count + 1 }) key o

/-- One step of `categoryStep` acts on the value under `key` as `groupStep key`. -/
theorem ownProperty_categoryStep (acc : CategoryData) (t : Transaction) (key : String) :
    ownProperty (categoryStep acc t) key = groupStep key (ownProperty acc key) t := by
  rw [categoryStep_eq, ownProperty_map_bump, truthyAt_eq]
  unfold groupStep
  by_cases hk : key = t.category
  · subst hk
    simp only [if_true]
    cases hown : ownProperty acc t.category with
    | some b => simp [hown]
    | none =>
      by_cases hp : t.category ∈ objectPrototypeKeys
      · have hc : objectPrototypeKeys.contains t.category = true := by simpa using hp
        simp [hc, hown, hp]
      · have hc : objectPrototypeKeys.contains t.category = false := by
          rw [Bool.eq_false_iff]; exact fun h => hp (by simpa using h)
        simp [hc, hp, ownProperty_append_single, hown]
  · have hk2 : ¬ t.category = key := fun h => hk h.symm
    simp only [hk, hk2, if_false]
    split
    · rw [ownProperty_append_single]
      simp only [hk2, if_false]
      cases ownProperty acc key <;> rfl
    · rfl

theorem ownProperty_foldl_categoryStep (l : List Transaction) (key : String) :
    ∀ acc : CategoryData,
      ownProperty (l.foldl categoryStep acc) key
        = l.foldl (groupStep key) (ownProperty acc key) := by
  induction l with
  | nil => intro acc; rfl
  | cons t l ih =>
    intro acc
    rw [List.foldl_cons, ih, ownProperty_categoryStep, List.foldl_cons]

theorem foldl_groupStep_some (key : String) (l : List Transaction) :
    ∀ g : CategoryGroup,
      l.foldl (groupStep key) (some g)
        = some { amount := g.amount + categoryAmount key l,
                 count := g.count + categoryCount key l, type := g.type } := by
  induction l with
  | nil => intro g; simp [categoryAmount, categoryCount]
  | cons t l ih =>
    intro g
    rw [List.foldl_cons]
    by_cases hk : t.category = key
    · simp [groupStep, hk, ih, categoryAmount, categoryCount, List.filter_cons, parseFloat,
        add_assoc, Nat.add_assoc, Nat.add_comm 1]
    · simp [groupStep, hk, ih, categoryAmount, categoryCount, List.filter_cons]

theorem foldl_groupStep_inherited (key : String) (hp : key ∈ objectPrototypeKeys)
    (l : List Transaction) : l.foldl (groupStep key) none = none := by
  induction l with
  | nil => rfl
  | cons t l ih =>
    rw [List.foldl_cons]
    by_cases hk : t.category = key
    · simp [groupStep, hk, hp, ih]
    · simp [groupStep, hk, ih]

theorem foldl_groupStep_none (key : String) (hp : key ∉ objectPrototypeKeys)
    (l : List Transaction) :
    l.foldl (groupStep key) none
      = if l.any (fun t => t.category = key) then
          some { amount := categoryAmount key l, count := categoryCount key l,
                 type := categoryFirstType key l }
        else none := by
  induction l with
  | nil => rfl
  | cons t l ih =>
    rw [List.foldl_cons]
    by_cases hk : t.category = key
    · have hstep : groupStep key none t
          = some { amount := 0 + parseFloat t.amount, count := 0 + 1, type := t.type } := by
        simp [groupStep, hk, hp]
      rw [hstep, foldl_groupStep_some]
      simp [hk, categoryAmount, categoryCount, categoryFirstType, List.filter_cons,
        List.find?_cons, parseFloat, Nat.add_comm 1]
    · have hstep : groupStep key none t = none := by simp [groupStep, hk]
      rw [hstep, ih]
      simp [hk, categoryAmount, categoryCount, categoryFirstType, List.filter_cons,
        List.find?_cons]

/-- The value of `categoryData[key]` for a name that is not inherited: absent when no record
has that category, otherwise the group of the records of that category. -/
theorem categoryData_lookup (env : Browser) (l : List Transaction) (key : String)
    (hp : key ∉ objectPrototypeKeys) :
    ownProperty (statistics env l).categoryData key
      = if l.any (fun t => t.category = key) then
          some { amount := categoryAmount key l, count := categoryCount key l,
                 type := categoryFirstType key l }
        else none := by
  rw [statistics_categoryData env, ownProperty_foldl_categoryStep, ownProperty_nil,
    foldl_groupStep_none key hp]

theorem categoryData_keys_nodup (env : Browser) (l : List Transaction) :
    ((statistics env l).categoryData.map Prod.fst).Nodup := by
  rw [statistics_categoryData env]
  have : ∀ acc : CategoryData, (acc.map Prod.fst).Nodup →
      ((l.foldl categoryStep acc).map Prod.fst).Nodup := by
    induction l with
    | nil => intro acc h; exact h
    | cons t l ih =>
      intro acc h
      rw [List.foldl_cons]
      exact ih _ (categoryStep_keys_nodup acc t h)
  exact this [] List.nodup_nil

theorem ownProperty_of_mem {β : Type} (o : List (String × β)) (hnd : (o.map Prod.fst).Nodup)
    (k : String) (v : β) (h : (k, v) ∈ o) : ownProperty o k = some v := by
  induction o with
  | nil => simp at h
  | cons e o ih =>
    rw [ownProperty_cons]
    simp only [List.map_cons, List.nodup_cons] at hnd
    rcases List.mem_cons.1 h with h | h
    · rw [← h]; simp
    · have hne : ¬ e.1 = k := by
        intro he
        exact hnd.1 (he ▸ List.mem_map_of_mem Prod.fst h)
      rw [if_neg hne, ih hnd.2 h]

theorem categoryData_key_not_inherited (env : Browser) (l : List Transaction)
    (e : String × CategoryGroup)
    (he : e ∈ (statistics env l).categoryData) : e.1 ∉ objectPrototypeKeys := by
  have h : e.1 ∈ (statistics env l).categoryData.map Prod.fst := List.mem_map_of_mem _ he
  rw [categoryData_keys env, mem_firstSeen, List.mem_filter] at h
  simpa using h.2

/-- Every group of `categoryData` is the group of the records of its category. -/
theorem categoryData_group (env : Browser) (l : List Transaction) (e : String × CategoryGroup)
    (he : e ∈ (statistics env l).categoryData) :
    (l.any (fun t => t.category = e.1)) = true ∧
    e.2 = { amount := categoryAmount e.1 l, count := categoryCount e.1 l,
            type := categoryFirstType e.1 l } := by
  have h1 := ownProperty_of_mem _ (categoryData_keys_nodup env l) e.1 e.2 he
  rw [categoryData_lookup env l e.1 (categoryData_key_not_inherited env l e he)] at h1
  by_cases hany : (l.any (fun t => t.category = e.1)) = true
  · rw [if_pos hany] at h1
    exact ⟨hany, (Option.some.inj h1).symm⟩
  · rw [if_neg hany] at h1
    cases h1

/-- When no category of the list is a name inherited from `Object.prototype`, categoryData
has one group for exactly the categories that occur in the list, and the group of a category
holds the sum of the amounts and the number of the records of that category (and the type of
the first of them). -/
theorem categoryData_groups (env : Browser) (l : List Transaction)
    (hkey : ∀ t ∈ l, t.category ∉ objectPrototypeKeys) :
    ((statistics env l).categoryData.map Prod.fst).Nodup ∧
    (∀ c, c ∈ (statistics env l).categoryData.map Prod.fst ↔ ∃ t ∈ l, t.category = c) ∧
    (∀ t ∈ l, ownProperty (statistics env l).categoryData t.category
      = some { amount := categoryAmount t.category l, count := categoryCount t.category l,
               type := categoryFirstType t.category l }) ∧
    (∀ e ∈ (statistics env l).categoryData,
      e.2.amount = categoryAmount e.1 l ∧ e.2.count = categoryCount e.1 l) := by
  refine ⟨categoryData_keys_nodup env l, ?_, ?_, ?_⟩
  · intro c
    rw [categoryData_keys env, mem_firstSeen, List.mem_filter, List.mem_map]
    constructor
    · rintro ⟨h, _⟩; exact h
    · rintro ⟨t, ht, rfl⟩; exact ⟨⟨t, ht, rfl⟩, by simpa using hkey t ht⟩
  · intro t ht
    have hany : (l.any (fun u => u.category = t.category)) = true := by
      rw [List.any_eq_true]; exact ⟨t, ht, by simp⟩
    rw [categoryData_lookup env l _ (hkey t ht), if_pos hany]
  · intro e he
    have h := (categoryData_group env l e he).2
    rw [h]
    exact ⟨rfl, rfl⟩

/-- C21 (the code at the failing input): the category "constructor" occurs in the list, with
one record of amount 100, yet categoryData has no group at all: `acc["constructor"]` is the
inherited constructor function, which is truthy, so no group is created and the amount and
the count are added to that function. -/
theorem C21_no_group_for_inherited_name (env : Browser) :
    (inheritedNameRecords.map (fun t => t.category)) = ["constructor"] ∧
    categoryAmount "constructor" inheritedNameRecords = 100 ∧
    categoryCount "constructor" inheritedNameRecords = 1 ∧
    (statistics env inheritedNameRecords).categoryData = [] ∧
    ownProperty (statistics env inheritedNameRecords).categoryData "constructor" = none := by
  have hcd : (statistics env inheritedNameRecords).categoryData = [] := by
    simp [statistics, inheritedNameRecords, categoryStep, truthyAt, objectPrototypeKeys]
  rw [hcd]
  refine ⟨rfl, ?_, rfl, rfl, rfl⟩
  simp [categoryAmount, inheritedNameRecords]

/-! ## Sums over the groups and the buckets -/

theorem map_update_of_not_mem {β : Type} (g : β → β) (m : String) (o : List (String × β))
    (h : m ∉ o.map Prod.fst) :
    o.map (fun e => if e.1 = m then (e.1, g e.2) else e) = o := by
  induction o with
  | nil => rfl
  | cons e o ih =>
    simp only [List.map_cons, List.mem_cons, not_or] at h
    rw [List.map_cons, ih h.2, if_neg (fun hh => h.1 hh.symm)]

/-- Updating the value under one key of an object changes a sum over its values by the change
of that value. -/
theorem sum_map_update {β M : Type} [AddCommMonoid M] (f : β → M) (g : β → β) (m : String)
    (b : β) :
    ∀ o : List (String × β), (o.map Prod.fst).Nodup → (m, b) ∈ o →
      ((o.map (fun e => if e.1 = m then (e.1, g e.2) else e)).map (fun e => f e.2)).sum + f b
        = (o.map (fun e => f e.2)).sum + f (g b) := by
  intro o
  induction o with
  | nil => intro _ h; simp at h
  | cons e o ih =>
    intro hnd hmem
    simp only [List.map_cons, List.nodup_cons] at hnd
    by_cases hk : e.1 = m
    · have hnot : m ∉ o.map Prod.fst := hk ▸ hnd.1
      have heq : e = (m, b) := by
        rcases List.mem_cons.1 hmem with h | h
        · exact h.symm
        · exact absurd (List.mem_map_of_mem Prod.fst h) hnot
      subst heq
      rw [List.map_cons, map_update_of_not_mem g m o hnot]
      simp only [if_true, List.map_cons, List.sum_cons]
      rw [add_comm (f (g b)), add_assoc, add_comm (f (g b)), ← add_assoc, add_comm (f b)]
    · have hmem2 : (m, b) ∈ o := by
        rcases List.mem_cons.1 hmem with h | h
        · exact absurd (by rw [← h]) hk
        · exact h
      rw [List.map_cons, if_neg hk]
      simp only [List.map_cons, List.sum_cons]
      rw [add_assoc, ih hnd.2 hmem2, add_assoc]

theorem exists_mem_of_key {β : Type} (o : List (String × β)) (k : String)
    (h : k ∈ o.map Prod.fst) : ∃ b, (k, b) ∈ o := by
  obtain ⟨e, he, hk⟩ := List.mem_map.1 h
  exact ⟨e.2, by rw [← hk]; exact he⟩

theorem countTotal_map_bump (acc : CategoryData) (t : Transaction)
    (hnd : (acc.map Prod.fst).Nodup) (h : t.category ∈ acc.map Prod.fst) :
    countTotal (acc.map (bump t)) = countTotal acc + 1 := by
  obtain ⟨b, hb⟩ := exists_mem_of_key acc t.category h
  have hs := sum_map_update (fun g : CategoryGroup => g.count)
    (fun g : CategoryGroup =>
      { g with amount := g.amount + parseFloat t.amount, count := g.count + 1 })
    t.category b acc hnd hb
  have hs2 : countTotal (acc.map (bump t)) + b.count = countTotal acc + (b.count + 1) := hs
  omega

theorem countTotal_foldl (l : List Transaction)
    (hkey : ∀ t ∈ l, t.category ∉ objectPrototypeKeys) :
    ∀ acc : CategoryData, (acc.map Prod.fst).Nodup →
      countTotal (l.foldl categoryStep acc) = countTotal acc + l.length := by
  induction l with
  | nil => intro acc _; rfl
  | cons t l ih =>
    intro acc hnd
    rw [List.foldl_cons, ih (fun u hu => hkey u (List.mem_cons_of_mem _ hu)) _
      (categoryStep_keys_nodup acc t hnd)]
    have hstep : countTotal (categoryStep acc t) = countTotal acc + 1 := by
      by_cases h : t.category ∈ acc.map Prod.fst
      · rw [categoryStep_own acc t h, countTotal_map_bump acc t hnd h]
      · rw [categoryStep_new acc t h (hkey t (List.mem_cons_self _ _))]
        simp [countTotal]
    rw [hstep, List.length_cons]
    omega

theorem monthStep_sum (env : Browser) (f : MonthBucket → ℚ)
    (hf : f { income := 0, expense := 0 } = 0)
    (o : MonthlyTrend) (t : Transaction) (hnd : (o.map Prod.fst).Nodup) :
    ∃ b : MonthBucket,
      ((monthStep env o t).map (fun e => f e.2)).sum + f b
        = (o.map (fun e => f e.2)).sum + f (addToBucket t b) := by
  rw [monthStep_eq env, truthyAt_month env]
  by_cases h : formatMonthYear env t.date ∈ o.map Prod.fst
  · obtain ⟨b, hb⟩ := exists_mem_of_key o _ h
    refine ⟨b, ?_⟩
    have hsome : (ownProperty o (formatMonthYear env t.date)).isSome = true :=
      (ownProperty_isSome_iff o _).2 h
    simp only [hsome, Bool.not_true, Bool.false_eq_true, if_false]
    exact sum_map_update f (addToBucket t) _ b o hnd hb
  · refine ⟨{ income := 0, expense := 0 }, ?_⟩
    have hnone : (ownProperty o (formatMonthYear env t.date)).isSome = false := by
      rw [Bool.eq_false_iff]; exact fun hh => h ((ownProperty_isSome_iff o _).1 hh)
    simp only [hnone, Bool.not_false, if_true]
    have hnd2 : ((o ++ [(formatMonthYear env t.date, ({ income := 0, expense := 0 } : MonthBucket))]).map
        Prod.fst).Nodup := by
      rw [List.map_append]
      exact List.Nodup.append hnd (List.nodup_singleton _) (by simpa using h)
    have hs := sum_map_update f (addToBucket t) (formatMonthYear env t.date)
      { income := 0, expense := 0 }
      (o ++ [(formatMonthYear env t.date, { income := 0, expense := 0 })]) hnd2 (by simp)
    rw [hs]
    simp [hf]

theorem monthlyTrend_foldl_nodup (env : Browser) (l : List Transaction) :
    ∀ o : MonthlyTrend, (o.map Prod.fst).Nodup →
      ((l.foldl (monthStep env) o).map Prod.fst).Nodup := by
  induction l with
  | nil => intro o h; exact h
  | cons t l ih =>
    intro o h
    rw [List.foldl_cons]
    apply ih
    rw [monthStep_keys env]
    by_cases hk : formatMonthYear env t.date ∈ o.map Prod.fst
    · rw [if_pos hk]; exact h
    · rw [if_neg hk]
      exact List.Nodup.append h (List.nodup_singleton _) (by simpa using hk)

theorem trendIncome_foldl (env : Browser) (l : List Transaction) :
    ∀ o : MonthlyTrend, (o.map Prod.fst).Nodup →
      trendIncome (l.foldl (monthStep env) o)
        = trendIncome o
          + ((l.filter (fun t => t.type = "Income")).map (fun t => t.amount)).sum := by
  induction l with
  | nil => intro o _; simp
  | cons t l ih =>
    intro o hnd
    rw [List.foldl_cons, ih (monthStep env o t) (monthlyTrend_foldl_nodup env [t] o hnd)]
    obtain ⟨b, hb⟩ := monthStep_sum env (fun b => b.income) rfl o t hnd
    have hstep : trendIncome (monthStep env o t)
        = trendIncome o + (if t.type = "Income" then t.amount else 0) := by
      unfold trendIncome
      by_cases hT : t.type = "Income"
      · simp only [addToBucket, hT, if_true, parseFloat] at hb ⊢
        linarith
      · simp only [addToBucket, hT, if_false] at hb ⊢
        linarith
    rw [hstep, List.filter_cons]
    by_cases hT : t.type = "Income"
    · simp [hT, add_assoc]
    · simp [hT]

theorem trendExpense_foldl (env : Browser) (l : List Transaction) :
    ∀ o : MonthlyTrend, (o.map Prod.fst).Nodup →
      trendExpense (l.foldl (monthStep env) o)
        = trendExpense o
          + ((l.filter (fun t => t.type ≠ "Income")).map (fun t => t.amount)).sum := by
  induction l with
  | nil => intro o _; simp
  | cons t l ih =>
    intro o hnd
    rw [List.foldl_cons, ih (monthStep env o t) (monthlyTrend_foldl_nodup env [t] o hnd)]
    obtain ⟨b, hb⟩ := monthStep_sum env (fun b => b.expense) rfl o t hnd
    have hstep : trendExpense (monthStep env o t)
        = trendExpense o + (if t.type = "Income" then 0 else t.amount) := by
      unfold trendExpense
      by_cases hT : t.type = "Income"
      · simp only [addToBucket, hT, if_true] at hb ⊢
        linarith
      · simp only [addToBucket, hT, if_false, parseFloat] at hb ⊢
        linarith
    rw [hstep, List.filter_cons]
    by_cases hT : t.type = "Income"
    · simp [hT]
    · simp [hT, add_assoc]

/-! ## Group sums, count and buckets against the totals -/

/-- C28 (the code at the failing input): one Income record filed under the inherited name
"constructor": all records of a category share their type and every type is Income, yet no
group exists, so the Income groups add up to 0 against an income of 100 and the counts add up
to 0 against one record. -/
theorem C28_inherited_name_breaks_sums (env : Browser) :
    (∀ a ∈ inheritedNameRecords, ∀ b ∈ inheritedNameRecords,
      a.category = b.category → a.type = b.type) ∧
    (∀ t ∈ inheritedNameRecords, t.type = "Income" ∨ t.type = "Expense") ∧
    groupTotal (statistics env inheritedNameRecords).categoryData "Income" = 0 ∧
    (statistics env inheritedNameRecords).income = 100 ∧
    countTotal (statistics env inheritedNameRecords).categoryData = 0 ∧
    inheritedNameRecords.length = 1 := by
  have hcd : (statistics env inheritedNameRecords).categoryData = [] := by
    simp [statistics, inheritedNameRecords, categoryStep, truthyAt, objectPrototypeKeys]
  have hi : (statistics env inheritedNameRecords).income = 100 := by
    simp [statistics, inheritedNameRecords, parseFloat]
  rw [hcd, hi]
  exact ⟨by decide, by decide, rfl, rfl, rfl, rfl⟩

/-- When all records of the same category have the same type and no category is a name
inherited from `Object.prototype`, the amounts of the Income groups add up to income, the
amounts of the Expense groups add up to expense, and the counts of all groups add up to the
number of records. -/
theorem group_sums_and_count (env : Browser) (l : List Transaction)
    (hty : ∀ a ∈ l, ∀ b ∈ l, a.category = b.category → a.type = b.type)
    (hkey : ∀ a ∈ l, a.category ∉ objectPrototypeKeys) :
    groupTotal (statistics env l).categoryData "Income" = (statistics env l).income ∧
    groupTotal (statistics env l).categoryData "Expense" = (statistics env l).expense ∧
    countTotal (statistics env l).categoryData = l.length := by
  have h := fun T => groupTotal_foldl T l [] List.nodup_nil (by simp) hty hkey
  have hc := countTotal_foldl l hkey [] List.nodup_nil
  rw [statistics_categoryData env, statistics_income env, statistics_expense env, h "Income",
    h "Expense",
    hc]
  simp [groupTotal, countTotal]

/-- C30 (counterexample): one record of type "Transfer" with a valid date: the buckets'
expenses add up to 40 while expense is 0. -/
theorem C30_counterexample :
    (momentDate utc unknownType.date).isSome = true ∧
    trendExpense (statistics utc [unknownType]).monthlyTrend = 40 ∧
    (statistics utc [unknownType]).expense = 0 := by
  have h1 : formatMonthYear utc "2024-04-02" = "Apr 2024" := by decide
  refine ⟨by decide, ?_, ?_⟩
  · simp [statistics, unknownType, monthStep, truthyAt, parseFloat, h1, objectPrototypeKeys,
      trendExpense]
  · simp [statistics, unknownType]

/-- C30 (amended): for every list (with valid dates or not) the incomes of the buckets add up
to income, and the expenses of the buckets add up to the sum of the amounts of all records
whose type is not Income; this is expense when every type is Income or Expense. -/
theorem C30_buckets_add_up (env : Browser) (l : List Transaction) :
    trendIncome (statistics env l).monthlyTrend = (statistics env l).income ∧
    trendExpense (statistics env l).monthlyTrend
      = ((l.filter (fun t => t.type ≠ "Income")).map (fun t => t.amount)).sum ∧
    ((∀ t ∈ l, t.type = "Income" ∨ t.type = "Expense") →
      trendExpense (statistics env l).monthlyTrend = (statistics env l).expense) := by
  have hi := trendIncome_foldl env l [] List.nodup_nil
  have he := trendExpense_foldl env l [] List.nodup_nil
  have he2 : trendExpense (statistics env l).monthlyTrend
      = ((l.filter (fun t => t.type ≠ "Income")).map (fun t => t.amount)).sum := by
    rw [statistics_monthlyTrend env, he]; simp [trendExpense]
  refine ⟨?_, he2, ?_⟩
  · rw [statistics_monthlyTrend env, hi, statistics_income env]; simp [trendIncome]
  · intro hty
    rw [he2, statistics_expense env]
    congr 2
    apply List.filter_congr
    intro t ht
    rw [decide_eq_decide]
    rcases hty t ht with h | h <;> simp [h]

/-- C30 (witness): the three-record scenario has only Income and Expense records. -/
theorem C30_buckets_add_up_witness :
    (∀ t ∈ sampleRecords, t.type = "Income" ∨ t.type = "Expense") ∧
    trendExpense (statistics utc sampleRecords).monthlyTrend
      = (statistics utc sampleRecords).expense :=
  ⟨by decide, (C30_buckets_add_up utc sampleRecords).2.2 (by decide)⟩

/-! ## Category percentages -/

theorem categoryFirstType_spec (key : String) (l : List Transaction)
    (h : (l.any (fun t => t.category = key)) = true) :
    ∃ t ∈ l, t.category = key ∧ t.type = categoryFirstType key l := by
  induction l with
  | nil => simp at h
  | cons t l ih =>
    by_cases hk : t.category = key
    · exact ⟨t, List.mem_cons_self _ _, hk, by simp [categoryFirstType, List.find?_cons, hk]⟩
    · have h2 : (l.any (fun t => t.category = key)) = true := by
        simpa [List.any_cons, hk] using h
      obtain ⟨u, hu, huk, hut⟩ := ih h2
      refine ⟨u, List.mem_cons_of_mem _ hu, huk, ?_⟩
      rw [hut]
      simp [categoryFirstType, List.find?_cons, hk]

/-- Every group has the type of a record of its category. -/
theorem categoryData_type_witness (env : Browser) (l : List Transaction)
    (e : String × CategoryGroup)
    (he : e ∈ (statistics env l).categoryData) :
    ∃ t ∈ l, t.category = e.1 ∧ t.type = e.2.type := by
  obtain ⟨hany, hval⟩ := categoryData_group env l e he
  obtain ⟨t, ht, hk, hT⟩ := categoryFirstType_spec e.1 l hany
  exact ⟨t, ht, hk, by rw [hval]; exact hT⟩

theorem typeTotal_pos (l : List Transaction) (hpos : ∀ t ∈ l, 0 < t.amount) (T : String)
    (t : Transaction) (ht : t ∈ l) (hT : t.type = T) :
    0 < ((l.filter (fun u => u.type = T)).map (fun u => u.amount)).sum := by
  apply List.sum_pos
  · intro x hx
    obtain ⟨u, hu, rfl⟩ := List.mem_map.1 hx
    exact hpos u (List.mem_filter.1 hu).1
  · intro hnil
    have : t ∈ l.filter (fun u => u.type = T) := List.mem_filter.2 ⟨ht, by simpa using hT⟩
    rw [List.map_eq_nil_iff] at hnil
    rw [hnil] at this
    simp at this

theorem typeTotal_pos_of_top (env : Browser) (l : List Transaction) (hpos : ∀ t ∈ l, 0 < t.amount)
    (T : String)
    (e : String × CategoryGroup) (he : e ∈ topCategories T (statistics env l).categoryData) :
    0 < ((l.filter (fun u => u.type = T)).map (fun u => u.amount)).sum := by
  obtain ⟨hcd, hT⟩ := mem_topCategories T _ e he
  obtain ⟨t, ht, _, htT⟩ := categoryData_type_witness env l e hcd
  exact typeTotal_pos l hpos T t ht (htT.trans hT)

theorem categoryPercentage_isSome (a total : ℚ) (h : 0 < total) :
    categoryPercentage a total = some (toFixed1 (toDouble (toDouble (a / total) * 100))) := by
  simp [categoryPercentage, jsDiv, ne_of_gt h]

/-- C22: when all amounts are positive, a non-empty topExpenseCategories comes with a
positive expense and a non-empty topIncomeCategories with a positive income, so every
category percentage that is computed divides by a non-zero total and has a finite value. -/
theorem C22_percentage_total_nonzero (env : Browser) (l : List Transaction)
    (hpos : ∀ t ∈ l, 0 < t.amount) :
    ((statistics env l).topExpenseCategories ≠ [] → 0 < (statistics env l).expense) ∧
    ((statistics env l).topIncomeCategories ≠ [] → 0 < (statistics env l).income) ∧
    (∀ p ∈ expensePercentages (statistics env l), p.isSome = true) ∧
    (∀ p ∈ incomePercentages (statistics env l), p.isSome = true) := by
  have hE : ∀ e ∈ (statistics env l).topExpenseCategories, 0 < (statistics env l).expense := by
    intro e he
    rw [statistics_expense env]
    exact typeTotal_pos_of_top env l hpos "Expense" e he
  have hI : ∀ e ∈ (statistics env l).topIncomeCategories, 0 < (statistics env l).income := by
    intro e he
    rw [statistics_income env]
    exact typeTotal_pos_of_top env l hpos "Income" e he
  refine ⟨?_, ?_, ?_, ?_⟩
  · intro hne
    obtain ⟨e, he⟩ := List.exists_mem_of_ne_nil _ hne
    exact hE e he
  · intro hne
    obtain ⟨e, he⟩ := List.exists_mem_of_ne_nil _ hne
    exact hI e he
  · intro p hp
    obtain ⟨e, he, rfl⟩ := List.mem_map.1 hp
    rw [categoryPercentage_isSome _ _ (hE e he)]; rfl
  · intro p hp
    obtain ⟨e, he, rfl⟩ := List.mem_map.1 hp
    rw [categoryPercentage_isSome _ _ (hI e he)]; rfl

/-- C22 (witness): the three-record scenario, whose amounts are positive and whose expense
is positive. -/
theorem C22_percentage_total_nonzero_witness :
    (∀ t ∈ sampleRecords, 0 < t.amount) ∧
    (∀ p ∈ expensePercentages (statistics utc sampleRecords), p.isSome = true) ∧
    (∀ p ∈ incomePercentages (statistics utc sampleRecords), p.isSome = true) :=
  have hpos : ∀ t ∈ sampleRecords, 0 < t.amount := by
    intro t ht
    simp only [sampleRecords, sampleFood, List.mem_cons, List.mem_singleton,
      List.not_mem_nil, or_false] at ht
    rcases ht with h | h | h <;> rw [h] <;> norm_num
  ⟨hpos, (C22_percentage_total_nonzero utc sampleRecords hpos).2.2.1,
    (C22_percentage_total_nonzero utc sampleRecords hpos).2.2.2⟩

theorem sum_filter_le (l : List Transaction) (hnn : ∀ t ∈ l, 0 ≤ t.amount)
    (p q : Transaction → Bool) (hpq : ∀ t ∈ l, p t = true → q t = true) :
    ((l.filter p).map (fun t => t.amount)).sum ≤ ((l.filter q).map (fun t => t.amount)).sum := by
  induction l with
  | nil => simp
  | cons t l ih =>
    have ih' := ih (fun u hu => hnn u (List.mem_cons_of_mem _ hu))
      (fun u hu => hpq u (List.mem_cons_of_mem _ hu))
    have ht := hnn t (List.mem_cons_self _ _)
    by_cases hp : p t = true
    · have hq := hpq t (List.mem_cons_self _ _) hp
      simp only [List.filter_cons, hp, hq, if_true, List.map_cons, List.sum_cons]
      linarith
    · by_cases hq : q t = true
      · simp only [List.filter_cons, hp, hq, if_true, List.map_cons, List.sum_cons]
        simp only [Bool.false_eq_true, if_false]
        linarith
      · simp only [List.filter_cons, hp, hq]
        simpa using ih'

theorem toFixed1_between (x : ℚ) (h0 : 0 ≤ x) (h1 : x ≤ 100) :
    0 ≤ toFixed1 x ∧ toFixed1 x ≤ 100 := by
  unfold toFixed1
  rw [if_neg (not_lt.2 h0)]
  have hlo : (0 : ℤ) ≤ ⌊x * 10 + 1 / 2⌋ := Int.floor_nonneg.2 (by linarith)
  have hhi : ⌊x * 10 + 1 / 2⌋ ≤ 1000 := by
    have : ⌊x * 10 + 1 / 2⌋ < 1001 := Int.floor_lt.2 (by push_cast; linarith)
    omega
  have hlo' : (0 : ℚ) ≤ (⌊x * 10 + 1 / 2⌋ : ℚ) := by exact_mod_cast hlo
  have hhi' : (⌊x * 10 + 1 / 2⌋ : ℚ) ≤ 1000 := by exact_mod_cast hhi
  constructor
  · positivity
  · linarith

theorem top_amount_le_total (env : Browser) (l : List Transaction) (hpos : ∀ t ∈ l, 0 < t.amount)
    (hty : ∀ a ∈ l, ∀ b ∈ l, a.category = b.category → a.type = b.type) (T : String)
    (e : String × CategoryGroup) (he : e ∈ topCategories T (statistics env l).categoryData) :
    0 ≤ e.2.amount ∧
    e.2.amount ≤ ((l.filter (fun u => u.type = T)).map (fun u => u.amount)).sum := by
  obtain ⟨hcd, hT⟩ := mem_topCategories T _ e he
  obtain ⟨t0, ht0, hk0, hT0⟩ := categoryData_type_witness env l e hcd
  have hamt : e.2.amount = categoryAmount e.1 l := by
    rw [(categoryData_group env l e hcd).2]
  have hnn : ∀ t ∈ l, 0 ≤ t.amount := fun t ht => le_of_lt (hpos t ht)
  rw [hamt]
  constructor
  · unfold categoryAmount
    apply List.sum_nonneg
    intro x hx
    obtain ⟨u, hu, rfl⟩ := List.mem_map.1 hx
    exact hnn u (List.mem_filter.1 hu).1
  · unfold categoryAmount
    apply sum_filter_le l hnn
    intro t ht hp
    simp only [decide_eq_true_eq] at hp ⊢
    rw [hty t ht t0 ht0 (hp.trans hk0.symm), hT0, hT]

theorem percentage_between (a total : ℚ) (h0 : 0 ≤ a) (h1 : a ≤ total) (ht : 0 < total) :
    ∃ v, categoryPercentage a total = some v ∧ 0 ≤ v ∧ v ≤ 100 := by
  refine ⟨_, categoryPercentage_isSome a total ht, ?_⟩
  have hq0 : 0 ≤ a / total := by positivity
  have hq1 : a / total ≤ 1 := (div_le_one ht).2 h1
  have hd0 := toDouble_nonneg _ hq0
  have hd1 := toDouble_le_one _ hq0 hq1
  apply toFixed1_between
  · exact toDouble_nonneg _ (by positivity)
  · exact toDouble_le_hundred _ (by positivity) (by linarith)

/-- C29 (counterexample): with the category "Misc" shared by an Income record of 100 and an
Expense record of 50, both amounts positive, the only entry of topIncomeCategories has amount
150 against an income of 100, and its percentage is 150. -/
theorem C29_counterexample :
    (∀ t ∈ mixedTypeRecords, 0 < t.amount) ∧
    (statistics utc mixedTypeRecords).topIncomeCategories
      = [("Misc", { amount := 150, count := 2, type := "Income" })] ∧
    (statistics utc mixedTypeRecords).income = 100 ∧
    incomePercentages (statistics utc mixedTypeRecords) = [some 150] := by
  have hcd : (statistics utc mixedTypeRecords).categoryData
      = [("Misc", { amount := 150, count := 2, type := "Income" })] := by
    simp [statistics, mixedTypeRecords, categoryStep, truthyAt, objectPrototypeKeys, parseFloat]
    norm_num
  have hi : (statistics utc mixedTypeRecords).income = 100 := by
    simp [statistics, mixedTypeRecords, parseFloat]
  have he : objectEntries [("Misc", ({ amount := 150, count := 2, type := "Income" } : CategoryGroup))]
      = [("Misc", { amount := 150, count := 2, type := "Income" })] := by
    have h1 : arrayIndex "Misc" = none := by decide
    simp [objectEntries, List.filter_cons, h1]
  have htop : (statistics utc mixedTypeRecords).topIncomeCategories
      = [("Misc", { amount := 150, count := 2, type := "Income" })] := by
    rw [statistics_topIncome utc, hcd, topCategories, he]
    simp [jsSort]
  refine ⟨?_, htop, hi, ?_⟩
  · intro t ht
    simp only [mixedTypeRecords, List.mem_cons, List.mem_singleton, List.not_mem_nil,
      or_false] at ht
    rcases ht with h | h <;> rw [h] <;> norm_num
  · have h1 : toDouble (150 / 100) = 3 / 2 := by
      rw [toDouble_exact (150 / 100) 0 (3 * 2 ^ 51) (by rw [abs_of_pos] <;> norm_num)
        (by rw [abs_of_pos] <;> norm_num) (by norm_num)]
      norm_num
    have h2 : toDouble (3 / 2 * 100) = 150 := by
      rw [toDouble_exact (3 / 2 * 100) 7 (150 * 2 ^ 45) (by rw [abs_of_pos] <;> norm_num)
        (by rw [abs_of_pos] <;> norm_num) (by norm_num)]
      norm_num
    have h3 : toFixed1 150 = 150 := by
      rw [toFixed1_eval 150 1500 (by norm_num) (by norm_num) (by norm_num)]
      norm_num
    rw [incomePercentages, htop, hi]
    simp only [List.map_cons, List.map_nil]
    rw [categoryPercentage_isSome _ _ (by norm_num), h1, h2, h3]

/-- C29 (amended): when all amounts are positive and all records of the same category have
the same type, the amount of each entry of topExpenseCategories is at most expense and the
amount of each entry of topIncomeCategories is at most income, and every category percentage
lies between 0 and 100. -/
theorem C29_top_amounts_bounded (env : Browser) (l : List Transaction)
    (hpos : ∀ t ∈ l, 0 < t.amount)
    (hty : ∀ a ∈ l, ∀ b ∈ l, a.category = b.category → a.type = b.type) :
    (∀ e ∈ (statistics env l).topExpenseCategories, e.2.amount ≤ (statistics env l).expense) ∧
    (∀ e ∈ (statistics env l).topIncomeCategories, e.2.amount ≤ (statistics env l).income) ∧
    (∀ p ∈ expensePercentages (statistics env l), ∃ v, p = some v ∧ 0 ≤ v ∧ v ≤ 100) ∧
    (∀ p ∈ incomePercentages (statistics env l), ∃ v, p = some v ∧ 0 ≤ v ∧ v ≤ 100) := by
  have hE : ∀ e ∈ (statistics env l).topExpenseCategories,
      0 ≤ e.2.amount ∧ e.2.amount ≤ (statistics env l).expense ∧
        0 < (statistics env l).expense := by
    intro e he
    rw [statistics_expense env]
    exact ⟨(top_amount_le_total env l hpos hty "Expense" e he).1,
      (top_amount_le_total env l hpos hty "Expense" e he).2,
      typeTotal_pos_of_top env l hpos "Expense" e he⟩
  have hI : ∀ e ∈ (statistics env l).topIncomeCategories,
      0 ≤ e.2.amount ∧ e.2.amount ≤ (statistics env l).income ∧ 0 < (statistics env l).income := by
    intro e he
    rw [statistics_income env]
    exact ⟨(top_amount_le_total env l hpos hty "Income" e he).1,
      (top_amount_le_total env l hpos hty "Income" e he).2,
      typeTotal_pos_of_top env l hpos "Income" e he⟩
  refine ⟨fun e he => (hE e he).2.1, fun e he => (hI e he).2.1, ?_, ?_⟩
  · intro p hp
    obtain ⟨e, he, rfl⟩ := List.mem_map.1 hp
    exact percentage_between _ _ (hE e he).1 (hE e he).2.1 (hE e he).2.2
  · intro p hp
    obtain ⟨e, he, rfl⟩ := List.mem_map.1 hp
    exact percentage_between _ _ (hI e he).1 (hI e he).2.1 (hI e he).2.2

/-- C29 (witness): the three-record scenario. -/
theorem C29_top_amounts_bounded_witness :
    (∀ t ∈ sampleRecords, 0 < t.amount) ∧
    (∀ a ∈ sampleRecords, ∀ b ∈ sampleRecords, a.category = b.category → a.type = b.type) ∧
    (∀ e ∈ (statistics utc sampleRecords).topExpenseCategories,
      e.2.amount ≤ (statistics utc sampleRecords).expense) :=
  have hpos : ∀ t ∈ sampleRecords, 0 < t.amount := by
    intro t ht
    simp only [sampleRecords, sampleFood, List.mem_cons, List.mem_singleton,
      List.not_mem_nil, or_false] at ht
    rcases ht with h | h | h <;> rw [h] <;> norm_num
  ⟨hpos, by decide, (C29_top_amounts_bounded utc sampleRecords hpos (by decide)).1⟩

end ExpenseManager
